import Mathlib

/-!
# Reverse proxy: a shallow embedding of the request-dispatch engine

The C++ sources are embedded as pure Lean functions.

* `std::string` is `String`; a `char` is a `Char`, so `size()` is `String.length`.
* `std::vector` is `List`; a pointer into a vector is the element it points to, or its
  position where two equal elements must be told apart.
* `int` is `Int`, with the range of the type stated where a value must fit it; the sums of
  weights of `select_weighted_random` wrap around as the machine's `int` does (`wrap_int`).
* A string handed to the store client as a value, or read back from it, ends at its first NUL
  character (`c_str`).
* `std::string::npos` and a null pointer are `none`.
* A thrown C++ exception is the `none`/`error` result of the function that throws.
-/

namespace ReverseProxy

/-! ## Configuration data (`src/config/Config.h`) -/

/-- Backend server configuration (`struct BackendServer`). -/
structure BackendServer where
  name : String
  host : String
  port : Int
  weight : Int
  is_healthy : Bool
  deriving DecidableEq, Repr

/-- Route configuration (`struct RouteConfig`). -/
structure RouteConfig where
  path_prefix : String
  backends : List BackendServer
  websocket_enabled : Bool
  cache_enabled : Bool
  cache_ttl_seconds : Int
  deriving DecidableEq, Repr

/-- The constructor `BackendServer(n, h, p, w)`: a new backend starts healthy. -/
def BackendServer.make (n h : String) (p : Int) (w : Int) : BackendServer :=
  { name := n, host := h, port := p, weight := w, is_healthy := true }

/-- The constructor `RouteConfig(prefix)`. -/
def RouteConfig.make (pfx : String) : RouteConfig :=
  { path_prefix := pfx, backends := [], websocket_enabled := false,
    cache_enabled := false, cache_ttl_seconds := 300 }

/-! ## `std::string` primitives -/

/-- The test `s.compare(pos, len, t) == 0`: the substring of `s` that starts at `pos` and has
at most `len` characters is equal to `t`. -/
def compare_eq (s : String) (pos len : Nat) (t : String) : Bool :=
  (s.data.drop pos).take len == t.data

/-! ## `std::map` with `std::string` keys -/

/-- A `std::map<std::string, V>`: an association list kept sorted by key (the order in which the
map is iterated), with at most one entry per key. Keys are compared as `std::string::operator<`
does, lexicographically by character code. -/
abbrev StdMap (V : Type) := List (String × V)

/-- The lookup `m.find(key)`: the mapped value, `none` for `m.end()`. -/
def map_find {V : Type} : StdMap V → String → Option V
  | [], _ => none
  | (k, v) :: rest, key => if key = k then some v else map_find rest key

/-- The assignment `m[key] = v`: replaces the value of an existing key, or inserts the entry at
its place in key order. -/
def map_set {V : Type} : StdMap V → String → V → StdMap V
  | [], key, v => [(key, v)]
  | (k, w) :: rest, key, v =>
      if key.data < k.data then (key, v) :: (k, w) :: rest
      else if key = k then (k, v) :: rest
      else (k, w) :: map_set rest key v

/-- Reading `m[key]`: an absent key is first inserted with the value-initialised `dflt`; the
result is the value read and the map after the access. -/
def map_index {V : Type} (m : StdMap V) (key : String) (dflt : V) : V × StdMap V :=
  match map_find m key with
  | some v => (v, m)
  | none => (dflt, map_set m key dflt)

/-- The exceptions that the embedded code can raise. -/
inductive CppException where
  | invalid_argument
  | out_of_range
  | runtime_error
  | logic_error
  deriving DecidableEq, Repr

deriving instance DecidableEq for Except

/-- Search for `pat` in the text `rest` that starts at index `i` of the whole string. -/
def find_from (pat : List Char) : List Char → Nat → Option Nat
  | [], i => if pat.isEmpty then some i else none
  | c :: cs, i => if pat.isPrefixOf (c :: cs) then some i else find_from pat cs (i + 1)

/-- The call `s.find(pat, pos)`: the first index at or after `pos` where `pat` occurs. -/
def str_find (s pat : String) (pos : Nat) : Option Nat :=
  if pos ≤ s.length then find_from pat.data (s.data.drop pos) pos else none

/-- The test `s.find(pat) != std::string::npos`. -/
def str_contains (s pat : String) : Bool :=
  (str_find s pat 0).isSome

/-- Search for the first character outside `set` in the text `rest` starting at index `i`. -/
def find_first_not_of_from (set : List Char) : List Char → Nat → Option Nat
  | [], _ => none
  | c :: cs, i => if set.contains c then find_first_not_of_from set cs (i + 1) else some i

/-- The call `s.find_first_not_of(set, pos)`. -/
def str_find_first_not_of (s set : String) (pos : Nat) : Option Nat :=
  find_first_not_of_from set.data (s.data.drop pos) pos

/-- The test `s.empty()`. -/
def str_empty (s : String) : Bool :=
  s.data.isEmpty

/-- The call `s.substr(pos, len)`; every use in the embedded code has `pos <= s.size()`. -/
def substr (s : String) (pos len : Nat) : String :=
  ⟨(s.data.drop pos).take len⟩

/-- The call `s.substr(pos)`; every use in the embedded code has `pos <= s.size()`. -/
def substr_from (s : String) (pos : Nat) : String :=
  ⟨s.data.drop pos⟩

/-- The idiom `std::transform(s.begin(), s.end(), s.begin(), ::tolower)`. -/
def to_lower (s : String) : String :=
  ⟨s.data.map Char.toLower⟩

/-- `std::to_string` of an unsigned value: the decimal digits. -/
def to_string_nat (n : Nat) : String :=
  ⟨Nat.toDigits 10 n⟩

/-- `std::to_string` (and `operator<<`) of an `int`. -/
def to_string_int (i : Int) : String :=
  if i < 0 then ⟨'-' :: Nat.toDigits 10 i.natAbs⟩ else ⟨Nat.toDigits 10 i.toNat⟩

/-- `std::isspace` in the C locale. -/
def is_space (c : Char) : Bool :=
  c = ' ' || c = '\t' || c = '\n' || c = '\x0b' || c = '\x0c' || c = '\r'

/-- The value of a run of decimal digits. -/
def digits_value (ds : List Char) : Nat :=
  ds.foldl (fun acc c => acc * 10 + (c.toNat - 48)) 0

/-- Smallest and largest value of an `int`. -/
def INT_MIN : Int := -2147483648

/-- Largest value of an `int`. -/
def INT_MAX : Int := 2147483647

/-- The optional sign that `std::stoi` reads: whether it is a minus sign, and the text after
it. -/
def stoi_sign : List Char → Bool × List Char
  | '-' :: u => (true, u)
  | '+' :: u => (false, u)
  | t => (false, t)

/-- `std::stoi(s)`: skips leading white space, reads an optional sign and the longest run of
decimal digits, ignores what follows; throws `std::invalid_argument` when there is no digit and
`std::out_of_range` when the value does not fit an `int`. -/
def stoi (s : String) : Except CppException Int :=
  let signed := stoi_sign (s.data.dropWhile is_space)
  let ds := signed.2.takeWhile Char.isDigit
  if ds.isEmpty then Except.error CppException.invalid_argument
  else
    let v : Int := if signed.1 then -(digits_value ds : Int) else (digits_value ds : Int)
    if v < INT_MIN ∨ INT_MAX < v then Except.error CppException.out_of_range
    else Except.ok v

/-- Reading a stream with `std::getline` until it fails: the lines between the `\n` characters;
`cur` is the line being read. A read at the end of the stream that extracts nothing fails. -/
def getlines_aux : List Char → List Char → List String
  | [], cur => if cur.isEmpty then [] else [⟨cur⟩]
  | c :: cs, cur => if c = '\n' then ⟨cur⟩ :: getlines_aux cs [] else getlines_aux cs (cur ++ [c])

/-- All the lines successive calls of `std::getline` extract from a stream over `s`. -/
def getlines (s : String) : List String :=
  getlines_aux s.data []

/-- The idiom `if (!line.empty() && line.back() == '\r') line.pop_back();`. -/
def strip_cr (line : String) : String :=
  if line.data.getLast? = some '\r' then ⟨line.data.dropLast⟩ else line

/-- The header-line idiom shared by `header_callback`, `parse_request` and
`get_cached_response`: split at the first colon, skip blanks and tabs after it; `none` when the
line has no colon. -/
def split_header_line (line : String) : Option (String × String) :=
  match str_find line ":" 0 with
  | none => none
  | some colon_pos =>
      let name := substr line 0 colon_pos
      let value :=
        match str_find_first_not_of line " \t" (colon_pos + 1) with
        | some value_start => substr_from line value_start
        | none => ""
      some (name, value)

/-! ## HTTP response (`src/http/ResponseHandler.h`, `src/http/RespnoseHandler.cpp`) -/

/-- The class `HttpResponse`; `status` is the integer value of the `HttpStatus` enumeration. -/
structure HttpResponse where
  status : Int
  headers : StdMap String
  body : String
  deriving DecidableEq, Repr

namespace HttpResponse

/-- The constructors `HttpResponse()` (status 200) and `HttpResponse(status)`. -/
def make (status : Int) : HttpResponse :=
  { status := status
    headers := map_set (map_set [] "Server" "C++ Reverse Proxy") "Connection" "close"
    body := "" }

/-- `HttpResponse::set_status`. -/
def set_status (r : HttpResponse) (status : Int) : HttpResponse :=
  { r with status := status }

/-- `HttpResponse::set_header`. -/
def set_header (r : HttpResponse) (name value : String) : HttpResponse :=
  { r with headers := map_set r.headers name value }

/-- `HttpResponse::set_body`. -/
def set_body (r : HttpResponse) (body content_type : String) : HttpResponse :=
  { r with
    body := body
    headers := map_set (map_set r.headers "Content-Type" content_type)
      "Content-Length" (to_string_nat body.length) }

/-- `HttpResponse::get_header`: the first header, in map order, whose lower-cased name is the
lower-cased `name`. -/
def get_header (r : HttpResponse) (name default_value : String) : String :=
  match r.headers.find? (fun header => to_lower header.1 == to_lower name) with
  | some header => header.2
  | none => default_value

/-- `HttpResponse::get_status_message`. -/
def get_status_message (status : Int) : String :=
  if status = 200 then "OK"
  else if status = 201 then "Created"
  else if status = 202 then "Accepted"
  else if status = 204 then "No Content"
  else if status = 301 then "Moved Permanently"
  else if status = 302 then "Found"
  else if status = 303 then "See Other"
  else if status = 304 then "Not Modified"
  else if status = 307 then "Temporary Redirect"
  else if status = 400 then "Bad Request"
  else if status = 401 then "Unauthorized"
  else if status = 403 then "Forbidden"
  else if status = 404 then "Not Found"
  else if status = 405 then "Method Not Allowed"
  else if status = 429 then "Too Many Requests"
  else if status = 500 then "Internal Server Error"
  else if status = 501 then "Not Implemented"
  else if status = 502 then "Bad Gateway"
  else if status = 503 then "Service Unavailable"
  else if status = 504 then "Gateway Timeout"
  else "Unknown Status"

/-- `HttpResponse::to_string`: status line, the headers in map order, a blank line, the body. -/
def to_string (r : HttpResponse) : String :=
  let status_line := "HTTP/1.1 " ++ to_string_int r.status ++ " " ++
    get_status_message r.status ++ "\r\n"
  let with_headers := r.headers.foldl
    (fun ss header => ss ++ header.1 ++ ": " ++ header.2 ++ "\r\n") status_line
  with_headers ++ "\r\n" ++ r.body

end HttpResponse

/-! ## HTTP request (`src/http/RequestHandler.h`, `src/http/RequestHandler.cpp`) -/

/-- The class `HttpRequest`; `headers` is keyed by the lower-cased header name and
`header_names` maps it to the name as received. -/
structure HttpRequest where
  method : String
  uri : String
  path : String
  query_string : String
  http_version : String
  headers : StdMap String
  body : String
  header_names : StdMap String
  deriving DecidableEq, Repr

namespace HttpRequest

/-- The constructor `HttpRequest(method, uri, http_version)`, which runs `parse_uri`. -/
def make (method uri http_version : String) : HttpRequest :=
  let split : String × String :=
    match str_find uri "?" 0 with
    | some pos => (substr uri 0 pos, substr_from uri (pos + 1))
    | none => (uri, "")
  { method := method, uri := uri, path := split.1, query_string := split.2,
    http_version := http_version, headers := [], body := "", header_names := [] }

/-- `HttpRequest::get_header`. -/
def get_header (r : HttpRequest) (name default_value : String) : String :=
  match map_find r.headers (to_lower name) with
  | some value => value
  | none => default_value

/-- `HttpRequest::set_header`. -/
def set_header (r : HttpRequest) (name value : String) : HttpRequest :=
  { r with
    headers := map_set r.headers (to_lower name) value
    header_names := map_set r.header_names (to_lower name) name }

/-- `HttpRequest::set_body`. -/
def set_body (r : HttpRequest) (body : String) : HttpRequest :=
  { r with body := body }

/-- `HttpRequest::is_websocket_request`. -/
def is_websocket_request (r : HttpRequest) : Bool :=
  r.method == "GET" &&
  str_contains (r.get_header "Upgrade" "") "websocket" &&
  str_contains (r.get_header "Connection" "") "Upgrade"

/-- `HttpRequest::get_original_header_name`. -/
def get_original_header_name (r : HttpRequest) (name : String) : String :=
  match map_find r.header_names name with
  | some original => original
  | none => name

end HttpRequest

/-! ## Configuration object (`class Config`, `src/config/Config.h`) -/

/-- The data members of `Config` that the getters return. -/
structure Config where
  routes : List RouteConfig
  http_port : Int
  websocket_port : Int
  websocket_enabled : Bool
  ssl_enabled : Bool
  ssl_cert_path : String
  ssl_key_path : String
  jwt_auth_enabled : Bool
  jwt_secret : String
  rate_limit : Int
  rate_window_seconds : Int
  gzip_enabled : Bool
  redis_host : String
  redis_port : Int
  redis_password : String
  allowed_origins : List String
  allowed_ips : List String
  deriving DecidableEq, Repr

/-- The constructor `Config::Config()`. -/
def Config.make : Config :=
  { routes := [], http_port := 8080, websocket_port := 8081, websocket_enabled := false,
    ssl_enabled := false, ssl_cert_path := "", ssl_key_path := "", jwt_auth_enabled := false,
    jwt_secret := "", rate_limit := 100, rate_window_seconds := 60, gzip_enabled := true,
    redis_host := "localhost", redis_port := 6379, redis_password := "",
    allowed_origins := [], allowed_ips := [] }

/-! ## Key-value store client (`src/cache/redis.cpp`) -/

/-- The commands `RedisClient` passes to `redisCommand`, with the strings the caller handed to
the client as arguments. -/
inductive RedisCommand where
  | GET (key : String)
  | SET (key value : String)
  | SETEX (key : String) (ttl_seconds : Int) (value : String)
  | INCR (key : String)
  deriving DecidableEq, Repr

/-- A text without a NUL character: such a text passes whole through `c_str()`, the `%s` of
`redisCommand` and the conversion of `reply->str` to a `std::string`. -/
def no_nul (s : String) : Bool :=
  s.data.all (fun c => c.toNat != 0)

/-- A `std::string` read as a C string, as `%s` reads `s.c_str()` and as the conversion
`std::string value = reply->str` reads a reply: the characters before the first NUL. -/
def c_str (s : String) : String :=
  ⟨s.data.takeWhile (fun c => c.toNat != 0)⟩

/-- A key of the store: its string value and its remaining time to live, if it has one. -/
structure RedisEntry where
  value : String
  ttl : Option Int
  deriving DecidableEq, Repr

/-- A `RedisClient` together with the server behind it: whether `redisCommand` obtains a reply
(`reachable`), the keys the server holds, and the commands issued so far, oldest first.
Expiry of keys is a step of the server, not of the client. Values travel as C strings (`%s`,
`reply->str`) and end at their first NUL character (`c_str`). The keys are those the handler
builds from the address of the client and from the request line; the model keeps them whole, so
for keys it is the code's behaviour when they satisfy `no_nul`. -/
structure RedisClient where
  reachable : Bool
  store : StdMap RedisEntry
  sent : List RedisCommand
  deriving DecidableEq, Repr

/-- Smallest value of a 64-bit signed integer. -/
def INT64_MIN : Int := -9223372036854775808

/-- Largest value of a 64-bit signed integer. -/
def INT64_MAX : Int := 9223372036854775807

/-- An optional minus sign in front of a number: whether it is there, and the text after it. -/
def minus_sign : List Char → Bool × List Char
  | '-' :: u => (true, u)
  | t => (false, t)

/-- How the server reads a value for `INCR`: the value must be the decimal representation of a
64-bit signed integer. -/
def redis_integer (value : String) : Option Int :=
  let signed := minus_sign value.data
  let n : Int :=
    if signed.1 then -(digits_value signed.2 : Int) else (digits_value signed.2 : Int)
  if to_string_int n = value ∧ INT64_MIN ≤ n ∧ n ≤ INT64_MAX then some n else none

namespace RedisClient

/-- `RedisClient::get`: the value of the key, read from `reply->str` as a C string, when the
reply is a string, otherwise the empty string; the result is the value and the client after the
command. -/
def get (c : RedisClient) (key : String) : String × RedisClient :=
  let c' := { c with sent := c.sent ++ [RedisCommand.GET key] }
  if c.reachable then
    match map_find c.store key with
    | some entry => (c_str entry.value, c')
    | none => ("", c')
  else ("", c')

/-- `RedisClient::get_int`; `std::stoi` may throw. -/
def get_int (c : RedisClient) (key : String) : Except CppException Int × RedisClient :=
  let rd := c.get key
  if str_empty rd.1 then (Except.ok 0, rd.2) else (stoi rd.1, rd.2)

/-- `RedisClient::set`; the value is formatted with `%s` from `value.c_str()`. -/
def set (c : RedisClient) (key value : String) : RedisClient :=
  { c with
    sent := c.sent ++ [RedisCommand.SET key value]
    store := if c.reachable then map_set c.store key ⟨c_str value, none⟩ else c.store }

/-- `RedisClient::set_with_expiry`: the value is formatted with `%s` from `value.c_str()`, and
the server accepts `SETEX` only with a positive time to live. -/
def set_with_expiry (c : RedisClient) (key value : String) (ttl_seconds : Int) : RedisClient :=
  { c with
    sent := c.sent ++ [RedisCommand.SETEX key ttl_seconds value]
    store :=
      if c.reachable ∧ 0 < ttl_seconds then map_set c.store key ⟨c_str value, some ttl_seconds⟩
      else c.store }

/-- `RedisClient::increment`: `INCR` creates an absent key with value 1, adds one to an integer
value and keeps its time to live, and fails on any other value. -/
def increment (c : RedisClient) (key : String) : RedisClient :=
  { c with
    sent := c.sent ++ [RedisCommand.INCR key]
    store :=
      if c.reachable then
        match map_find c.store key with
        | none => map_set c.store key ⟨"1", none⟩
        | some entry =>
            match redis_integer entry.value with
            | some n =>
                if n + 1 ≤ INT64_MAX then map_set c.store key ⟨to_string_int (n + 1), entry.ttl⟩
                else c.store
            | none => c.store
      else c.store }

end RedisClient

/-! ## External collaborators -/

/-- A `Json::Value` of the JSON library; a real number is kept as a rational. -/
inductive JsonValue where
  | null
  | int (v : Int)
  | uint (v : Nat)
  | real (v : Rat)
  | string (v : String)
  | bool (v : Bool)
  | array (items : List JsonValue)
  | object (members : List (String × JsonValue))

/-- `Json::Value::isInt64`. -/
def JsonValue.isInt64 : JsonValue → Bool
  | JsonValue.int _ => true
  | JsonValue.uint v => decide ((v : Int) ≤ INT64_MAX)
  | JsonValue.real v => decide ((INT64_MIN : Rat) ≤ v ∧ v < (INT64_MAX : Rat) ∧ v.den = 1)
  | _ => false

/-- `Json::Value::asInt64` on a value for which `isInt64` holds. -/
def JsonValue.asInt64 : JsonValue → Int
  | JsonValue.int v => v
  | JsonValue.uint v => (v : Int)
  | JsonValue.real v => v.num.tdiv v.den
  | _ => 0

/-- What one call of `curl_easy_perform` delivers: a transport error with the text of
`curl_easy_strerror`, or the status code, the header lines handed to the header callback and the
body handed to the write callback. -/
inductive CurlResult where
  | failed (strerror : String)
  | done (http_code : Int) (header_lines : List String) (body : String)
  deriving DecidableEq, Repr

/-- The environment of one request: the clock, the random generator and the libraries the proxy
calls (OpenSSL, the JSON parser, libcurl, zlib). -/
structure Env where
  /-- Seconds since the epoch returned by `std::chrono::system_clock::now()`. -/
  now_sec : Int
  /-- The number `dist(gen)` drawn in `select_weighted_random`. -/
  random_weight : Int
  /-- `HMAC(EVP_sha256(), key, data)`. -/
  hmac_sha256 : String → String → String
  /-- Base64 encoding through an OpenSSL filter, without line breaks. -/
  openssl_base64_encode : String → String
  /-- Base64 decoding through an OpenSSL filter: `none` when the read returns no byte. -/
  openssl_base64_decode : String → Option String
  /-- `Json::parseFromStream`: `none` when it returns `false`. -/
  parse_json : String → Option JsonValue
  /-- Whether `curl_easy_init` returns a handle. -/
  curl_init_ok : Bool
  /-- `curl_easy_perform` for a backend URL and the request that is relayed. -/
  curl_perform : String → HttpRequest → CurlResult
  /-- Whether `deflateInit2` returns `Z_OK`. -/
  deflate_init_ok : Bool
  /-- The successive calls `deflate(&zs, Z_FINISH)` on a body: the return code of each call and
  the bytes it writes to the output buffer. -/
  deflate : String → List (Int × String)

/-! ## Authentication (`src/security/auth.cpp`) -/

/-- `std::replace(s.begin(), s.end(), a, b)`. -/
def str_replace (s : String) (a b : Char) : String :=
  ⟨s.data.map (fun c => if c = a then b else c)⟩

/-- The loop `while (!result.empty() && result.back() == '=') result.pop_back();`. -/
def strip_padding (s : String) : String :=
  ⟨(s.data.reverse.dropWhile (fun c => c = '=')).reverse⟩

/-- `Authentication::base64_url_encode`. -/
def base64_url_encode (env : Env) (input : String) : String :=
  strip_padding (str_replace (str_replace (env.openssl_base64_encode input) '+' '-') '/' '_')

/-- `Authentication::base64_url_decode`; throws `std::runtime_error`. -/
def base64_url_decode (env : Env) (input : String) : Except CppException String :=
  let base64 := str_replace (str_replace input '-' '+') '_' '/'
  let padded : Except CppException String :=
    if base64.length % 4 = 0 then Except.ok base64
    else if base64.length % 4 = 2 then Except.ok (base64 ++ "==")
    else if base64.length % 4 = 3 then Except.ok (base64 ++ "=")
    else Except.error CppException.runtime_error
  match padded with
  | Except.error e => Except.error e
  | Except.ok b =>
      match env.openssl_base64_decode b with
      | none => Except.error CppException.runtime_error
      | some decoded =>
          if str_empty decoded then Except.error CppException.runtime_error
          else Except.ok decoded

/-- `Authentication::validate_payload`; `isMember` throws when the payload is neither an object
nor null. -/
def validate_payload (env : Env) (payload_json : String) : Except CppException Bool :=
  match env.parse_json payload_json with
  | none => Except.ok false
  | some JsonValue.null => Except.ok false
  | some (JsonValue.object members) =>
      match map_find members "exp" with
      | none => Except.ok false
      | some exp =>
          if !exp.isInt64 then Except.ok false
          else if env.now_sec > exp.asInt64 then Except.ok false
          else Except.ok true
  | some _ => Except.error CppException.logic_error

/-- `Authentication::verify_jwt` for the secret `secret_`; every exception is caught and gives
`false`. -/
def verify_jwt (env : Env) (secret token : String) : Bool :=
  let first_dot := str_find token "." 0
  let second_dot := str_find token "."
    (match first_dot with
     | some i => i + 1
     | none => 0)
  match first_dot, second_dot with
  | some fd, some sd =>
      let header_b64 := substr token 0 fd
      let payload_b64 := substr token (fd + 1) (sd - fd - 1)
      let signature_b64 := substr_from token (sd + 1)
      let data_to_sign := header_b64 ++ "." ++ payload_b64
      let computed_signature_b64 := base64_url_encode env (env.hmac_sha256 secret data_to_sign)
      if computed_signature_b64 ≠ signature_b64 then false
      else
        match base64_url_decode env payload_b64 with
        | Except.error _ => false
        | Except.ok payload_json =>
            match validate_payload env payload_json with
            | Except.ok result => result
            | Except.error _ => false
  | _, _ => false

/-! ## Load balancer (`src/proxy/loadBalancer.cpp`) -/

/-- The member `health_status_`: route prefix -> backend name -> health flag. -/
abbrev HealthStatus := StdMap (StdMap Bool)

/-- The flag a read of `health_status_[route_prefix][backend_name]` yields in the registry `hs`:
the stored flag, `false` when the pair has no entry. -/
def health_get (hs : HealthStatus) (route_pfx backend_name : String) : Bool :=
  match map_find hs route_pfx with
  | none => false
  | some inner => (map_find inner backend_name).getD false

/-- The expression `health_status_[route_prefix][backend_name]` as an rvalue: both `operator[]`
accesses insert a default entry when the key is absent. -/
def health_index (hs : HealthStatus) (route_pfx backend_name : String) :
    Bool × HealthStatus :=
  let outer := map_index hs route_pfx []
  let inner := map_index outer.1 backend_name false
  (inner.1, map_set outer.2 route_pfx inner.2)

/-- `LoadBalancer::set_backend_health`: `health_status_[route_prefix][backend_name] = healthy`. -/
def set_backend_health (hs : HealthStatus) (route_pfx backend_name : String)
    (healthy : Bool) : HealthStatus :=
  let outer := map_index hs route_pfx []
  map_set outer.2 route_pfx (map_set outer.1 backend_name healthy)

/-- One iteration of the loop of `LoadBalancer::get_healthy_backends`; the state is
`(healthy_backends, health_status_)`. -/
def get_healthy_step (route_pfx : String) (st : List BackendServer × HealthStatus)
    (backend : BackendServer) : List BackendServer × HealthStatus :=
  let rd := health_index st.2 route_pfx backend.name
  if rd.1 then (st.1 ++ [backend], rd.2) else (st.1, rd.2)

/-- `LoadBalancer::get_healthy_backends`: the vector of healthy backends, and the registry after
the reads. -/
def get_healthy_backends (hs : HealthStatus) (route : RouteConfig) :
    List BackendServer × HealthStatus :=
  route.backends.foldl (get_healthy_step route.path_prefix) ([], hs)

/-- The value an `int` holds after an addition whose exact result is `x`: the result itself
when it fits; when it does not, the language leaves the behaviour undefined, and the model takes
what the machine computes, the two's-complement wrap-around. -/
def wrap_int (x : Int) : Int :=
  (x + 2147483648) % 4294967296 - 2147483648

/-- The first loop of `select_weighted_random`: `total_weight`, added up in an `int`. -/
def total_weight (healthy_backends : List BackendServer) : Int :=
  healthy_backends.foldl (fun acc backend => wrap_int (acc + backend.weight)) 0

/-- The second loop of `select_weighted_random`, started with the running sum `weight_sum`: the
position in `healthy_backends` of the backend the loop returns, `none` when the loop ends without
returning. -/
def weighted_walk (random_weight : Int) : List BackendServer → Int → Option Nat
  | [], _ => none
  | backend :: rest, weight_sum =>
      if random_weight ≤ wrap_int (weight_sum + backend.weight) then some 0
      else
        (weighted_walk random_weight rest (wrap_int (weight_sum + backend.weight))).map (· + 1)

/-- The sum of the weights of a list of backends as a number, free of the range of `int`. -/
def weights_sum (healthy_backends : List BackendServer) : Int :=
  healthy_backends.foldl (fun acc backend => acc + backend.weight) 0

/-- The walk over the exact running sums: the first position at which the running sum, started
at `weight_sum`, reaches `random_weight`. -/
def exact_walk (random_weight : Int) : List BackendServer → Int → Option Nat
  | [], _ => none
  | backend :: rest, weight_sum =>
      if random_weight ≤ weight_sum + backend.weight then some 0
      else (exact_walk random_weight rest (weight_sum + backend.weight)).map (· + 1)

/-- The selection of `select_weighted_random` on a non-empty vector of healthy backends:
the backend the walk returns, `healthy_backends.front()` when the walk returns nothing. -/
def weighted_pick (random_weight : Int) (healthy_backends : List BackendServer) :
    Option BackendServer :=
  match weighted_walk random_weight healthy_backends 0 with
  | some i => healthy_backends[i]?
  | none => healthy_backends.head?

/-- `LoadBalancer::select_weighted_random`; `random_weight` is the number `dist(gen)` drawn by the
generator. The result is the selected backend (`none` for `nullptr`) and the registry after the
reads. -/
def select_weighted_random (hs : HealthStatus) (route : RouteConfig) (random_weight : Int) :
    Option BackendServer × HealthStatus :=
  let healthy := get_healthy_backends hs route
  if healthy.1.isEmpty then (none, healthy.2)
  else (weighted_pick random_weight healthy.1, healthy.2)

/-- `LoadBalancer::select_backend`. -/
def select_backend (hs : HealthStatus) (route : RouteConfig) (random_weight : Int) :
    Option BackendServer × HealthStatus :=
  select_weighted_random hs route random_weight

/-- The route of the no-backend scenario: one backend. -/
def s3_route : RouteConfig :=
  { RouteConfig.make "/" with backends := [BackendServer.make "b1" "127.0.0.1" 9001 1] }

/-- A route with two backends of weights 1 and 3. -/
def two_backend_route : RouteConfig :=
  { RouteConfig.make "/api/" with
    backends := [BackendServer.make "a" "10.0.0.2" 9001 1, BackendServer.make "b" "10.0.0.3" 9002 3] }

/-! ## Route lookup (`Config::find_route`, `src/config/Config.cpp`) -/

/-- One iteration of the loop of `Config::find_route`; the state is
`(best_match, best_match_length)`. -/
def find_route_step (path : String) (st : Option RouteConfig × Nat) (route : RouteConfig) :
    Option RouteConfig × Nat :=
  if compare_eq path 0 route.path_prefix.length route.path_prefix then
    if route.path_prefix.length > st.2 then
      (some route, route.path_prefix.length)
    else st
  else st

/-- `Config::find_route`: scan `routes_` in order, starting from `(nullptr, 0)`. -/
def find_route (routes : List RouteConfig) (path : String) : Option RouteConfig :=
  (routes.foldl (find_route_step path) (none, 0)).1

/-- The three routes of the longest-prefix scenario. -/
def s6_routes : List RouteConfig :=
  [RouteConfig.make "/", RouteConfig.make "/api/", RouteConfig.make "/api/v1/"]

/-- The loop invariant of `find_route` after the routes `pre` have been scanned. -/
def find_route_inv (path : String) (pre : List RouteConfig)
    (st : Option RouteConfig × Nat) : Prop :=
  (∀ q ∈ pre, q.path_prefix.data <+: path.data → q.path_prefix.length ≤ st.2) ∧
  match st.1 with
  | none => st.2 = 0
  | some r =>
      st.2 = r.path_prefix.length ∧ 0 < st.2 ∧ r.path_prefix.data <+: path.data ∧
      ∃ i : Nat, pre[i]? = some r ∧
        ∀ j : Nat, j < i → ∀ q : RouteConfig, pre[j]? = some q → q.path_prefix.data <+: path.data →
          q.path_prefix.length < r.path_prefix.length

/-- The constructor `LoadBalancer::LoadBalancer`: every backend of every route is entered in
`health_status_` as healthy. -/
def LoadBalancer_make (config : Config) : HealthStatus :=
  config.routes.foldl
    (fun hs route =>
      route.backends.foldl
        (fun hs' backend => set_backend_health hs' route.path_prefix backend.name true) hs)
    []

/-! ## Proxy handler (`src/proxy/proxyHandler.cpp`) -/

/-- The state of a `ProxyHandler`: the configuration, the secret of the `Authentication` object
`auth_` (absent when `auth_` is null), the store client `redis_client_` (absent when null) and the
health registry of `load_balancer_`. -/
structure ProxyHandler where
  config : Config
  auth : Option String
  redis_client : Option RedisClient
  health_status : HealthStatus
  deriving DecidableEq, Repr

/-- The constructor `ProxyHandler::ProxyHandler`; `server` is the store the new client talks
to. -/
def ProxyHandler.make (config : Config) (server : RedisClient) : ProxyHandler :=
  { config := config
    auth := if config.jwt_auth_enabled then some config.jwt_secret else none
    redis_client := if !str_empty config.redis_host then some server else none
    health_status := LoadBalancer_make config }

/-- The callback `header_callback` on one header line delivered by libcurl. -/
def header_callback (headers : StdMap String) (buffer : String) : StdMap String :=
  let header :=
    if buffer.length ≥ 2 ∧ substr_from buffer (buffer.length - 2) = "\r\n" then
      substr buffer 0 (buffer.length - 2)
    else buffer
  if str_empty header ∨ substr header 0 4 = "HTTP" then headers
  else
    match split_header_line header with
    | some nv => map_set headers nv.1 nv.2
    | none => headers

/-- `ProxyHandler::apply_security_checks`. -/
def apply_security_checks (env : Env) (h : ProxyHandler) (request : HttpRequest)
    (client_ip : String) : Bool :=
  let ip_ok : Bool :=
    if !h.config.allowed_ips.isEmpty then
      h.config.allowed_ips.any
        (fun allowed_ip => allowed_ip == client_ip || allowed_ip == "0.0.0.0" || allowed_ip == "*")
    else true
  if !ip_ok then false
  else
    match h.auth with
    | some secret =>
        if h.config.jwt_auth_enabled then
          if request.method == "OPTIONS" then true
          else
            let auth_header := request.get_header "Authorization" ""
            if str_empty auth_header then false
            else if substr auth_header 0 7 ≠ "Bearer " then false
            else verify_jwt env secret (substr_from auth_header 7)
        else true
    | none => true

/-- `ProxyHandler::apply_cors_headers`. -/
def apply_cors_headers (config : Config) (request : HttpRequest) (response : HttpResponse) :
    HttpResponse :=
  let origin := request.get_header "Origin" ""
  if str_empty origin then response
  else if config.allowed_origins.any
      (fun allowed_origin => allowed_origin == "*" || allowed_origin == origin) then
    ((((response.set_header "Access-Control-Allow-Origin" origin).set_header
      "Access-Control-Allow-Methods" "GET, POST, PUT, DELETE, OPTIONS").set_header
      "Access-Control-Allow-Headers"
      "Origin, Content-Type, Accept, Authorization, X-Requested-With").set_header
      "Access-Control-Allow-Credentials" "true").set_header "Access-Control-Max-Age" "3600"
  else response

/-- `ProxyHandler::check_rate_limit`: the answer (or the exception of `get_int`) and the store
client after the call. -/
def check_rate_limit (config : Config) (redis_client : Option RedisClient)
    (client_ip : String) : Except CppException Bool × Option RedisClient :=
  match redis_client with
  | none => (Except.ok true, none)
  | some redis =>
      let rate_limit := config.rate_limit
      let rate_window := config.rate_window_seconds
      if rate_limit ≤ 0 ∨ rate_window ≤ 0 then (Except.ok true, some redis)
      else
        let key := "rate_limit:" ++ client_ip
        let rd := redis.get_int key
        match rd.1 with
        | Except.error e => (Except.error e, some rd.2)
        | Except.ok count =>
            if count = 0 then (Except.ok true, some (rd.2.set_with_expiry key "1" rate_window))
            else if count < rate_limit then (Except.ok true, some (rd.2.increment key))
            else (Except.ok false, some rd.2)

/-- `ProxyHandler::generate_cache_key`. -/
def generate_cache_key (request : HttpRequest) : String :=
  "cache:" ++ request.method ++ ":" ++ request.uri

/-- The status code of a cached blob's header block, as `get_cached_response` reads it into the
fresh response: the number between the first two blanks of the first line; the response is left
as it is when the block has one line only or the line has fewer than two blanks. `std::stoi` may
throw. -/
def parse_cached_status (headers_str : String) (response : HttpResponse) :
    Except CppException HttpResponse :=
  match str_find headers_str "\r\n" 0 with
  | none => Except.ok response
  | some first_line_end =>
      let status_line := substr headers_str 0 first_line_end
      let code_start := str_find status_line " " 0
      let code_end := str_find status_line " "
        (match code_start with
         | some i => i + 1
         | none => 0)
      match code_start, code_end with
      | some cs, some ce =>
          match stoi (substr status_line (cs + 1) (ce - cs - 1)) with
          | Except.ok code => Except.ok (response.set_status code)
          | Except.error e => Except.error e
      | _, _ => Except.ok response

/-- The header loop of `get_cached_response`: the first line is skipped, the lines up to the
first empty one are split at the colon and entered with `set_header`. -/
def parse_cached_headers (headers_str : String) (response : HttpResponse) : HttpResponse :=
  (((getlines headers_str).drop 1).takeWhile (fun line => !str_empty line)).foldl
    (fun r line =>
      match split_header_line (strip_cr line) with
      | some nv => r.set_header nv.1 nv.2
      | none => r)
    response

/-- The part of `get_cached_response` that parses the blob read from the store: `none` is the
null pointer returned for a blob without a blank line. -/
def parse_cached_response (cached_data : String) : Except CppException (Option HttpResponse) :=
  match str_find cached_data "\r\n\r\n" 0 with
  | none => Except.ok none
  | some header_end =>
      let headers_str := substr cached_data 0 header_end
      let body := substr_from cached_data (header_end + 4)
      match parse_cached_status headers_str (HttpResponse.make 200) with
      | Except.error e => Except.error e
      | Except.ok response =>
          let response := parse_cached_headers headers_str response
          let content_type := response.get_header "Content-Type" "text/plain"
          let response := response.set_body body content_type
          Except.ok (some (response.set_header "X-Proxy-Cache" "HIT"))

/-- `ProxyHandler::get_cached_response` (called with a non-null `redis_client_`): the cached
response, `none` for the null pointer, or the exception that leaves the function; and the store
client after the call. -/
def get_cached_response (redis : RedisClient) (request : HttpRequest) (_route : RouteConfig) :
    Except CppException (Option HttpResponse) × RedisClient :=
  if request.method ≠ "GET" then (Except.ok none, redis)
  else
    let cache_key := generate_cache_key request
    let rd := redis.get cache_key
    if str_empty rd.1 then (Except.ok none, rd.2)
    else (parse_cached_response rd.1, rd.2)

/-- `ProxyHandler::cache_response` (called with a non-null `redis_client_`). -/
def cache_response (redis : RedisClient) (request : HttpRequest) (response : HttpResponse)
    (route : RouteConfig) : RedisClient :=
  if request.method ≠ "GET" ∨ response.status ≠ 200 then redis
  else
    let cache_control := response.get_header "Cache-Control" ""
    if str_contains cache_control "no-store" ∨ str_contains cache_control "no-cache" ∨
        str_contains cache_control "private" then redis
    else
      redis.set_with_expiry (generate_cache_key request) response.to_string
        route.cache_ttl_seconds

/-- The return code `Z_OK` of zlib. -/
def Z_OK : Int := 0

/-- The return code `Z_STREAM_END` of zlib. -/
def Z_STREAM_END : Int := 1

/-- The return code `Z_STREAM_ERROR` of zlib. -/
def Z_STREAM_ERROR : Int := -2

/-- The loop `do ... while (ret == Z_OK)` of `apply_compression` over the successive `deflate`
calls: each call's output is appended to `compressed_body`; the result is the last return code
and `compressed_body`. -/
def deflate_loop : List (Int × String) → String → Int × String
  | [], compressed_body => (Z_STREAM_ERROR, compressed_body)
  | (ret, chunk) :: rest, compressed_body =>
      if ret = Z_OK then deflate_loop rest (compressed_body ++ chunk)
      else (ret, compressed_body ++ chunk)

/-- `ProxyHandler::apply_compression`. -/
def apply_compression (env : Env) (request : HttpRequest) (response : HttpResponse) :
    HttpResponse :=
  let accept_encoding := request.get_header "Accept-Encoding" ""
  if !str_contains accept_encoding "gzip" then response
  else
    let content_type := response.get_header "Content-Type" ""
    let should_compress :=
      str_contains content_type "text/" ||
      str_contains content_type "application/json" ||
      str_contains content_type "application/javascript" ||
      str_contains content_type "application/xml" ||
      str_contains content_type "application/xhtml+xml"
    if !should_compress || decide (response.body.length < 1024) then response
    else if !env.deflate_init_ok then response
    else
      let out := deflate_loop (env.deflate response.body) ""
      if out.1 = Z_STREAM_END ∧ out.2.length < response.body.length then
        (response.set_body out.2 content_type).set_header "Content-Encoding" "gzip"
      else response

/-- The result of `ProxyHandler::forward_request`: the response, the registry after the
selection, and the URL given to `curl_easy_perform` when the request was sent upstream. -/
structure Forwarded where
  response : HttpResponse
  health_status : HealthStatus
  upstream_url : Option String
  deriving DecidableEq, Repr

/-- `ProxyHandler::forward_request`. -/
def forward_request (env : Env) (h : ProxyHandler) (request : HttpRequest)
    (route : RouteConfig) : Forwarded :=
  if !env.curl_init_ok then
    { response := (HttpResponse.make 500).set_body "Internal Server Error" "text/plain"
      health_status := h.health_status, upstream_url := none }
  else
    let sel := select_backend h.health_status route env.random_weight
    match sel.1 with
    | none =>
        { response := (HttpResponse.make 503).set_body "No backend available" "text/plain"
          health_status := sel.2, upstream_url := none }
    | some backend =>
        let backend_url := "http://" ++ backend.host ++ ":" ++ to_string_int backend.port ++
          request.path ++
          (if !str_empty request.query_string then "?" ++ request.query_string else "")
        match env.curl_perform backend_url request with
        | CurlResult.failed strerror =>
            { response := ((HttpResponse.make 200).set_status 502).set_body
                ("Error forwarding request: " ++ strerror) "text/plain"
              health_status := sel.2, upstream_url := some backend_url }
        | CurlResult.done http_code header_lines response_body =>
            let response_headers := header_lines.foldl header_callback []
            let response := (HttpResponse.make 200).set_status http_code
            let content_type :=
              match map_find response_headers "Content-Type" with
              | some ct => ct
              | none => "text/plain"
            let response := response.set_body response_body content_type
            let response := response_headers.foldl
              (fun r header =>
                if header.1 ≠ "Content-Length" ∧ header.1 ≠ "Connection" then
                  r.set_header header.1 header.2
                else r)
              response
            { response := response, health_status := sel.2, upstream_url := some backend_url }

/-- What one call of `handle_request` does: the response it returns (or the exception that
leaves it), the handler state after the call, and the URL of the upstream call if one was
made. -/
structure Outcome where
  response : Except CppException HttpResponse
  handler : ProxyHandler
  upstream_url : Option String
  deriving DecidableEq, Repr

/-- The tail of `handle_request` after a cache miss: forward, cache the response if appropriate,
compress, attach the CORS headers. -/
def handle_request_forward (env : Env) (h : ProxyHandler) (request : HttpRequest)
    (route : RouteConfig) : Outcome :=
  let fwd := forward_request env h request route
  let response := fwd.response
  let redis_client : Option RedisClient :=
    match h.redis_client with
    | some redis =>
        if route.cache_enabled ∧ response.status = 200 ∧ request.method = "GET" then
          some (cache_response redis request response route)
        else some redis
    | none => none
  let response :=
    if h.config.gzip_enabled then apply_compression env request response else response
  let response := apply_cors_headers h.config request response
  { response := Except.ok response
    handler := { h with redis_client := redis_client, health_status := fwd.health_status }
    upstream_url := fwd.upstream_url }

/-- `ProxyHandler::handle_request`. -/
def handle_request (env : Env) (h : ProxyHandler) (request : HttpRequest)
    (client_ip : String) : Outcome :=
  if !apply_security_checks env h request client_ip then
    { response := Except.ok (apply_cors_headers h.config request
        ((HttpResponse.make 403).set_body "Forbidden" "text/plain"))
      handler := h, upstream_url := none }
  else
    let rl := check_rate_limit h.config h.redis_client client_ip
    let h1 := { h with redis_client := rl.2 }
    match rl.1 with
    | Except.error e => { response := Except.error e, handler := h1, upstream_url := none }
    | Except.ok false =>
        { response := Except.ok (apply_cors_headers h.config request
            ((HttpResponse.make 429).set_body "Rate limit exceeded" "text/plain"))
          handler := h1, upstream_url := none }
    | Except.ok true =>
        match find_route h.config.routes request.path with
        | none =>
            { response := Except.ok (apply_cors_headers h.config request
                ((HttpResponse.make 404).set_body "Not Found" "text/plain"))
              handler := h1, upstream_url := none }
        | some route =>
            match h1.redis_client with
            | some redis =>
                if route.cache_enabled then
                  let cached := get_cached_response redis request route
                  let h2 := { h1 with redis_client := some cached.2 }
                  match cached.1 with
                  | Except.error e =>
                      { response := Except.error e, handler := h2, upstream_url := none }
                  | Except.ok (some cached_response) =>
                      { response := Except.ok
                          (apply_cors_headers h.config request cached_response)
                        handler := h2, upstream_url := none }
                  | Except.ok none => handle_request_forward env h2 request route
                else handle_request_forward env h1 request route
            | none => handle_request_forward env h1 request route

/-- The store client after `n` successive calls of `check_rate_limit` for the client
`client_ip`, starting from `redis_client`. -/
def rate_limit_calls (config : Config) (client_ip : String) :
    Nat → Option RedisClient → Option RedisClient
  | 0, redis_client => redis_client
  | n + 1, redis_client =>
      (check_rate_limit config (rate_limit_calls config client_ip n redis_client) client_ip).2

/-- The handler state after `n` successive calls of `handle_request` with the same request from
the same client. -/
def handle_requests (env : Env) (request : HttpRequest) (client_ip : String) :
    Nat → ProxyHandler → ProxyHandler
  | 0, h => h
  | n + 1, h => (handle_request env (handle_requests env request client_ip n h) request
      client_ip).handler

/-- The configuration of the rate-limit scenario: limit 3, window 60 seconds, one route. -/
def s2_config : Config :=
  { Config.make with
    rate_limit := 3, rate_window_seconds := 60
    routes := [{ RouteConfig.make "/" with
      backends := [BackendServer.make "b1" "127.0.0.1" 9001 1] }] }

/-- A store that is reachable and holds no key. -/
def empty_store : RedisClient :=
  { reachable := true, store := [], sent := [] }

/-- A store that cannot be reached. -/
def unreachable_store : RedisClient :=
  { reachable := false, store := [], sent := [] }

/-- An environment for the scenarios: the backend answers 200 with the body `hello`, the
signature of a token is the secret followed by the signed text, the payload `E60` expires at
second 1060, `Em1` at second 999, `Enow` at second 1000 and `Ehlf` at second 1060.5, and the
clock shows second 1000. -/
def scenario_env : Env :=
  { now_sec := 1000
    random_weight := 1
    hmac_sha256 := fun key data => key ++ data
    openssl_base64_encode := fun input => input
    openssl_base64_decode := fun input => some input
    parse_json := fun text =>
      if text = "E60=" then some (JsonValue.object [("exp", JsonValue.int 1060)])
      else if text = "Em1=" then some (JsonValue.object [("exp", JsonValue.int 999)])
      else if text = "Enow" then some (JsonValue.object [("exp", JsonValue.int 1000)])
      else if text = "Ehlf" then some (JsonValue.object [("exp", JsonValue.real { num := 2121, den := 2 })])
      else none
    curl_init_ok := true
    curl_perform := fun _ _ =>
      CurlResult.done 200 ["HTTP/1.1 200 OK\r\n", "Content-Type: text/plain\r\n", "\r\n"] "hello"
    deflate_init_ok := true
    deflate := fun _ => [(1, "")] }

/-! ## Vocabulary of the token claims -/

/-- The parts `header_b64`, `payload_b64` and `signature_b64` into which `verify_jwt` splits a
token at its first two dots; `none` when a dot is missing. -/
def jwt_parts (token : String) : Option (String × String × String) :=
  match str_find token "." 0 with
  | none => none
  | some fd =>
      match str_find token "." (fd + 1) with
      | none => none
      | some sd =>
          some (substr token 0 fd, substr token (fd + 1) (sd - fd - 1),
            substr_from token (sd + 1))

/-- A token is correctly signed for `secret`: it has three parts and the third is the
base64url-encoded HMAC of the first two joined by a dot. -/
def jwt_signed (env : Env) (secret token : String) : Bool :=
  match jwt_parts token with
  | none => false
  | some parts =>
      base64_url_encode env (env.hmac_sha256 secret (parts.1 ++ "." ++ parts.2.1)) == parts.2.2

/-- The `exp` member of the payload of a token: `none` when the payload cannot be decoded or
parsed, is not a JSON object, or has no member `exp`. -/
def jwt_exp (env : Env) (token : String) : Option JsonValue :=
  match jwt_parts token with
  | none => none
  | some parts =>
      match base64_url_decode env parts.2.1 with
      | Except.error _ => none
      | Except.ok payload_json =>
          match env.parse_json payload_json with
          | some (JsonValue.object members) => map_find members "exp"
          | _ => none

/-! ## Vocabulary of the cache claims -/

/-- The four conditions under which a response is to be written to the cache: the method is
`GET`, the status is 200, the `Cache-Control` header of the response contains none of
`no-store`, `no-cache`, `private`, and the route enables caching. -/
def cacheable (request : HttpRequest) (response : HttpResponse) (route : RouteConfig) : Bool :=
  request.method == "GET" && response.status == 200 &&
  !str_contains (response.get_header "Cache-Control" "") "no-store" &&
  !str_contains (response.get_header "Cache-Control" "") "no-cache" &&
  !str_contains (response.get_header "Cache-Control" "") "private" &&
  route.cache_enabled

/-- The representation invariant of a `std::map`: the keys are strictly increasing. -/
def map_sorted {V : Type} (m : StdMap V) : Prop :=
  m.Pairwise (fun a b => a.1.data < b.1.data)

/-- A header name that survives the wire format: no colon, no carriage return, no line feed. -/
def header_name_ok (name : String) : Bool :=
  name.data.all (fun c => c != ':' && c != '\r' && c != '\n')

/-- A header value that survives the wire format: no carriage return, no line feed, and no
blank or tab at its start. -/
def header_value_ok (value : String) : Bool :=
  value.data.all (fun c => c != '\r' && c != '\n') &&
  (match value.data with
   | c :: _ => c != ' ' && c != '\t'
   | [] => true)

/-- The route of the cache scenario: prefix `/api/`, caching enabled with a time to live of 60
seconds, one backend. -/
def s1_config : Config :=
  { Config.make with
    routes := [{ RouteConfig.make "/api/" with
      cache_enabled := true, cache_ttl_seconds := 60
      backends := [BackendServer.make "b1" "127.0.0.1" 9001 1] }] }

/-- The request of the cache scenario. -/
def s1_request : HttpRequest :=
  HttpRequest.make "GET" "/api/x" "HTTP/1.1"

/-! ## The wire format of the headers -/

/-- One header as `to_string` writes it, without the line end: name, colon, blank, value. -/
def wire_line (header : String × String) : List Char :=
  header.1.data ++ ':' :: ' ' :: header.2.data

/-- The header lines as `to_string` writes them, each followed by CR LF. -/
def wire_block : List (String × String) → List Char
  | [] => []
  | header :: rest => wire_line header ++ '\r' :: '\n' :: wire_block rest

/-- The header lines separated by CR LF, without a line end after the last. -/
def wire_join : List (String × String) → List Char
  | [] => []
  | [header] => wire_line header
  | header :: rest => wire_line header ++ '\r' :: '\n' :: wire_join rest

/-- The lines `std::getline` extracts from `wire_join`: every line but the last still carries
its carriage return. -/
def wire_lines : List (String × String) → List String
  | [] => []
  | [header] => [⟨wire_line header⟩]
  | header :: rest => ⟨wire_line header ++ ['\r']⟩ :: wire_lines rest

/-- The status line of `to_string`, without the line end. -/
def wire_status_line (status : Int) : List Char :=
  "HTTP/1.1 ".data ++ (to_string_int status).data ++
    ' ' :: (HttpResponse.get_status_message status).data

/-- The response `forward_request` builds when the backend answers 200 with the body `hello`
and the header `Content-Type: text/plain`. -/
def plain_response : HttpResponse :=
  (HttpResponse.make 200).set_body "hello" "text/plain"

/-- An environment in which the backend answers 200 with the body `{}` and writes the name of
its content-type header in capitals. -/
def capitals_env : Env :=
  { scenario_env with
    curl_perform := fun _ _ =>
      CurlResult.done 200 ["HTTP/1.1 200 OK\r\n", "CONTENT-TYPE: application/json\r\n", "\r\n"]
        "{}" }

/-- The response `forward_request` builds in `capitals_env`: the body is given the default
content type, and the header of the backend is copied under its own name. -/
def capitals_response : HttpResponse :=
  ((HttpResponse.make 200).set_body "{}" "text/plain").set_header "CONTENT-TYPE"
    "application/json"

/-- A handler whose store holds, under the cache key of `s1_request`, a blob whose status line
has a code that is not a number. -/
def bad_blob_handler : ProxyHandler :=
  ProxyHandler.make s1_config
    { reachable := true
      store := [("cache:GET:/api/x", ⟨"HTTP/1.1 abc OK\r\nServer: x\r\n\r\nhello", some 60⟩)]
      sent := [] }

/-! ## Connection handling (`src/http/server.cpp`) -/

/-- What `HttpServer::handle_connection` does for one request: the response whose `to_string`
is written to the socket, the handler state after, and the URL of the upstream call if one was
made. -/
structure Served where
  sent : HttpResponse
  handler : ProxyHandler
  upstream_url : Option String
  deriving DecidableEq, Repr

/-- `HttpServer::handle_connection` from the point where the request is parsed and its body
read (the socket reads before that point are outside the model): a WebSocket upgrade is answered
400 on the spot, every other request goes to `handle_request`, and an exception that leaves
`handle_request` is caught and answered 500. -/
def handle_connection (env : Env) (h : ProxyHandler) (request : HttpRequest)
    (client_ip : String) : Served :=
  if request.is_websocket_request then
    { sent := (HttpResponse.make 400).set_body
        "WebSocket connections should be made to the WebSocket port" "text/plain"
      handler := h, upstream_url := none }
  else
    let out := handle_request env h request client_ip
    match out.response with
    | Except.ok response =>
        { sent := response, handler := out.handler, upstream_url := out.upstream_url }
    | Except.error _ =>
        { sent := (HttpResponse.make 500).set_body "Internal Server Error" "text/plain"
          handler := out.handler, upstream_url := out.upstream_url }

/-! ## Vocabulary of the admission claims -/

/-- The first gate of `apply_security_checks`: the loop over `allowed_ips` that sets the local
flag `ip_allowed`; an empty list lets every client pass. -/
def ip_allowed (config : Config) (client_ip : String) : Bool :=
  if !config.allowed_ips.isEmpty then
    config.allowed_ips.any
      (fun allowed_ip => allowed_ip == client_ip || allowed_ip == "0.0.0.0" || allowed_ip == "*")
  else true

/-- The second gate of `apply_security_checks`: the check of the bearer token, passed by every
request when `auth_` is null or token authentication is switched off. -/
def token_allowed (env : Env) (h : ProxyHandler) (request : HttpRequest) : Bool :=
  match h.auth with
  | some secret =>
      if h.config.jwt_auth_enabled then
        if request.method == "OPTIONS" then true
        else
          let auth_header := request.get_header "Authorization" ""
          if str_empty auth_header then false
          else if substr auth_header 0 7 ≠ "Bearer " then false
          else verify_jwt env secret (substr_from auth_header 7)
      else true
  | none => true

/-- The third gate: `check_rate_limit` returns `true`. -/
def rate_allowed (h : ProxyHandler) (client_ip : String) : Prop :=
  (check_rate_limit h.config h.redis_client client_ip).1 = Except.ok true

/-- The third gate fails: `check_rate_limit` returns `false`. -/
def rate_denied (h : ProxyHandler) (client_ip : String) : Prop :=
  (check_rate_limit h.config h.redis_client client_ip).1 = Except.ok false

instance (h : ProxyHandler) (client_ip : String) : Decidable (rate_allowed h client_ip) := by
  unfold rate_allowed; infer_instance

instance (h : ProxyHandler) (client_ip : String) : Decidable (rate_denied h client_ip) := by
  unfold rate_denied; infer_instance

/-- A configuration with token authentication, a limit of 3 requests per window and the one
route `/api/`. -/
def guarded_config : Config :=
  { s1_config with
    jwt_auth_enabled := true, jwt_secret := "k"
    rate_limit := 3, rate_window_seconds := 60 }

/-- The configuration `guarded_config` with an allow-list of one address. -/
def allow_list_config : Config :=
  { guarded_config with allowed_ips := ["10.0.0.1"] }

/-- A store in which the client `10.0.0.1` has used up a limit of 3. -/
def spent_store : RedisClient :=
  { reachable := true, store := [("rate_limit:10.0.0.1", ⟨"3", some 60⟩)], sent := [] }

/-- A request for a path under `/api/` that carries a correctly signed token expiring at second
1060. -/
def signed_request : HttpRequest :=
  (HttpRequest.make "GET" "/api/x" "HTTP/1.1").set_header "Authorization" "Bearer hd.E60.khd.E60"

/-- A request for a path that no route of the scenarios matches, with the same token. -/
def stray_request : HttpRequest :=
  (HttpRequest.make "GET" "/nowhere" "HTTP/1.1").set_header "Authorization"
    "Bearer hd.E60.khd.E60"

/-- A WebSocket upgrade for a path that no route of the scenarios matches. -/
def upgrade_request : HttpRequest :=
  ((HttpRequest.make "GET" "/nowhere" "HTTP/1.1").set_header "Upgrade" "websocket").set_header
    "Connection" "Upgrade"

/-- A configuration whose allow-list holds the one entry `*`. -/
def star_config : Config :=
  { s2_config with allowed_ips := ["*"] }

/-! ## Vocabulary of the compression claims -/

/-- The test `should_compress` of `apply_compression` on a content type: it contains one of
`text/`, `application/json`, `application/javascript`, `application/xml`,
`application/xhtml+xml`. -/
def compressible_type (content_type : String) : Bool :=
  str_contains content_type "text/" ||
  str_contains content_type "application/json" ||
  str_contains content_type "application/javascript" ||
  str_contains content_type "application/xml" ||
  str_contains content_type "application/xhtml+xml"

/-- A request that accepts gzip. -/
def gzip_request : HttpRequest :=
  (HttpRequest.make "GET" "/api/x" "HTTP/1.1").set_header "Accept-Encoding" "gzip, deflate"

/-- A response with a text body of 1024 bytes. -/
def long_response : HttpResponse :=
  (HttpResponse.make 200).set_body ⟨List.replicate 1024 'a'⟩ "text/plain"

/-- An environment whose encoder finishes in one call with an output of two bytes. -/
def short_output_env : Env :=
  { scenario_env with deflate := fun _ => [(1, "zz")] }

/-! ## Vocabulary of the CORS claims -/

/-- The names of the five headers that `apply_cors_headers` sets. -/
def cors_header_names : List String :=
  ["Access-Control-Allow-Origin", "Access-Control-Allow-Methods",
    "Access-Control-Allow-Headers", "Access-Control-Allow-Credentials",
    "Access-Control-Max-Age"]

/-- The request carries an origin that the configuration allows: the value of its `Origin`
header is not empty, and it is an entry of `allowed_origins` or the list holds `*`. -/
def origin_allowed (config : Config) (request : HttpRequest) : Bool :=
  !str_empty (request.get_header "Origin" "") &&
  (decide (request.get_header "Origin" "" ∈ config.allowed_origins) ||
    decide ("*" ∈ config.allowed_origins))

/-- The response carries the five CORS headers with the values that `apply_cors_headers` gives
them for the origin `origin`. -/
def cors_attached (origin : String) (response : HttpResponse) : Bool :=
  map_find response.headers "Access-Control-Allow-Origin" == some origin &&
  map_find response.headers "Access-Control-Allow-Methods" ==
    some "GET, POST, PUT, DELETE, OPTIONS" &&
  map_find response.headers "Access-Control-Allow-Headers" ==
    some "Origin, Content-Type, Accept, Authorization, X-Requested-With" &&
  map_find response.headers "Access-Control-Allow-Credentials" == some "true" &&
  map_find response.headers "Access-Control-Max-Age" == some "3600"

/-- A configuration that allows the one origin `https://a.example`. -/
def cors_config : Config :=
  { s1_config with allowed_origins := ["https://a.example"] }

/-- A request for a path under `/api/` from the origin `https://a.example`. -/
def cors_request : HttpRequest :=
  (HttpRequest.make "GET" "/api/x" "HTTP/1.1").set_header "Origin" "https://a.example"

/-- A WebSocket upgrade from the origin `https://a.example`. -/
def cors_upgrade_request : HttpRequest :=
  upgrade_request.set_header "Origin" "https://a.example"

/-- The handler `bad_blob_handler` with the configuration `cors_config`. -/
def cors_bad_blob_handler : ProxyHandler :=
  { bad_blob_handler with config := cors_config }

/-! ## Vocabulary of the forwarding claims -/

/-- The configuration of the no-backend scenario: the one route `/` with the one backend
`b1`. -/
def s3_config : Config :=
  { Config.make with routes := [s3_route] }

/-- A handler for `s3_config` in whose registry the backend `b1` is marked unhealthy. -/
def s3_handler : ProxyHandler :=
  { ProxyHandler.make s3_config empty_store with
    health_status := set_backend_health (LoadBalancer_make s3_config) "/" "b1" false }

/-- An environment in which `curl_easy_init` returns no handle. -/
def no_curl_env : Env :=
  { scenario_env with curl_init_ok := false }

/-- A response whose serialised form the parser of `get_cached_response` reads back: the header
map is sorted (the invariant of `std::map`), the status is an `int`, the header names hold no
colon, CR or LF, the header values hold no CR or LF and start with no blank or tab, the
`Server` and `Connection` headers of every constructed response are there, `Content-Length` is
the decimal length of the body, and `Content-Type` is present and is the header that a
case-insensitive lookup of `Content-Type` finds. -/
def well_formed_stored (r : HttpResponse) : Prop :=
  map_sorted r.headers ∧ INT_MIN ≤ r.status ∧ r.status ≤ INT_MAX ∧
  (∀ h ∈ r.headers, header_name_ok h.1 = true ∧ header_value_ok h.2 = true) ∧
  map_find r.headers "Server" ≠ none ∧ map_find r.headers "Connection" ≠ none ∧
  map_find r.headers "Content-Length" = some (to_string_nat r.body.length) ∧
  map_find r.headers "Content-Type" = some (r.get_header "Content-Type" "text/plain")

instance (r : HttpResponse) : Decidable (well_formed_stored r) := by
  unfold well_formed_stored map_sorted; infer_instance

/-- A response with the status 203, a JSON body and the headers `Cache-Control` and `X-Up`
next to those every response has. -/
def rich_response : HttpResponse :=
  ((((HttpResponse.make 203).set_body "[1, 2, 3]" "application/json").set_header
    "Cache-Control" "max-age=60").set_header "X-Up" "1")

/-- A handler for `s1_config` whose store holds, under the cache key of `s1_request`, the
serialised form of `rich_response`. -/
def warm_handler : ProxyHandler :=
  ProxyHandler.make s1_config
    { reachable := true
      store := [("cache:GET:/api/x", ⟨rich_response.to_string, some 60⟩)]
      sent := [] }

/-- The route of `s1_config`. -/
def s1_route : RouteConfig :=
  { RouteConfig.make "/api/" with
    cache_enabled := true, cache_ttl_seconds := 60
    backends := [BackendServer.make "b1" "127.0.0.1" 9001 1] }

/-- An environment in which the backend answers 200 with the body `hello` and writes the names
of its headers in lower case, among them the `content-length` of that body, 5, and a
`connection`. -/
def lower_case_env : Env :=
  { scenario_env with
    curl_perform := fun _ _ =>
      CurlResult.done 200
        ["HTTP/1.1 200 OK\r\n", "content-length: 5\r\n", "connection: keep-alive\r\n",
          "x-up: 1\r\n", "\r\n"]
        "hello" }

/-- The loop of `forward_request` that copies the headers of the backend into the response. -/
def copy_headers (response_headers : StdMap String) (response : HttpResponse) : HttpResponse :=
  response_headers.foldl
    (fun r header =>
      if header.1 ≠ "Content-Length" ∧ header.1 ≠ "Connection" then
        r.set_header header.1 header.2
      else r)
    response

/-! ## Health probe (`LoadBalancer::check_backend_health`) -/

/-- The return code `CURLE_OK` of libcurl. -/
def CURLE_OK : Int := 0

/-- The return code `CURLE_OPERATION_TIMEDOUT` of libcurl. -/
def CURLE_OPERATION_TIMEDOUT : Int := 28

/-- What `curl_easy_perform` delivers for the `HEAD` request of a probe: the `CURLcode` it
returns and the status code that `curl_easy_getinfo(CURLINFO_RESPONSE_CODE)` reports after
it. -/
structure ProbeReply where
  res : Int
  http_code : Int
  deriving DecidableEq, Repr

/-- `LoadBalancer::check_backend_health`; `curl_init_ok` tells whether `curl_easy_init` returns
a handle and `curl_perform_head` is `curl_easy_perform` for the probe of a URL. -/
def check_backend_health (curl_init_ok : Bool) (curl_perform_head : String → ProbeReply)
    (backend : BackendServer) : Bool :=
  if !curl_init_ok then false
  else
    let url := "http://" ++ backend.host ++ ":" ++ to_string_int backend.port ++ "/health"
    let reply := curl_perform_head url
    let is_healthy : Bool := reply.res == CURLE_OK
    if is_healthy then decide (reply.http_code ≥ 200 ∧ reply.http_code < 500)
    else is_healthy

/-- The URL of the probe of a backend. -/
def probe_url (backend : BackendServer) : String :=
  "http://" ++ backend.host ++ ":" ++ to_string_int backend.port ++ "/health"

/-- A request with the method `OPTIONS` and a header that is no bearer token. -/
def options_request : HttpRequest :=
  (HttpRequest.make "OPTIONS" "/api/x" "HTTP/1.1").set_header "Authorization" "Basic abc"

/-! ## Round-robin selection (`LoadBalancer::select_round_robin`) -/

/-- The conversion of an `int` to `size_t` (64 bits). -/
def size_t_of_int (i : Int) : Nat :=
  (i % 18446744073709551616).toNat

/-- `LoadBalancer::select_round_robin`; the state is the registry and the member
`round_robin_counters_`. The result is the selected backend (`none` for `nullptr`), the registry
after the reads and the counters after the call. -/
def select_round_robin (hs : HealthStatus) (counters : StdMap Int) (route : RouteConfig) :
    Option BackendServer × HealthStatus × StdMap Int :=
  let healthy := get_healthy_backends hs route
  if healthy.1.isEmpty then (none, healthy.2, counters)
  else
    let slot := map_index counters route.path_prefix 0
    let counter := slot.1
    let selected := healthy.1[size_t_of_int counter % healthy.1.length]?
    let counter : Int := ((size_t_of_int (counter + 1) % healthy.1.length : Nat) : Int)
    (selected, healthy.2, map_set slot.2 route.path_prefix counter)

/-- The counters that the constructor of `LoadBalancer` builds: 0 for every route. -/
def round_robin_counters_make (config : Config) : StdMap Int :=
  config.routes.foldl (fun counters route => map_set counters route.path_prefix 0) []

/-- The registry and the counters after `k` successive calls of `select_round_robin` for one
route, nothing else touching the registry in between. -/
def round_robin_state (route : RouteConfig) :
    Nat → HealthStatus × StdMap Int → HealthStatus × StdMap Int
  | 0, st => st
  | k + 1, st =>
      (select_round_robin (round_robin_state route k st).1 (round_robin_state route k st).2
        route).2

/-- The backend that the call number `k` (counted from 0) of `select_round_robin` returns. -/
def round_robin_result (route : RouteConfig) (k : Nat) (st : HealthStatus × StdMap Int) :
    Option BackendServer :=
  (select_round_robin (round_robin_state route k st).1 (round_robin_state route k st).2
    route).1

/-- The round-robin rule in the words of the specification: the counter is raised by one on
every selection, and the selection with counter `counter` on the healthy snapshot `H` returns
`H[counter mod |H|]`, nothing when `H` is empty. -/
def spec_round_robin (H : List BackendServer) (counter : Nat) : Option BackendServer × Nat :=
  (if H.isEmpty then none else H[counter % H.length]?, counter + 1)

/-- A registry for `two_backend_route` in which `a` is healthy and `b` is not. -/
def only_a_healthy : HealthStatus :=
  set_backend_health (set_backend_health [] "/api/" "a" true) "/api/" "b" false

/-- A registry for `two_backend_route` in which both backends are healthy. -/
def both_healthy : HealthStatus :=
  set_backend_health (set_backend_health [] "/api/" "a" true) "/api/" "b" true

/-- A configuration with the one route `two_backend_route`. -/
def two_backend_config : Config :=
  { Config.make with routes := [two_backend_route] }

/-! ## Vocabulary of the rate-counter claim -/

/-- The counter of a client as the store holds it: 0 when the key is absent, the number whose
decimal representation the key holds, and nothing when the key holds another text. -/
def rate_counter (redis : RedisClient) (client_ip : String) : Option Int :=
  match map_find redis.store ("rate_limit:" ++ client_ip) with
  | none => some 0
  | some entry => redis_integer entry.value

/-- The configuration `s2_config` with a window of 0 seconds. -/
def no_window_config : Config :=
  { s2_config with rate_window_seconds := 0 }

/-! ## Configuration loading (`Config::load`, `src/config/Config.cpp`) -/

/-- `Json::Value::operator[](key)`: the member of an object, `null` when the object has no such
member or the value is `null`; on any other value the library throws `Json::LogicError`
(a `std::exception`). -/
def JsonValue.index (v : JsonValue) (key : String) : Except CppException JsonValue :=
  match v with
  | JsonValue.null => Except.ok JsonValue.null
  | JsonValue.object members =>
      match map_find members key with
      | some member => Except.ok member
      | none => Except.ok JsonValue.null
  | _ => Except.error CppException.logic_error

/-- `Json::Value::isMember(key)`. -/
def JsonValue.isMember (v : JsonValue) (key : String) : Except CppException Bool :=
  match v with
  | JsonValue.null => Except.ok false
  | JsonValue.object members => Except.ok (map_find members key).isSome
  | _ => Except.error CppException.logic_error

/-- `Json::Value::asInt`. -/
def JsonValue.asInt : JsonValue → Except CppException Int
  | JsonValue.null => Except.ok 0
  | JsonValue.int v =>
      if INT_MIN ≤ v ∧ v ≤ INT_MAX then Except.ok v else Except.error CppException.logic_error
  | JsonValue.uint v =>
      if (v : Int) ≤ INT_MAX then Except.ok (v : Int) else Except.error CppException.logic_error
  | JsonValue.real v =>
      if (INT_MIN : Rat) ≤ v ∧ v ≤ (INT_MAX : Rat) then Except.ok (v.num.tdiv v.den)
      else Except.error CppException.logic_error
  | JsonValue.bool b => Except.ok (if b then 1 else 0)
  | _ => Except.error CppException.logic_error

/-- `Json::Value::asBool`. -/
def JsonValue.asBool : JsonValue → Except CppException Bool
  | JsonValue.null => Except.ok false
  | JsonValue.bool b => Except.ok b
  | JsonValue.int v => Except.ok (decide (v ≠ 0))
  | JsonValue.uint v => Except.ok (decide (v ≠ 0))
  | JsonValue.real v => Except.ok (decide (v ≠ 0))
  | _ => Except.error CppException.logic_error

/-- `Json::Value::asString`; `valueToString` is the library's formatting of a real number. -/
def JsonValue.asString (valueToString : Rat → String) : JsonValue → Except CppException String
  | JsonValue.null => Except.ok ""
  | JsonValue.string s => Except.ok s
  | JsonValue.bool b => Except.ok (if b then "true" else "false")
  | JsonValue.int v => Except.ok (to_string_int v)
  | JsonValue.uint v => Except.ok (to_string_nat v)
  | JsonValue.real v => Except.ok (valueToString v)
  | _ => Except.error CppException.logic_error

/-- The values a range-based `for` over a `Json::Value` visits: the items of an array, the
member values of an object, nothing for any other value. -/
def JsonValue.elements : JsonValue → List JsonValue
  | JsonValue.array items => items
  | JsonValue.object members => members.map (fun member => member.2)
  | _ => []

/-- What `Config::load` finds outside the program: the content of a file (`none` when
`is_open()` is false), the parser, and the library's formatting of a real number. -/
structure LoadEnv where
  ifstream : String → Option String
  parseFromStream : String → Option JsonValue
  valueToString : Rat → String

/-- A chain of `operator[]` accesses from a value. -/
def json_path : JsonValue → List String → Except CppException JsonValue
  | v, [] => Except.ok v
  | v, key :: rest =>
      match v.index key with
      | Except.ok member => json_path member rest
      | Except.error e => Except.error e

/-- An expression `v[k1]...[kn].asInt()`. -/
def read_int (v : JsonValue) (path : List String) : Except CppException Int :=
  match json_path v path with
  | Except.ok member => member.asInt
  | Except.error e => Except.error e

/-- An expression `v[k1]...[kn].asBool()`. -/
def read_bool (v : JsonValue) (path : List String) : Except CppException Bool :=
  match json_path v path with
  | Except.ok member => member.asBool
  | Except.error e => Except.error e

/-- An expression `v[k1]...[kn].asString()`. -/
def read_string (env : LoadEnv) (v : JsonValue) (path : List String) :
    Except CppException String :=
  match json_path v path with
  | Except.ok member => member.asString env.valueToString
  | Except.error e => Except.error e

/-- One statement of the body of `Config::load`: it ends normally or throws, and leaves the
object in a new state either way. -/
abbrev LoadStep := Config → Except CppException Unit × Config

/-- An assignment `member_ = expression`: nothing is stored when the expression throws. -/
def assign_from {α : Type} (value : Except CppException α) (store : Config → α → Config) :
    LoadStep :=
  fun c =>
    match value with
    | Except.ok v => (Except.ok (), store c v)
    | Except.error e => (Except.error e, c)

/-- A statement under `if (flag_)`. -/
def when_set (flag : Config → Bool) (step : LoadStep) : LoadStep :=
  fun c => if flag c then step c else (Except.ok (), c)

/-- Statements in sequence: the first that throws ends the run. -/
def run_steps : List LoadStep → LoadStep
  | [], c => (Except.ok (), c)
  | step :: rest, c =>
      match step c with
      | (Except.ok _, c') => run_steps rest c'
      | (Except.error e, c') => (Except.error e, c')

/-- A loop `for (item : items) member_.push_back(item.asString())`. -/
def push_strings (env : LoadEnv) (store : Config → String → Config) :
    List JsonValue → LoadStep
  | [], c => (Except.ok (), c)
  | item :: rest, c =>
      match item.asString env.valueToString with
      | Except.ok s => push_strings env store rest (store c s)
      | Except.error e => (Except.error e, c)

/-- The body of the inner loop of `Config::parse_routes`: one backend. -/
def parse_backend (env : LoadEnv) (backend : JsonValue) : Except CppException BackendServer := do
  let name ← read_string env backend ["name"]
  let host ← read_string env backend ["host"]
  let port ← read_int backend ["port"]
  let weight ← read_int backend ["weight"]
  pure (BackendServer.make name host port weight)

/-- The inner loop of `Config::parse_routes`. -/
def parse_backends (env : LoadEnv) : List JsonValue → Except CppException (List BackendServer)
  | [] => pure []
  | backend :: rest => do
      let parsed ← parse_backend env backend
      let others ← parse_backends env rest
      pure (parsed :: others)

/-- The body of the outer loop of `Config::parse_routes`: the route that is pushed. -/
def parse_route (env : LoadEnv) (route_json : JsonValue) : Except CppException RouteConfig := do
  let path_prefix ← read_string env route_json ["path_prefix"]
  let websocket_enabled ← read_bool route_json ["websocket_enabled"]
  let cache_enabled ← read_bool route_json ["cache_enabled"]
  let cache_ttl_seconds ←
    if cache_enabled then read_int route_json ["cache_ttl_seconds"]
    else pure (RouteConfig.make path_prefix).cache_ttl_seconds
  let backends_json ← route_json.index "backends"
  let backends ← parse_backends env backends_json.elements
  pure { RouteConfig.make path_prefix with
    websocket_enabled := websocket_enabled, cache_enabled := cache_enabled,
    cache_ttl_seconds := cache_ttl_seconds, backends := backends }

/-- The outer loop of `Config::parse_routes`. -/
def parse_routes_loop (env : LoadEnv) : List JsonValue → LoadStep
  | [], c => (Except.ok (), c)
  | route_json :: rest, c =>
      match parse_route env route_json with
      | Except.ok route => parse_routes_loop env rest { c with routes := c.routes ++ [route] }
      | Except.error e => (Except.error e, c)

/-- `Config::parse_routes`. -/
def parse_routes (env : LoadEnv) (routes_config : JsonValue) : LoadStep :=
  fun c => parse_routes_loop env routes_config.elements { c with routes := [] }

/-- The statements of `Config::load` after the document `root` is parsed, in order. -/
def load_steps (env : LoadEnv) (root : JsonValue) : List LoadStep :=
  [ assign_from (read_int root ["server", "http_port"]) (fun c v => { c with http_port := v }),
    assign_from (read_bool root ["server", "websocket_enabled"])
      (fun c v => { c with websocket_enabled := v }),
    when_set (fun c => c.websocket_enabled)
      (assign_from (read_int root ["server", "websocket_port"])
        (fun c v => { c with websocket_port := v })),
    assign_from (read_bool root ["security", "ssl_enabled"])
      (fun c v => { c with ssl_enabled := v }),
    when_set (fun c => c.ssl_enabled)
      (assign_from (read_string env root ["security", "ssl_cert_path"])
        (fun c v => { c with ssl_cert_path := v })),
    when_set (fun c => c.ssl_enabled)
      (assign_from (read_string env root ["security", "ssl_key_path"])
        (fun c v => { c with ssl_key_path := v })),
    assign_from (read_bool root ["security", "jwt_auth_enabled"])
      (fun c v => { c with jwt_auth_enabled := v }),
    when_set (fun c => c.jwt_auth_enabled)
      (assign_from (read_string env root ["security", "jwt_secret"])
        (fun c v => { c with jwt_secret := v })),
    assign_from (read_int root ["performance", "rate_limit"])
      (fun c v => { c with rate_limit := v }),
    assign_from (read_int root ["performance", "rate_window_seconds"])
      (fun c v => { c with rate_window_seconds := v }),
    assign_from (read_bool root ["performance", "gzip_enabled"])
      (fun c v => { c with gzip_enabled := v }),
    assign_from (read_string env root ["cache", "redis_host"])
      (fun c v => { c with redis_host := v }),
    assign_from (read_int root ["cache", "redis_port"]) (fun c v => { c with redis_port := v }),
    (fun c =>
      match json_path root ["cache"] with
      | Except.error e => (Except.error e, c)
      | Except.ok cache =>
          match cache.isMember "redis_password" with
          | Except.error e => (Except.error e, c)
          | Except.ok true =>
              assign_from (read_string env root ["cache", "redis_password"])
                (fun c v => { c with redis_password := v }) c
          | Except.ok false => (Except.ok (), c)),
    (fun c =>
      match json_path root ["security", "cors", "allowed_origins"] with
      | Except.error e => (Except.error e, c)
      | Except.ok origins =>
          push_strings env (fun c s => { c with allowed_origins := c.allowed_origins ++ [s] })
            origins.elements c),
    (fun c =>
      match json_path root ["security", "ip_whitelist"] with
      | Except.error e => (Except.error e, c)
      | Except.ok ips =>
          push_strings env (fun c s => { c with allowed_ips := c.allowed_ips ++ [s] })
            ips.elements c),
    (fun c =>
      match json_path root ["routes"] with
      | Except.error e => (Except.error e, c)
      | Except.ok routes_config => parse_routes env routes_config c) ]

/-- `Config::load`: the returned flag and the object after the call. An exception thrown by a
statement of the body is caught and turns into the answer `false`. -/
def Config.load (env : LoadEnv) (config_path : String) (c : Config) : Bool × Config :=
  match env.ifstream config_path with
  | none => (false, c)
  | some content =>
      match env.parseFromStream content with
      | none => (false, c)
      | some root =>
          match run_steps (load_steps env root) c with
          | (Except.ok _, c') => (true, c')
          | (Except.error _, c') => (false, c')

/-- Modelled from the spec: the file `config/proxyConfig.json` of the test is not under src/;
this is a document with the values the test asserts (port 8080, WebSocket enabled on port 8081,
SSL enabled with the two paths) in the schema of the specification. -/
def proxyConfig_json : JsonValue :=
  JsonValue.object
    [("routes", JsonValue.array
        [JsonValue.object
          [("backends", JsonValue.array
              [JsonValue.object
                [("host", JsonValue.string "127.0.0.1"), ("name", JsonValue.string "b1"),
                  ("port", JsonValue.int 9001), ("weight", JsonValue.int 1)]]),
            ("cache_enabled", JsonValue.bool true),
            ("cache_ttl_seconds", JsonValue.int 60),
            ("path_prefix", JsonValue.string "/api/")]]),
      ("security", JsonValue.object
        [("ssl_cert_path", JsonValue.string "/etc/ssl/certs/fullchain.pem"),
          ("ssl_enabled", JsonValue.bool true),
          ("ssl_key_path", JsonValue.string "/etc/ssl/private/privkey.pem")]),
      ("server", JsonValue.object
        [("http_port", JsonValue.int 8080), ("websocket_enabled", JsonValue.bool true),
          ("websocket_port", JsonValue.int 8081)])]

/-- Modelled from the spec: the files of the test are not under src/; in this environment
`../config/proxyConfig.json` holds a text that parses to `proxyConfig_json`,
`../config/invalidConfig.json` holds a text that is not JSON, and no other file exists. -/
def test_load_env : LoadEnv :=
  { ifstream := fun path =>
      if path = "../config/proxyConfig.json" then some "proxyConfig"
      else if path = "../config/invalidConfig.json" then some "\x7b invalid"
      else none
    parseFromStream := fun content =>
      if content = "proxyConfig" then some proxyConfig_json else none
    valueToString := fun _ => "" }

/-! ## Vocabulary of the configuration claim -/

/-- The member `key` of a document, `null` when it has none. -/
def json_member (v : JsonValue) (key : String) : JsonValue :=
  match v with
  | JsonValue.object members => (map_find members key).getD JsonValue.null
  | _ => JsonValue.null

/-- A section of the configuration: an object, or absent. -/
def is_section : JsonValue → Bool
  | JsonValue.null => true
  | JsonValue.object _ => true
  | _ => false

/-- An integer field: an integer in the range of `int`, or absent. -/
def is_int_field : JsonValue → Bool
  | JsonValue.null => true
  | JsonValue.int v => decide (INT_MIN ≤ v ∧ v ≤ INT_MAX)
  | _ => false

/-- A boolean field: `true` or `false`, or absent. -/
def is_bool_field : JsonValue → Bool
  | JsonValue.null => true
  | JsonValue.bool _ => true
  | _ => false

/-- A string field: a string, or absent. -/
def is_string_field : JsonValue → Bool
  | JsonValue.null => true
  | JsonValue.string _ => true
  | _ => false

/-- A list of strings: an array of strings, or absent. -/
def is_string_list : JsonValue → Bool
  | JsonValue.null => true
  | JsonValue.array items => items.all is_string_field
  | _ => false

/-- A backend of a route: an object with the string fields `name` and `host` and the integer
fields `port` and `weight`. -/
def is_backend_json (v : JsonValue) : Bool :=
  is_section v &&
  is_string_field (json_member v "name") && is_string_field (json_member v "host") &&
  is_int_field (json_member v "port") && is_int_field (json_member v "weight")

/-- A list of backends: an array of backends, or absent. -/
def is_backend_list : JsonValue → Bool
  | JsonValue.null => true
  | JsonValue.array items => items.all is_backend_json
  | _ => false

/-- A route: an object with the fields of the schema. -/
def is_route_json (v : JsonValue) : Bool :=
  is_section v &&
  is_string_field (json_member v "path_prefix") &&
  is_bool_field (json_member v "websocket_enabled") &&
  is_bool_field (json_member v "cache_enabled") &&
  is_int_field (json_member v "cache_ttl_seconds") &&
  is_backend_list (json_member v "backends")

/-- A list of routes: an array of routes, or absent. -/
def is_route_list : JsonValue → Bool
  | JsonValue.null => true
  | JsonValue.array items => items.all is_route_json
  | _ => false

/-- A well-formed configuration: a document whose sections are objects and whose fields, where
present, have the types of the schema. -/
def well_formed_config (root : JsonValue) : Bool :=
  is_section root &&
  is_section (json_member root "server") &&
  is_section (json_member root "security") &&
  is_section (json_member (json_member root "security") "cors") &&
  is_section (json_member root "performance") &&
  is_section (json_member root "cache") &&
  is_int_field (json_member (json_member root "server") "http_port") &&
  is_bool_field (json_member (json_member root "server") "websocket_enabled") &&
  is_int_field (json_member (json_member root "server") "websocket_port") &&
  is_bool_field (json_member (json_member root "security") "ssl_enabled") &&
  is_string_field (json_member (json_member root "security") "ssl_cert_path") &&
  is_string_field (json_member (json_member root "security") "ssl_key_path") &&
  is_bool_field (json_member (json_member root "security") "jwt_auth_enabled") &&
  is_string_field (json_member (json_member root "security") "jwt_secret") &&
  is_int_field (json_member (json_member root "performance") "rate_limit") &&
  is_int_field (json_member (json_member root "performance") "rate_window_seconds") &&
  is_bool_field (json_member (json_member root "performance") "gzip_enabled") &&
  is_string_field (json_member (json_member root "cache") "redis_host") &&
  is_int_field (json_member (json_member root "cache") "redis_port") &&
  is_string_field (json_member (json_member root "cache") "redis_password") &&
  is_string_list
    (json_member (json_member (json_member root "security") "cors") "allowed_origins") &&
  is_string_list (json_member (json_member root "security") "ip_whitelist") &&
  is_route_list (json_member root "routes")

/-- The six values the test reads through the getters. -/
def tested_getters (c : Config) : Int × Bool × Int × Bool × String × String :=
  (c.http_port, c.websocket_enabled, c.websocket_port, c.ssl_enabled, c.ssl_cert_path,
    c.ssl_key_path)

/-! ## Vocabulary of the overflow cases -/

/-- Two healthy backends whose weights are the largest `int` and 1: their sum does not fit an
`int`. -/
def heavy_first : List BackendServer :=
  [BackendServer.make "x" "10.0.0.2" 9001 2147483647, BackendServer.make "y" "10.0.0.3" 9002 1]

theorem compare_eq_prefix_iff (path p : String) :
    compare_eq path 0 p.length p = true ↔ p.data <+: path.data := by
  unfold compare_eq
  simp only [List.drop_zero, beq_iff_eq, String.length]
  constructor
  · intro h
    rw [← h]
    exact List.take_prefix _ _
  · intro h
    exact List.prefix_iff_eq_take.mp h |>.symm

theorem find_route_inv_step (path : String) (pre : List RouteConfig)
    (st : Option RouteConfig × Nat) (x : RouteConfig) (h : find_route_inv path pre st) :
    find_route_inv path (pre ++ [x]) (find_route_step path st x) := by
  obtain ⟨best, len⟩ := st
  obtain ⟨hmax, hbest⟩ := h
  simp only at hmax hbest
  unfold find_route_step
  by_cases hm : compare_eq path 0 x.path_prefix.length x.path_prefix = true
  · have hpre := (compare_eq_prefix_iff path x.path_prefix).mp hm
    by_cases hl : x.path_prefix.length > len
    · simp only [hm, hl, if_true]
      refine ⟨?_, rfl, by omega, hpre, pre.length, ?_, ?_⟩
      · intro q hq hqm
        rcases List.mem_append.mp hq with hq | hq
        · exact le_of_lt (lt_of_le_of_lt (hmax q hq hqm) hl)
        · simp only [List.mem_singleton] at hq
          subst hq
          exact le_refl _
      · simp
      · intro j hj q hq hqm
        rw [List.getElem?_append_left hj] at hq
        exact lt_of_le_of_lt (hmax q (List.getElem?_mem hq) hqm) hl
    · simp only [hm, hl, if_true, if_false]
      refine ⟨?_, ?_⟩
      · intro q hq hqm
        rcases List.mem_append.mp hq with hq | hq
        · exact hmax q hq hqm
        · simp only [List.mem_singleton] at hq
          subst hq
          exact not_lt.mp hl
      · cases best with
        | none => exact hbest
        | some r =>
          obtain ⟨h1, h2, h3, i, hi, hfirst⟩ := hbest
          have hilt : i < pre.length := (List.getElem?_eq_some_iff.mp hi).1
          refine ⟨h1, h2, h3, i, ?_, ?_⟩
          · rw [List.getElem?_append_left hilt]; exact hi
          · intro j hj q hq hqm
            rw [List.getElem?_append_left (lt_trans hj hilt)] at hq
            exact hfirst j hj q hq hqm
  · simp only [hm, if_false]
    have hnp : ¬ x.path_prefix.data <+: path.data :=
      fun hp => hm ((compare_eq_prefix_iff path x.path_prefix).mpr hp)
    refine ⟨?_, ?_⟩
    · intro q hq hqm
      rcases List.mem_append.mp hq with hq | hq
      · exact hmax q hq hqm
      · simp only [List.mem_singleton] at hq
        subst hq
        exact absurd hqm hnp
    · cases best with
      | none => exact hbest
      | some r =>
        obtain ⟨h1, h2, h3, i, hi, hfirst⟩ := hbest
        have hilt : i < pre.length := (List.getElem?_eq_some_iff.mp hi).1
        refine ⟨h1, h2, h3, i, ?_, ?_⟩
        · rw [List.getElem?_append_left hilt]; exact hi
        · intro j hj q hq hqm
          rw [List.getElem?_append_left (lt_trans hj hilt)] at hq
          exact hfirst j hj q hq hqm

theorem find_route_inv_foldl (path : String) (suf : List RouteConfig) :
    ∀ (pre : List RouteConfig) (st : Option RouteConfig × Nat),
      find_route_inv path pre st →
      find_route_inv path (pre ++ suf) (suf.foldl (find_route_step path) st) := by
  induction suf with
  | nil => intro pre st h; simpa using h
  | cons x xs ih =>
    intro pre st h
    have := ih (pre ++ [x]) (find_route_step path st x) (find_route_inv_step path pre st x h)
    simpa [List.append_assoc] using this

theorem find_route_inv_final (routes : List RouteConfig) (path : String) :
    find_route_inv path routes (routes.foldl (find_route_step path) (none, 0)) := by
  have h0 : find_route_inv path [] (none, 0) := by
    refine ⟨?_, rfl⟩
    intro q hq
    cases hq
  simpa using find_route_inv_foldl path routes [] (none, 0) h0

/-- C1: whenever `find_route` returns a route `r`, the prefix of `r` is a prefix of the path,
no route of the table whose prefix is a prefix of the path has a longer prefix, and `r` stands at
a position `i` of the table such that every matching route before `i` has a strictly shorter
prefix (the first route with the longest matching prefix wins). -/
theorem find_route_longest_prefix_first (routes : List RouteConfig) (path : String)
    (r : RouteConfig) (h : find_route routes path = some r) :
    r.path_prefix.data <+: path.data ∧
    (∀ q ∈ routes, q.path_prefix.data <+: path.data →
      q.path_prefix.length ≤ r.path_prefix.length) ∧
    ∃ i : Nat, routes[i]? = some r ∧
      ∀ j : Nat, j < i → ∀ q : RouteConfig, routes[j]? = some q →
        q.path_prefix.data <+: path.data → q.path_prefix.length < r.path_prefix.length := by
  have hinv := find_route_inv_final routes path
  unfold find_route at h
  obtain ⟨hmax, hbest⟩ := hinv
  rw [h] at hbest
  obtain ⟨hlen, _, hpre, hfirst⟩ := hbest
  refine ⟨hpre, ?_, hfirst⟩
  intro q hq hqm
  rw [← hlen]
  exact hmax q hq hqm

/-- C1, the longest-prefix scenario: with the table `/`, `/api/`, `/api/v1/` the path `/api/v1/x`
is routed to `/api/v1/`, `/api/y` to `/api/` and `/z` to `/`; the theorem applies to the first. -/
theorem find_route_longest_prefix_first_witness :
    find_route s6_routes "/api/v1/x" = some (RouteConfig.make "/api/v1/") ∧
    find_route s6_routes "/api/y" = some (RouteConfig.make "/api/") ∧
    find_route s6_routes "/z" = some (RouteConfig.make "/") ∧
    ("/api/v1/".data <+: "/api/v1/x".data ∧
      (∀ q ∈ s6_routes, q.path_prefix.data <+: "/api/v1/x".data →
        q.path_prefix.length ≤ "/api/v1/".length) ∧
      ∃ i : Nat, s6_routes[i]? = some (RouteConfig.make "/api/v1/") ∧
        ∀ j : Nat, j < i → ∀ q : RouteConfig, s6_routes[j]? = some q →
          q.path_prefix.data <+: "/api/v1/x".data →
          q.path_prefix.length < "/api/v1/".length) :=
  ⟨by decide, by decide, by decide,
    find_route_longest_prefix_first s6_routes "/api/v1/x" (RouteConfig.make "/api/v1/")
      (by decide)⟩

/-! ## `std::map` -/

theorem map_find_set {V : Type} (m : StdMap V) (key : String) (v : V) (key' : String) :
    map_find (map_set m key v) key' = if key' = key then some v else map_find m key' := by
  induction m with
  | nil => simp [map_set, map_find]
  | cons e rest ih =>
    obtain ⟨k, w⟩ := e
    unfold map_set
    by_cases h1 : key.data < k.data
    · simp [h1, map_find]
    · by_cases h2 : key = k
      · subst h2
        simp only [h1, if_false, if_true, map_find]
        by_cases h3 : key' = key <;> simp [h3]
      · simp only [h1, h2, if_false, map_find, ih]
        by_cases h3 : key' = k
        · have h4 : key' ≠ key := fun h => h2 (h ▸ h3)
          subst h3
          simp [h4]
        · simp [h3]

theorem map_index_fst {V : Type} (m : StdMap V) (key : String) (dflt : V) :
    (map_index m key dflt).1 = (map_find m key).getD dflt := by
  unfold map_index
  cases map_find m key <;> rfl

theorem map_find_index {V : Type} (m : StdMap V) (key : String) (dflt : V) (key' : String) :
    map_find (map_index m key dflt).2 key' =
      if key' = key then some ((map_find m key).getD dflt) else map_find m key' := by
  unfold map_index
  cases h : map_find m key with
  | none =>
    simp only [map_find_set, Option.getD_none]
  | some v =>
    by_cases h3 : key' = key
    · simp [h3, h]
    · simp [h3]

/-! ## Health registry and healthy snapshot -/

theorem health_index_fst (hs : HealthStatus) (p n : String) :
    (health_index hs p n).1 = health_get hs p n := by
  unfold health_index health_get
  simp only [map_index_fst]
  cases map_find hs p <;> simp [map_find]

theorem health_get_index (hs : HealthStatus) (p n p' n' : String) :
    health_get (health_index hs p n).2 p' n' = health_get hs p' n' := by
  unfold health_index health_get
  simp only [map_find_set, map_find_index, map_index_fst]
  by_cases hp : p' = p
  · subst hp
    simp only [if_true]
    by_cases hn : n' = n
    · subst hn
      cases map_find hs p' <;> simp [map_find, map_find_index]
    · cases map_find hs p' <;> simp [map_find, map_find_index, hn]
  · simp [hp]

/-- The snapshot loop appends, in order, the backends whose flag is `true`, and leaves every flag
of the registry as it was. -/
theorem get_healthy_foldl (pfx : String) (bs : List BackendServer) :
    ∀ (acc : List BackendServer) (hs : HealthStatus),
      (bs.foldl (get_healthy_step pfx) (acc, hs)).1 =
          acc ++ bs.filter (fun b => health_get hs pfx b.name) ∧
      ∀ p n, health_get (bs.foldl (get_healthy_step pfx) (acc, hs)).2 p n = health_get hs p n := by
  induction bs with
  | nil => intro acc hs; simp
  | cons b rest ih =>
    intro acc hs
    have hfilter : rest.filter (fun x => health_get (health_index hs pfx b.name).2 pfx x.name) =
        rest.filter (fun x => health_get hs pfx x.name) := by
      congr 1
      funext x
      rw [health_get_index]
    simp only [List.foldl_cons, get_healthy_step, health_index_fst]
    by_cases hb : health_get hs pfx b.name = true
    · simp only [hb, if_true]
      obtain ⟨h1, h2⟩ := ih (acc ++ [b]) (health_index hs pfx b.name).2
      refine ⟨?_, ?_⟩
      · rw [h1, hfilter]
        simp [List.filter_cons, hb]
      · intro p n
        rw [h2, health_get_index]
    · simp only [hb, Bool.false_eq_true, if_false]
      obtain ⟨h1, h2⟩ := ih acc (health_index hs pfx b.name).2
      refine ⟨?_, ?_⟩
      · rw [h1, hfilter]
        simp [List.filter_cons, hb]
      · intro p n
        rw [h2, health_get_index]

theorem get_healthy_backends_fst (hs : HealthStatus) (route : RouteConfig) :
    (get_healthy_backends hs route).1 =
      route.backends.filter (fun b => health_get hs route.path_prefix b.name) := by
  unfold get_healthy_backends
  simpa using (get_healthy_foldl route.path_prefix route.backends [] hs).1

theorem get_healthy_backends_flags (hs : HealthStatus) (route : RouteConfig) (p n : String) :
    health_get (get_healthy_backends hs route).2 p n = health_get hs p n := by
  unfold get_healthy_backends
  exact (get_healthy_foldl route.path_prefix route.backends [] hs).2 p n

/-! ## Weighted random selection -/

theorem weighted_walk_lt (r : Int) (H : List BackendServer) :
    ∀ (s : Int) (i : Nat), weighted_walk r H s = some i → i < H.length := by
  induction H with
  | nil => intro s i h; simp [weighted_walk] at h
  | cons b rest ih =>
    intro s i h
    unfold weighted_walk at h
    by_cases hc : r ≤ wrap_int (s + b.weight)
    · simp only [hc, if_true, Option.some.injEq] at h
      subst h
      simp
    · simp only [hc, if_false, Option.map_eq_some'] at h
      obtain ⟨j, hj, rfl⟩ := h
      have := ih _ _ hj
      simp only [List.length_cons]
      omega

theorem weighted_pick_mem (r : Int) (H : List BackendServer) (hne : H ≠ []) :
    ∃ b, weighted_pick r H = some b ∧ b ∈ H := by
  unfold weighted_pick
  cases h : weighted_walk r H 0 with
  | none =>
    cases H with
    | nil => exact absurd rfl hne
    | cons b rest => exact ⟨b, rfl, List.mem_cons_self _ _⟩
  | some i =>
    have hi := weighted_walk_lt r H 0 i h
    refine ⟨H[i], ?_, List.getElem_mem _⟩
    simp [List.getElem?_eq_getElem hi]

theorem weights_sum_foldl (H : List BackendServer) :
    ∀ s : Int, H.foldl (fun acc backend => acc + backend.weight) s = s + weights_sum H := by
  unfold weights_sum
  induction H with
  | nil => intro s; simp
  | cons b rest ih =>
    intro s
    simp only [List.foldl_cons]
    rw [ih (s + b.weight), ih (0 + b.weight)]
    omega

theorem weights_sum_nil : weights_sum [] = 0 := rfl

theorem weights_sum_cons (b : BackendServer) (rest : List BackendServer) :
    weights_sum (b :: rest) = b.weight + weights_sum rest := by
  have h := weights_sum_foldl rest (0 + b.weight)
  unfold weights_sum at h ⊢
  simp only [List.foldl_cons]
  rw [h]
  omega

theorem weights_sum_append (l₁ l₂ : List BackendServer) :
    weights_sum (l₁ ++ l₂) = weights_sum l₁ + weights_sum l₂ := by
  induction l₁ with
  | nil => simp [weights_sum_nil]
  | cons b rest ih =>
    simp only [List.cons_append, weights_sum_cons, ih]
    omega

theorem weights_sum_nonneg (H : List BackendServer) (hw : ∀ b ∈ H, 0 ≤ b.weight) :
    0 ≤ weights_sum H := by
  induction H with
  | nil => simp [weights_sum_nil]
  | cons b rest ih =>
    rw [weights_sum_cons]
    have h1 := hw b (List.mem_cons_self _ _)
    have h2 := ih (fun c hc => hw c (List.mem_cons_of_mem _ hc))
    omega

theorem weights_sum_take_succ (H : List BackendServer) (i : Nat) (hi : i < H.length) :
    weights_sum (H.take (i + 1)) = weights_sum (H.take i) + H[i].weight := by
  rw [List.take_succ, weights_sum_append, List.getElem?_eq_getElem hi]
  simp [weights_sum_cons, weights_sum_nil]

theorem weights_sum_take_le (H : List BackendServer) (hw : ∀ b ∈ H, 0 ≤ b.weight) (i : Nat) :
    weights_sum (H.take i) ≤ weights_sum H := by
  have h := weights_sum_append (H.take i) (H.drop i)
  rw [List.take_append_drop] at h
  have h2 := weights_sum_nonneg (H.drop i) (fun b hb => hw b (List.mem_of_mem_drop hb))
  omega

/-- The walk started with running sum `s < r` returns position `i` exactly when `r` lies in the
`i`-th interval of the running sums. -/
theorem exact_walk_eq_some_iff (r : Int) (H : List BackendServer) :
    ∀ (s : Int) (i : Nat), (∀ b ∈ H, 0 ≤ b.weight) → i < H.length → s < r →
      (exact_walk r H s = some i ↔
        s + weights_sum (H.take i) < r ∧ r ≤ s + weights_sum (H.take (i + 1))) := by
  induction H with
  | nil => intro s i _ hi; simp at hi
  | cons b rest ih =>
    intro s i hw hi hs
    have hb := hw b (List.mem_cons_self _ _)
    have hrest : ∀ c ∈ rest, 0 ≤ c.weight := fun c hc => hw c (List.mem_cons_of_mem _ hc)
    unfold exact_walk
    by_cases hc : r ≤ s + b.weight
    · simp only [hc, if_true]
      cases i with
      | zero =>
        simp only [List.take_zero, weights_sum_nil, List.take_succ_cons, weights_sum_cons]
        constructor
        · intro _; constructor <;> omega
        · intro _; trivial
      | succ j =>
        simp only [List.take_succ_cons, weights_sum_cons]
        have := weights_sum_nonneg (rest.take j)
          (fun c hc => hrest c (List.mem_of_mem_take hc))
        constructor
        · intro h; simp at h
        · intro h; omega
    · simp only [hc, if_false]
      cases i with
      | zero =>
        simp only [List.take_zero, weights_sum_nil, List.take_succ_cons, weights_sum_cons]
        constructor
        · intro h
          simp only [Option.map_eq_some'] at h
          obtain ⟨j, _, hj⟩ := h
          omega
        · intro h; omega
      | succ j =>
        have hj : j < rest.length := by simpa using hi
        have key := ih (s + b.weight) j hrest hj (by omega)
        simp only [List.take_succ_cons, weights_sum_cons]
        constructor
        · intro h
          simp only [Option.map_eq_some'] at h
          obtain ⟨k, hk, hkj⟩ := h
          have hkj' : k = j := by omega
          subst hkj'
          have := key.mp hk
          constructor <;> omega
        · intro h
          have : exact_walk r rest (s + b.weight) = some j := key.mpr (by constructor <;> omega)
          simp [this]

/-- An exact sum inside the range of `int` is what the `int` holds. -/
theorem wrap_int_of_range (x : Int) (h1 : INT_MIN ≤ x) (h2 : x ≤ INT_MAX) : wrap_int x = x := by
  unfold wrap_int
  unfold INT_MIN at h1
  unfold INT_MAX at h2
  omega

/-- While the exact sum of the weights fits an `int`, the loop that adds them in an `int`
computes it. -/
theorem total_weight_foldl_exact (H : List BackendServer) :
    ∀ acc : Int, 0 ≤ acc → (∀ b ∈ H, 0 ≤ b.weight) → acc + weights_sum H ≤ INT_MAX →
      H.foldl (fun acc backend => wrap_int (acc + backend.weight)) acc = acc + weights_sum H := by
  induction H with
  | nil => intro acc _ _ _; simp [weights_sum_nil]
  | cons b rest ih =>
    intro acc hacc hw hsum
    have hb := hw b (List.mem_cons_self _ _)
    have hrest : ∀ c ∈ rest, 0 ≤ c.weight := fun c hc => hw c (List.mem_cons_of_mem _ hc)
    have hnn := weights_sum_nonneg rest hrest
    rw [weights_sum_cons] at hsum ⊢
    have hwrap : wrap_int (acc + b.weight) = acc + b.weight :=
      wrap_int_of_range _ (by unfold INT_MIN; omega) (by omega)
    simp only [List.foldl_cons, hwrap]
    rw [ih (acc + b.weight) (by omega) hrest (by omega)]
    omega

/-- The total weight the code computes is the sum of the weights when that sum fits an
`int`. -/
theorem total_weight_eq_sum (H : List BackendServer) (hw : ∀ b ∈ H, 0 ≤ b.weight)
    (hsum : weights_sum H ≤ INT_MAX) : total_weight H = weights_sum H := by
  unfold total_weight
  rw [total_weight_foldl_exact H 0 (le_refl 0) hw (by omega)]
  omega

/-- While the exact sum of the weights fits an `int`, the walk of the code is the walk over the
exact running sums. -/
theorem weighted_walk_eq_exact (r : Int) (H : List BackendServer) :
    ∀ s : Int, 0 ≤ s → (∀ b ∈ H, 0 ≤ b.weight) → s + weights_sum H ≤ INT_MAX →
      weighted_walk r H s = exact_walk r H s := by
  induction H with
  | nil => intro s _ _ _; rfl
  | cons b rest ih =>
    intro s hs hw hsum
    have hb := hw b (List.mem_cons_self _ _)
    have hrest : ∀ c ∈ rest, 0 ≤ c.weight := fun c hc => hw c (List.mem_cons_of_mem _ hc)
    have hnn := weights_sum_nonneg rest hrest
    rw [weights_sum_cons] at hsum
    have hwrap : wrap_int (s + b.weight) = s + b.weight :=
      wrap_int_of_range _ (by unfold INT_MIN; omega) (by omega)
    simp only [weighted_walk, exact_walk, hwrap]
    rw [ih (s + b.weight) (by omega) hrest (by omega)]

/-- Counterexample for C4: the weights are 2147483647 and 1, so their sum 2147483648 does not
fit the `int` in which the code adds them: `total_weight` wraps to -2147483648, and of the
2147483648 integers of [1, W] not one makes the walk return the second backend, whose weight
is 1. -/
theorem weighted_count_overflow :
    (∀ b ∈ heavy_first, 1 ≤ b.weight) ∧
    weights_sum heavy_first = 2147483648 ∧
    total_weight heavy_first = -2147483648 ∧
    ((Finset.Icc 1 (weights_sum heavy_first)).filter
      (fun r => weighted_walk r heavy_first 0 = some 1)).card = 0 ∧
    (heavy_first.map (fun b => b.weight))[1]? = some 1 := by
  refine ⟨by decide, by decide, by decide, ?_, by decide⟩
  rw [Finset.card_eq_zero, Finset.filter_eq_empty_iff]
  intro r _ h
  have h1 : wrap_int (0 + 2147483647) = 2147483647 := by decide
  have h2 : wrap_int (2147483647 + 1) = -2147483648 := by decide
  simp only [heavy_first, weighted_walk, BackendServer.make, h1, h2] at h
  split_ifs at h with c1 c2
  · cases h
  · omega
  · cases h

/-- C4 (amended): weighted fairness in exact form. For a list `H` of healthy backends whose
weights are all at least 1 and whose sum `W` is at most `INT_MAX` (the code adds the weights in
an `int`), and a position `i` of `H` (so `H` is not empty): the total weight the code computes
is `W`, and exactly `weight(H[i])` of the integers `r` of `[1, W]` make the weighted walk return
position `i`. -/
theorem weighted_walk_exact_count (H : List BackendServer) (hw : ∀ b ∈ H, 1 ≤ b.weight)
    (hsum : weights_sum H ≤ INT_MAX) (i : Nat) (hi : i < H.length) :
    total_weight H = weights_sum H ∧
    (((Finset.Icc 1 (total_weight H)).filter
        (fun r => weighted_walk r H 0 = some i)).card : Int) = H[i].weight := by
  have hw0 : ∀ b ∈ H, 0 ≤ b.weight := fun b hb => le_trans (by decide) (hw b hb)
  have htw := total_weight_eq_sum H hw0 hsum
  have hwalk : ∀ r, weighted_walk r H 0 = exact_walk r H 0 :=
    fun r => weighted_walk_eq_exact r H 0 (le_refl 0) hw0 (by omega)
  refine ⟨htw, ?_⟩
  rw [htw]
  have hset : (Finset.Icc 1 (weights_sum H)).filter (fun r => weighted_walk r H 0 = some i) =
      Finset.Ioc (weights_sum (H.take i)) (weights_sum (H.take (i + 1))) := by
    ext r
    simp only [Finset.mem_filter, Finset.mem_Icc, Finset.mem_Ioc]
    rw [hwalk r]
    have hlo := weights_sum_nonneg (H.take i) (fun c hc => hw0 c (List.mem_of_mem_take hc))
    have hhi := weights_sum_take_le H hw0 (i + 1)
    constructor
    · rintro ⟨⟨h1, _⟩, hwalk⟩
      have := (exact_walk_eq_some_iff r H 0 i hw0 hi (by omega)).mp hwalk
      constructor <;> omega
    · rintro ⟨h1, h2⟩
      refine ⟨⟨by omega, by omega⟩, ?_⟩
      exact (exact_walk_eq_some_iff r H 0 i hw0 hi (by omega)).mpr (by constructor <;> omega)
  rw [hset, Int.card_Ioc, weights_sum_take_succ H i hi]
  have := hw H[i] (List.getElem_mem _)
  rw [Int.toNat_of_nonneg (by omega)]
  omega

/-- C4 at a concrete input: with weights 1 and 3 (total 4), three of the four draws select the
second backend. -/
theorem weighted_walk_exact_count_witness :
    (((Finset.Icc 1 (total_weight two_backend_route.backends)).filter
        (fun r => weighted_walk r two_backend_route.backends 0 = some 1)).card : Int) = 3 :=
  (weighted_walk_exact_count two_backend_route.backends (by decide) (by decide) 1
    (by decide)).2

/-- What `find_route` does on a miss: it returns no route exactly when every route whose prefix is
a prefix of the path has the empty prefix. -/
theorem find_route_none_iff (routes : List RouteConfig) (path : String) :
    find_route routes path = none ↔
      ∀ q ∈ routes, q.path_prefix.data <+: path.data → q.path_prefix.length = 0 := by
  have hinv := find_route_inv_final routes path
  obtain ⟨hmax, hbest⟩ := hinv
  unfold find_route
  constructor
  · intro hnone q hq hqm
    rw [hnone] at hbest
    have hle := hmax q hq hqm
    simp only at hbest
    omega
  · intro hall
    cases hb : (routes.foldl (find_route_step path) (none, 0)).1 with
    | none => rfl
    | some r =>
      rw [hb] at hbest
      obtain ⟨hlen, hpos, hpre, i, hi, _⟩ := hbest
      have := hall r (List.getElem?_mem hi) hpre
      omega

/-- C2 (the code at the failing input): a table that holds only the catch-all route with the
empty prefix yields no route for the path `/x`, although the empty prefix is a prefix of it. -/
theorem find_route_empty_prefix_not_returned :
    find_route [RouteConfig.make ""] "/x" = none ∧ RouteConfig.path_prefix (RouteConfig.make "") = "" ∧
    "".data <+: "/x".data := by
  exact ⟨by decide, rfl, List.nil_prefix⟩

/-! ## Decimal numbers -/

theorem digitChar_spec (d : Nat) (h : d < 10) :
    (Nat.digitChar d).isDigit = true ∧ (Nat.digitChar d).toNat - 48 = d := by
  interval_cases d <;> exact ⟨by decide, by decide⟩

theorem digits_value_append (l : List Char) (c : Char) :
    digits_value (l ++ [c]) = digits_value l * 10 + (c.toNat - 48) := by
  simp [digits_value, List.foldl_append]

theorem toDigitsCore_spec (fuel : Nat) :
    ∀ (n : Nat) (ds : List Char), n < fuel →
      ∃ l, Nat.toDigitsCore 10 fuel n ds = l ++ ds ∧ l ≠ [] ∧
        (∀ c ∈ l, c.isDigit = true) ∧ digits_value l = n := by
  induction fuel with
  | zero => intro n ds h; omega
  | succ fuel ih =>
    intro n ds h
    have hd := digitChar_spec (n % 10) (Nat.mod_lt _ (by decide))
    unfold Nat.toDigitsCore
    by_cases h0 : n / 10 = 0
    · simp only [h0, if_true]
      refine ⟨[Nat.digitChar (n % 10)], rfl, by simp, ?_, ?_⟩
      · intro c hc
        simp only [List.mem_singleton] at hc
        subst hc
        exact hd.1
      · have : digits_value [Nat.digitChar (n % 10)] = (Nat.digitChar (n % 10)).toNat - 48 := by
          simp [digits_value]
        rw [this, hd.2]
        omega
    · simp only [h0, if_false]
      obtain ⟨l, hl, hne, hdig, hval⟩ := ih (n / 10) (Nat.digitChar (n % 10) :: ds) (by omega)
      refine ⟨l ++ [Nat.digitChar (n % 10)], by simp [hl], by simp, ?_, ?_⟩
      · intro c hc
        rcases List.mem_append.mp hc with hc | hc
        · exact hdig c hc
        · simp only [List.mem_singleton] at hc
          subst hc
          exact hd.1
      · rw [digits_value_append, hval, hd.2]
        omega

theorem toDigits_spec (n : Nat) :
    Nat.toDigits 10 n ≠ [] ∧ (∀ c ∈ Nat.toDigits 10 n, c.isDigit = true) ∧
      digits_value (Nat.toDigits 10 n) = n := by
  obtain ⟨l, hl, hne, hdig, hval⟩ := toDigitsCore_spec (n + 1) n [] (by omega)
  unfold Nat.toDigits
  rw [hl, List.append_nil]
  exact ⟨hne, hdig, hval⟩

theorem isDigit_not_space (c : Char) (h : c.isDigit = true) :
    is_space c = false ∧ c ≠ '-' ∧ c ≠ '+' := by
  refine ⟨?_, ?_, ?_⟩
  · unfold is_space
    simp only [Bool.or_eq_false_iff, decide_eq_false_iff_not]
    refine ⟨⟨⟨⟨⟨?_, ?_⟩, ?_⟩, ?_⟩, ?_⟩, ?_⟩ <;>
      (rintro rfl; exact absurd h (by decide))
  · rintro rfl; exact absurd h (by decide)
  · rintro rfl; exact absurd h (by decide)

/-- Reading back a run of digits: `std::stoi` of the decimal digits of `n`, with or without a
minus sign in front. -/
theorem stoi_digits (l : List Char) (hne : l ≠ []) (hdig : ∀ c ∈ l, c.isDigit = true) :
    stoi ⟨l⟩ =
        (if INT_MAX < (digits_value l : Int) then Except.error CppException.out_of_range
         else Except.ok (digits_value l : Int)) ∧
    stoi ⟨'-' :: l⟩ =
        (if -(digits_value l : Int) < INT_MIN then Except.error CppException.out_of_range
         else Except.ok (-(digits_value l : Int))) := by
  cases l with
  | nil => exact absurd rfl hne
  | cons c rest =>
    have hc := isDigit_not_space c (hdig c (List.mem_cons_self _ _))
    have htake : List.takeWhile Char.isDigit (c :: rest) = c :: rest :=
      List.takeWhile_eq_self_iff.mpr (fun x hx => hdig x hx)
    have hnn : (0 : Int) ≤ (digits_value (c :: rest) : Int) := Int.ofNat_nonneg _
    have hsign : stoi_sign (c :: rest) = (false, c :: rest) := by
      unfold stoi_sign
      split
      · rename_i heq; simp at heq; exact absurd heq.1 hc.2.1
      · rename_i heq; simp at heq; exact absurd heq.1 hc.2.2
      · rfl
    constructor
    · unfold stoi
      simp only [List.dropWhile_cons, hc.1, Bool.false_eq_true, if_false, hsign, htake,
        List.isEmpty_cons]
      have : ¬ ((digits_value (c :: rest) : Int) < INT_MIN) := by unfold INT_MIN; omega
      simp [this]
    · unfold stoi
      have hminus : is_space '-' = false := by decide
      have hsign2 : stoi_sign ('-' :: c :: rest) = (true, c :: rest) := rfl
      simp only [List.dropWhile_cons, hminus, Bool.false_eq_true, if_false, hsign2, htake,
        List.isEmpty_cons, if_true]
      have : ¬ (INT_MAX < -(digits_value (c :: rest) : Int)) := by unfold INT_MAX; omega
      simp [this]

theorem stoi_to_string_int (i : Int) (h1 : INT_MIN ≤ i) (h2 : i ≤ INT_MAX) :
    stoi (to_string_int i) = Except.ok i := by
  unfold to_string_int
  by_cases hneg : i < 0
  · simp only [hneg, if_true]
    obtain ⟨hne, hdig, hval⟩ := toDigits_spec i.natAbs
    rw [(stoi_digits _ hne hdig).2, hval]
    have : ((i.natAbs : Nat) : Int) = -i := by omega
    rw [this]
    simp only [neg_neg]
    have : ¬ (i < INT_MIN) := by omega
    simp [this]
  · simp only [hneg, if_false]
    obtain ⟨hne, hdig, hval⟩ := toDigits_spec i.toNat
    rw [(stoi_digits _ hne hdig).1, hval]
    have : ((i.toNat : Nat) : Int) = i := by omega
    rw [this]
    have : ¬ (INT_MAX < i) := by omega
    simp [this]

/-! ## Rate limiter -/

theorem to_string_int_nonneg_data (n : Int) (h : 0 ≤ n) :
    (to_string_int n).data = Nat.toDigits 10 n.toNat := by
  unfold to_string_int
  have : ¬ n < 0 := by omega
  simp [this]

theorem str_empty_to_string_int (n : Int) (h : 0 ≤ n) : str_empty (to_string_int n) = false := by
  unfold str_empty
  rw [to_string_int_nonneg_data n h]
  obtain ⟨hne, _, _⟩ := toDigits_spec n.toNat
  cases hl : Nat.toDigits 10 n.toNat with
  | nil => exact absurd hl hne
  | cons _ _ => rfl

theorem redis_integer_to_string_int (n : Int) (h : 0 ≤ n) (h2 : n ≤ INT64_MAX) :
    redis_integer (to_string_int n) = some n := by
  obtain ⟨hne, hdig, hval⟩ := toDigits_spec n.toNat
  unfold redis_integer
  rw [to_string_int_nonneg_data n h]
  cases hl : Nat.toDigits 10 n.toNat with
  | nil => exact absurd hl hne
  | cons c rest =>
    have hc := isDigit_not_space c (hdig c (by rw [hl]; exact List.mem_cons_self _ _))
    have hsign : minus_sign (c :: rest) = (false, c :: rest) := by
      unfold minus_sign
      split
      · rename_i heq; simp at heq; exact absurd heq.1 hc.2.1
      · rfl
    rw [hl] at hval
    have hcast : ((digits_value (c :: rest) : Nat) : Int) = n := by rw [hval]; omega
    simp only [hsign, Bool.false_eq_true, if_false, hcast]
    have hmin : INT64_MIN ≤ n := by unfold INT64_MIN; omega
    simp [hmin, h2]

/-- A text without a NUL character is read whole as a C string. -/
theorem c_str_of_no_nul (s : String) (h : no_nul s = true) : c_str s = s := by
  unfold no_nul at h
  unfold c_str
  have hall : s.data.takeWhile (fun c => c.toNat != 0) = s.data :=
    List.takeWhile_eq_self_iff.mpr (fun x hx => List.all_eq_true.mp h x hx)
  rw [hall]

theorem digit_not_nul (c : Char) (h : c.isDigit = true) : (c.toNat != 0) = true := by
  simp only [Char.isDigit, Bool.and_eq_true, decide_eq_true_eq] at h
  have h48 : 48 ≤ c.toNat := by
    have := h.1
    exact this
  simp only [bne_iff_ne, ne_eq]
  omega

/-- The decimal representation of a number holds no NUL character. -/
theorem no_nul_to_string_int (i : Int) : no_nul (to_string_int i) = true := by
  unfold no_nul to_string_int
  rw [List.all_eq_true]
  by_cases hneg : i < 0
  · simp only [hneg, if_true]
    obtain ⟨_, hdig, _⟩ := toDigits_spec i.natAbs
    intro x hx
    rcases List.mem_cons.mp hx with h | h
    · rw [h]; decide
    · exact digit_not_nul _ (hdig _ h)
  · simp only [hneg, if_false]
    obtain ⟨_, hdig, _⟩ := toDigits_spec i.toNat
    exact fun x hx => digit_not_nul _ (hdig _ hx)

/-- The decimal representation of a number is read whole as a C string. -/
theorem c_str_to_string_int (i : Int) : c_str (to_string_int i) = to_string_int i :=
  c_str_of_no_nul _ (no_nul_to_string_int i)

theorem get_int_absent (redis : RedisClient) (key : String) (hreach : redis.reachable = true)
    (habsent : map_find redis.store key = none) :
    redis.get_int key =
      (Except.ok 0, { redis with sent := redis.sent ++ [RedisCommand.GET key] }) := by
  unfold RedisClient.get_int RedisClient.get
  simp [hreach, habsent, str_empty]

theorem get_int_unreachable (redis : RedisClient) (key : String)
    (hreach : redis.reachable = false) :
    redis.get_int key =
      (Except.ok 0, { redis with sent := redis.sent ++ [RedisCommand.GET key] }) := by
  unfold RedisClient.get_int RedisClient.get
  simp [hreach, str_empty]

theorem get_int_counter (redis : RedisClient) (key : String) (m : Int) (ttl : Option Int)
    (hreach : redis.reachable = true)
    (hentry : map_find redis.store key = some ⟨to_string_int m, ttl⟩)
    (h0 : 0 ≤ m) (h1 : m ≤ INT_MAX) :
    redis.get_int key =
      (Except.ok m, { redis with sent := redis.sent ++ [RedisCommand.GET key] }) := by
  unfold RedisClient.get_int RedisClient.get
  have hmin : INT_MIN ≤ m := by unfold INT_MIN; omega
  simp [hreach, hentry, c_str_to_string_int, str_empty_to_string_int m h0,
    stoi_to_string_int m hmin h1]

/-- The first call of a window: the counter is absent, the call is allowed and stores 1 with the
window as time to live. -/
theorem check_rate_limit_first (config : Config) (redis : RedisClient) (client_ip : String)
    (hL : 1 ≤ config.rate_limit) (hW : 1 ≤ config.rate_window_seconds)
    (hreach : redis.reachable = true)
    (habsent : map_find redis.store ("rate_limit:" ++ client_ip) = none) :
    ∃ r, check_rate_limit config (some redis) client_ip = (Except.ok true, some r) ∧
      r.reachable = true ∧
      map_find r.store ("rate_limit:" ++ client_ip) =
        some ⟨"1", some config.rate_window_seconds⟩ ∧
      r.sent = redis.sent ++ [RedisCommand.GET ("rate_limit:" ++ client_ip),
        RedisCommand.SETEX ("rate_limit:" ++ client_ip) config.rate_window_seconds "1"] := by
  have hcond : ¬ (config.rate_limit ≤ 0 ∨ config.rate_window_seconds ≤ 0) := by omega
  have hpos : 0 < config.rate_window_seconds := by omega
  refine ⟨({ redis with sent := redis.sent ++
      [RedisCommand.GET ("rate_limit:" ++ client_ip)] } : RedisClient).set_with_expiry
      ("rate_limit:" ++ client_ip) "1" config.rate_window_seconds, ?_, ?_, ?_, ?_⟩
  · unfold check_rate_limit
    simp only [hcond, if_false, get_int_absent redis _ hreach habsent, if_true]
  · simp [RedisClient.set_with_expiry, hreach]
  · simp only [RedisClient.set_with_expiry, hreach, hpos, and_self, if_true, map_find_set]
    rfl
  · simp [RedisClient.set_with_expiry]

/-- A later call of the window: the counter holds `m`; the call is allowed exactly when
`m < rate_limit`, and then the counter becomes `m + 1` with the same time to live. -/
theorem check_rate_limit_counter (config : Config) (redis : RedisClient) (client_ip : String)
    (m : Int) (ttl : Option Int)
    (hLmax : config.rate_limit ≤ INT_MAX) (hW : 1 ≤ config.rate_window_seconds)
    (hreach : redis.reachable = true)
    (hentry : map_find redis.store ("rate_limit:" ++ client_ip) = some ⟨to_string_int m, ttl⟩)
    (h1 : 1 ≤ m) (h2 : m ≤ config.rate_limit) :
    ∃ r, check_rate_limit config (some redis) client_ip =
        (Except.ok (decide (m < config.rate_limit)), some r) ∧
      r.reachable = true ∧
      map_find r.store ("rate_limit:" ++ client_ip) =
        some ⟨to_string_int (if m < config.rate_limit then m + 1 else m), ttl⟩ ∧
      (¬ m < config.rate_limit → r.store = redis.store) := by
  have hcond : ¬ (config.rate_limit ≤ 0 ∨ config.rate_window_seconds ≤ 0) := by omega
  have hm0 : m ≠ 0 := by omega
  have hget := get_int_counter redis ("rate_limit:" ++ client_ip) m ttl hreach hentry
    (by omega) (by omega)
  by_cases hlt : m < config.rate_limit
  · refine ⟨({ redis with sent := redis.sent ++
        [RedisCommand.GET ("rate_limit:" ++ client_ip)] } : RedisClient).increment
        ("rate_limit:" ++ client_ip), ?_, ?_, ?_, ?_⟩
    · unfold check_rate_limit
      simp only [hcond, if_false, hget, hm0, hlt, if_true, decide_True]
    · simp [RedisClient.increment, hreach]
    · have h64 : m + 1 ≤ INT64_MAX := by unfold INT64_MAX; unfold INT_MAX at hLmax; omega
      have hri := redis_integer_to_string_int m (by omega)
        (by unfold INT64_MAX; unfold INT_MAX at hLmax; omega)
      simp [RedisClient.increment, hreach, hentry, hri, h64, map_find_set, hlt]
    · intro h; exact absurd hlt h
  · refine ⟨{ redis with sent := redis.sent ++
        [RedisCommand.GET ("rate_limit:" ++ client_ip)] }, ?_, ?_, ?_, ?_⟩
    · unfold check_rate_limit
      simp only [hcond, if_false, hget, hm0, hlt, decide_False]
    · simp [hreach]
    · simp [hentry, hlt]
    · intro _; rfl

/-- The state of the store after `k >= 1` calls from a client whose counter was absent. -/
theorem rate_limit_calls_state (config : Config) (redis : RedisClient) (client_ip : String)
    (hL : 1 ≤ config.rate_limit) (hLmax : config.rate_limit ≤ INT_MAX)
    (hW : 1 ≤ config.rate_window_seconds) (hreach : redis.reachable = true)
    (habsent : map_find redis.store ("rate_limit:" ++ client_ip) = none) (j : Nat) :
    ∃ r, rate_limit_calls config client_ip (j + 1) (some redis) = some r ∧
      r.reachable = true ∧
      map_find r.store ("rate_limit:" ++ client_ip) =
        some ⟨to_string_int (min ((j : Int) + 1) config.rate_limit),
          some config.rate_window_seconds⟩ := by
  induction j with
  | zero =>
    obtain ⟨r, hr, hr1, hr2, _⟩ :=
      check_rate_limit_first config redis client_ip hL hW hreach habsent
    refine ⟨r, ?_, hr1, ?_⟩
    · simp [rate_limit_calls, hr]
    · rw [hr2]
      have hmin : min (((0 : Nat) : Int) + 1) config.rate_limit = 1 := by
        simp only [Nat.cast_zero, zero_add]
        exact min_eq_left hL
      rw [hmin]
      rfl
  | succ j ih =>
    obtain ⟨r, hr, hr1, hr2⟩ := ih
    have hm1 : 1 ≤ min ((j : Int) + 1) config.rate_limit := le_min (by omega) hL
    obtain ⟨r', hr', hr1', hr2', _⟩ := check_rate_limit_counter config r client_ip
      (min ((j : Int) + 1) config.rate_limit) (some config.rate_window_seconds) hLmax hW hr1 hr2
      hm1 (min_le_right _ _)
    refine ⟨r', ?_, hr1', ?_⟩
    · show (check_rate_limit config (rate_limit_calls config client_ip (j + 1) (some redis))
        client_ip).2 = some r'
      rw [hr, hr']
    · rw [hr2']
      congr 2
      by_cases hlt : (j : Int) + 1 < config.rate_limit
      · have e1 : min ((j : Int) + 1) config.rate_limit = (j : Int) + 1 := min_eq_left (by omega)
        have e2 : min (((j + 1 : Nat) : Int) + 1) config.rate_limit = (j : Int) + 1 + 1 := by
          push_cast
          exact min_eq_left (by omega)
        rw [e1, e2]
        simp [hlt]
      · have e1 : min ((j : Int) + 1) config.rate_limit = config.rate_limit :=
          min_eq_right (by omega)
        have e2 : min (((j + 1 : Nat) : Int) + 1) config.rate_limit = config.rate_limit := by
          push_cast
          exact min_eq_right (by omega)
        rw [e1, e2]
        simp
theorem apply_cors_headers_status_body (config : Config) (request : HttpRequest)
    (response : HttpResponse) :
    (apply_cors_headers config request response).status = response.status ∧
    (apply_cors_headers config request response).body = response.body := by
  simp only [apply_cors_headers]
  split_ifs <;> simp [HttpResponse.set_header]

/-- C5: fixed-window limit. With a limit `L >= 1` (an `int`) and a window `>= 1`, a reachable
store in which the counter of the client is absent, and no expiry between the calls: the `k`-th
call of `check_rate_limit` for the client is allowed exactly when `k <= L`; after `k` calls the
counter holds `min k L` with the window as time to live (the first call stores 1, allowed later
calls add one); and a request that passes the security checks and arrives when `L` calls have
been counted is answered 429 with the body `Rate limit exceeded`. -/
theorem rate_limit_fixed_window (config : Config) (redis : RedisClient) (client_ip : String)
    (hL : 1 ≤ config.rate_limit) (hLmax : config.rate_limit ≤ INT_MAX)
    (hW : 1 ≤ config.rate_window_seconds) (hreach : redis.reachable = true)
    (habsent : map_find redis.store ("rate_limit:" ++ client_ip) = none)
    (k : Nat) (hk : 1 ≤ k) :
    (check_rate_limit config (rate_limit_calls config client_ip (k - 1) (some redis))
        client_ip).1 = Except.ok (decide ((k : Int) ≤ config.rate_limit)) ∧
    (∃ r, rate_limit_calls config client_ip k (some redis) = some r ∧
      map_find r.store ("rate_limit:" ++ client_ip) =
        some ⟨to_string_int (min (k : Int) config.rate_limit),
          some config.rate_window_seconds⟩) ∧
    (∀ (env : Env) (h : ProxyHandler) (request : HttpRequest),
      h.config = config →
      h.redis_client =
        rate_limit_calls config client_ip config.rate_limit.toNat (some redis) →
      apply_security_checks env h request client_ip = true →
      ∃ resp, (handle_request env h request client_ip).response = Except.ok resp ∧
        resp.status = 429 ∧ resp.body = "Rate limit exceeded" ∧
        (handle_request env h request client_ip).upstream_url = none) := by
  refine ⟨?_, ?_, ?_⟩
  · obtain ⟨j, rfl⟩ : ∃ j, k = j + 1 := ⟨k - 1, by omega⟩
    simp only [Nat.add_sub_cancel]
    cases j with
    | zero =>
      obtain ⟨r, hr, _⟩ := check_rate_limit_first config redis client_ip hL hW hreach habsent
      simp only [rate_limit_calls, hr]
      simp [hL]
    | succ i =>
      obtain ⟨r, hr, hr1, hr2⟩ :=
        rate_limit_calls_state config redis client_ip hL hLmax hW hreach habsent i
      have hm1 : 1 ≤ min ((i : Int) + 1) config.rate_limit := le_min (by omega) hL
      obtain ⟨r', hr', _⟩ := check_rate_limit_counter config r client_ip
        (min ((i : Int) + 1) config.rate_limit) (some config.rate_window_seconds) hLmax hW hr1
        hr2 hm1 (min_le_right _ _)
      rw [hr, hr']
      simp only [Except.ok.injEq, decide_eq_decide]
      push_cast
      constructor
      · intro h
        have := (min_lt_iff.mp h)
        rcases this with h | h
        · omega
        · exact absurd h (lt_irrefl _)
      · intro h
        exact min_lt_iff.mpr (Or.inl (by omega))
  · obtain ⟨j, rfl⟩ : ∃ j, k = j + 1 := ⟨k - 1, by omega⟩
    obtain ⟨r, hr, _, hr2⟩ :=
      rate_limit_calls_state config redis client_ip hL hLmax hW hreach habsent j
    refine ⟨r, hr, ?_⟩
    rw [hr2]
    push_cast
    rfl
  · intro env h request hcfg hredis hsec
    obtain ⟨j, hj⟩ : ∃ j : Nat, config.rate_limit.toNat = j + 1 :=
      ⟨config.rate_limit.toNat - 1, by omega⟩
    obtain ⟨r, hr, hr1, hr2⟩ :=
      rate_limit_calls_state config redis client_ip hL hLmax hW hreach habsent j
    have hmin : min ((j : Int) + 1) config.rate_limit = config.rate_limit :=
      min_eq_right (by omega)
    rw [hmin] at hr2
    obtain ⟨r', hr', _⟩ := check_rate_limit_counter config r client_ip config.rate_limit
      (some config.rate_window_seconds) hLmax hW hr1 hr2 hL (le_refl _)
    rw [hj, hr] at hredis
    have hrl : check_rate_limit h.config h.redis_client client_ip =
        (Except.ok false, some r') := by
      rw [hcfg, hredis, hr']
      simp
    have hcors := apply_cors_headers_status_body h.config request
      ((HttpResponse.make 429).set_body "Rate limit exceeded" "text/plain")
    refine ⟨apply_cors_headers h.config request
      ((HttpResponse.make 429).set_body "Rate limit exceeded" "text/plain"), ?_, ?_, ?_, ?_⟩
    · unfold handle_request
      simp only [hsec, Bool.not_true, Bool.false_eq_true, if_false, hrl]
    · rw [hcors.1]; rfl
    · rw [hcors.2]; rfl
    · unfold handle_request
      simp only [hsec, Bool.not_true, Bool.false_eq_true, if_false, hrl]

/-- C5, the rate-limit scenario: limit 3, window 60, an empty store. Of four calls from
10.0.0.1 the fourth is denied, and the fourth of four GET requests is answered 429 with the body
`Rate limit exceeded`. -/
theorem rate_limit_fixed_window_witness :
    (check_rate_limit s2_config (rate_limit_calls s2_config "10.0.0.1" 3 (some empty_store))
        "10.0.0.1").1 = Except.ok false ∧
    (handle_request scenario_env
        (handle_requests scenario_env (HttpRequest.make "GET" "/" "HTTP/1.1") "10.0.0.1" 3
          (ProxyHandler.make s2_config empty_store))
        (HttpRequest.make "GET" "/" "HTTP/1.1") "10.0.0.1").response =
      Except.ok ((HttpResponse.make 429).set_body "Rate limit exceeded" "text/plain") :=
  ⟨(rate_limit_fixed_window s2_config empty_store "10.0.0.1" (by decide) (by decide) (by decide)
      (by decide) (by decide) 4 (by decide)).1,
   by decide⟩

theorem check_rate_limit_unreachable (config : Config) (redis_client : Option RedisClient)
    (client_ip : String) (h : ∀ r, redis_client = some r → r.reachable = false) :
    (check_rate_limit config redis_client client_ip).1 = Except.ok true ∧
    ∀ r, (check_rate_limit config redis_client client_ip).2 = some r → r.reachable = false := by
  cases redis_client with
  | none => simp [check_rate_limit]
  | some redis =>
    have hreach := h redis rfl
    unfold check_rate_limit
    by_cases hcond : config.rate_limit ≤ 0 ∨ config.rate_window_seconds ≤ 0
    · simp only [hcond, if_true]
      refine ⟨trivial, ?_⟩
      intro r hr
      simp only [Option.some.injEq] at hr
      rw [← hr]; exact hreach
    · simp only [hcond, if_false, get_int_unreachable redis _ hreach, if_true]
      refine ⟨trivial, ?_⟩
      intro r hr
      simp only [Option.some.injEq] at hr
      rw [← hr]
      simp [RedisClient.set_with_expiry, hreach]

theorem rate_limit_calls_unreachable (config : Config) (redis_client : Option RedisClient)
    (client_ip : String) (h : ∀ r, redis_client = some r → r.reachable = false) (n : Nat) :
    ∀ r, rate_limit_calls config client_ip n redis_client = some r → r.reachable = false := by
  induction n with
  | zero => exact h
  | succ n ih => exact (check_rate_limit_unreachable config _ client_ip ih).2

/-- C6: the rate limiter fails open. When no store client is configured, or the store is
unreachable (every read returns no value and every write is lost), `check_rate_limit` returns
`true` for every client, whatever the number `n` of calls made before. -/
theorem rate_limit_fail_open (config : Config) (redis_client : Option RedisClient)
    (client_ip : String) (h : ∀ r, redis_client = some r → r.reachable = false) (n : Nat) :
    (check_rate_limit config (rate_limit_calls config client_ip n redis_client) client_ip).1 =
      Except.ok true :=
  (check_rate_limit_unreachable config _ client_ip
    (rate_limit_calls_unreachable config redis_client client_ip h n)).1

/-- C6 at concrete inputs: limit 3, an unreachable store, the tenth call is still allowed. -/
theorem rate_limit_fail_open_witness :
    (check_rate_limit s2_config
        (rate_limit_calls s2_config "10.0.0.1" 9 (some unreachable_store)) "10.0.0.1").1 =
      Except.ok true :=
  rate_limit_fail_open s2_config (some unreachable_store) "10.0.0.1"
    (by intro r hr; simp only [Option.some.injEq] at hr; rw [← hr]; rfl) 9

/-! ## Token expiry -/

/-- C7 (amended): for a correctly signed token, `verify_jwt` returns `true` exactly when the
payload has an `exp` member that is an integer value (`isInt64`) with `now <= exp`; so it
returns `false` when `exp` is absent or not an integer value or `exp < now`, and `true` when
`exp >= now`. -/
theorem verify_jwt_expiry (env : Env) (secret token : String)
    (hs : jwt_signed env secret token = true) :
    verify_jwt env secret token = true ↔
      ∃ e, jwt_exp env token = some e ∧ e.isInt64 = true ∧ env.now_sec ≤ e.asInt64 := by
  unfold jwt_signed jwt_parts at hs
  unfold verify_jwt jwt_exp jwt_parts
  cases hfd : str_find token "." 0 with
  | none => simp [hfd] at hs
  | some fd =>
    simp only [hfd] at hs ⊢
    cases hsd : str_find token "." (fd + 1) with
    | none => simp [hsd] at hs
    | some sd =>
      simp only [hsd, beq_iff_eq] at hs ⊢
      simp only [hs, ne_eq, not_true_eq_false, if_false]
      cases hdec : base64_url_decode env (substr token (fd + 1) (sd - fd - 1)) with
      | error e => simp
      | ok payload_json =>
        simp only [validate_payload]
        cases hparse : env.parse_json payload_json with
        | none => simp
        | some v =>
          cases v with
          | object members =>
            simp only
            cases hexp : map_find members "exp" with
            | none => simp
            | some e =>
              simp only [Option.some.injEq, exists_eq_left']
              by_cases hi : e.isInt64 = true
              · by_cases hn : env.now_sec > e.asInt64
                · simp [hi, hn]
                · simp [hi, hn]
                  omega
              · simp [hi]
          | _ => simp

/-- C7 at the scenario tokens, with the clock at second 1000: the token whose `exp` is 1060
(now + 60) is accepted, by the theorem; the token whose `exp` is 999 (now - 1) is rejected. -/
theorem verify_jwt_expiry_witness :
    verify_jwt scenario_env "k" "hh.E60.khh.E60" = true ∧
    verify_jwt scenario_env "k" "hh.Em1.khh.Em1" = false :=
  ⟨(verify_jwt_expiry scenario_env "k" "hh.E60.khh.E60" (by decide)).mpr
      ⟨JsonValue.int 1060, by rfl, by rfl, by decide⟩,
   by decide⟩

/-- C7 as stated fails in two ways. A correctly signed token whose payload has the integer
`exp` 1000 is accepted when the clock shows second 1000, although `exp <= now`. A correctly
signed token whose payload has the numeric `exp` 1060.5 is rejected when the clock shows second
1000, although `exp > now`. -/
theorem verify_jwt_accepts_exp_equal_now :
    (jwt_signed scenario_env "k" "hh.Enow.khh.Enow" = true ∧
      jwt_exp scenario_env "hh.Enow.khh.Enow" = some (JsonValue.int 1000) ∧
      (JsonValue.int 1000).asInt64 ≤ scenario_env.now_sec ∧
      verify_jwt scenario_env "k" "hh.Enow.khh.Enow" = true) ∧
    (jwt_signed scenario_env "k" "hh.Ehlf.khh.Ehlf" = true ∧
      jwt_exp scenario_env "hh.Ehlf.khh.Ehlf" = some (JsonValue.real { num := 2121, den := 2 }) ∧
      (scenario_env.now_sec : Rat) < { num := 2121, den := 2 } ∧
      verify_jwt scenario_env "k" "hh.Ehlf.khh.Ehlf" = false) :=
  ⟨⟨by decide, by rfl, by decide, by decide⟩,
   ⟨by decide, by rfl, by decide, by decide⟩⟩

/-! ## Cache writes -/

theorem rate_key_ne_cache_key (client_ip : String) (request : HttpRequest) :
    "rate_limit:" ++ client_ip ≠ generate_cache_key request := by
  intro h
  have hd := congrArg String.data h
  simp only [generate_cache_key, String.data_append] at hd
  have h0 := congrArg List.head? hd
  simp at h0

theorem redis_get_snd (redis : RedisClient) (key : String) :
    (redis.get key).2 = { redis with sent := redis.sent ++ [RedisCommand.GET key] } := by
  unfold RedisClient.get
  by_cases hr : redis.reachable = true
  · cases hf : map_find redis.store key <;> simp [hr, hf]
  · simp [hr]

theorem redis_get_int_snd (redis : RedisClient) (key : String) :
    (redis.get_int key).2 = { redis with sent := redis.sent ++ [RedisCommand.GET key] } := by
  unfold RedisClient.get_int
  by_cases he : str_empty (redis.get key).1 = true
  · simp [he, redis_get_snd]
  · simp [he, redis_get_snd]

/-- The commands one call of `check_rate_limit` issues all carry the rate-limit key. -/
theorem check_rate_limit_sent (config : Config) (redis : RedisClient) (client_ip : String) :
    ∃ r1 cmds, (check_rate_limit config (some redis) client_ip).2 = some r1 ∧
      r1.sent = redis.sent ++ cmds ∧
      ∀ c ∈ cmds, c = RedisCommand.GET ("rate_limit:" ++ client_ip) ∨
        c = RedisCommand.SETEX ("rate_limit:" ++ client_ip) config.rate_window_seconds "1" ∨
        c = RedisCommand.INCR ("rate_limit:" ++ client_ip) := by
  unfold check_rate_limit
  by_cases hcond : config.rate_limit ≤ 0 ∨ config.rate_window_seconds ≤ 0
  · exact ⟨redis, [], by simp [hcond], by simp, by simp⟩
  · simp only [hcond, if_false]
    cases hget : (redis.get_int ("rate_limit:" ++ client_ip)).1 with
    | error e =>
      refine ⟨(redis.get_int ("rate_limit:" ++ client_ip)).2,
        [RedisCommand.GET ("rate_limit:" ++ client_ip)], rfl, ?_, by simp⟩
      rw [redis_get_int_snd]
    | ok count =>
      have hsent : (redis.get_int ("rate_limit:" ++ client_ip)).2.sent =
          redis.sent ++ [RedisCommand.GET ("rate_limit:" ++ client_ip)] := by
        rw [redis_get_int_snd]
      by_cases h0 : count = 0
      · simp only [h0, if_true]
        refine ⟨_, [RedisCommand.GET ("rate_limit:" ++ client_ip),
          RedisCommand.SETEX ("rate_limit:" ++ client_ip) config.rate_window_seconds "1"],
          rfl, ?_, by simp⟩
        simp [RedisClient.set_with_expiry, hsent]
      · simp only [h0, if_false]
        by_cases hlt : count < config.rate_limit
        · simp only [hlt, if_true]
          refine ⟨_, [RedisCommand.GET ("rate_limit:" ++ client_ip),
            RedisCommand.INCR ("rate_limit:" ++ client_ip)], rfl, ?_, by simp⟩
          simp [RedisClient.increment, hsent]
        · simp only [hlt, if_false]
          exact ⟨_, [RedisCommand.GET ("rate_limit:" ++ client_ip)], rfl, hsent, by simp⟩

/-- The only command `get_cached_response` issues is a `GET`. -/
theorem get_cached_response_sent (redis : RedisClient) (request : HttpRequest)
    (route : RouteConfig) :
    ∃ cmds, (get_cached_response redis request route).2.sent = redis.sent ++ cmds ∧
      ∀ c ∈ cmds, c = RedisCommand.GET (generate_cache_key request) := by
  unfold get_cached_response
  by_cases hm : request.method ≠ "GET"
  · exact ⟨[], by simp [hm], by simp⟩
  · refine ⟨[RedisCommand.GET (generate_cache_key request)], ?_, by simp⟩
    simp only [hm, if_false]
    by_cases he : str_empty (redis.get (generate_cache_key request)).1 = true
    · simp [he, redis_get_snd]
    · simp [he, redis_get_snd]

theorem cache_response_sent (redis : RedisClient) (request : HttpRequest)
    (response : HttpResponse) (route : RouteConfig) :
    (cache_response redis request response route).sent = redis.sent ++
      (if request.method = "GET" ∧ response.status = 200 ∧
          ¬ str_contains (response.get_header "Cache-Control" "") "no-store" = true ∧
          ¬ str_contains (response.get_header "Cache-Control" "") "no-cache" = true ∧
          ¬ str_contains (response.get_header "Cache-Control" "") "private" = true then
        [RedisCommand.SETEX (generate_cache_key request) route.cache_ttl_seconds
          response.to_string]
      else []) := by
  unfold cache_response
  by_cases h1 : request.method = "GET"
  · by_cases h2 : response.status = 200
    · by_cases h3 : str_contains (response.get_header "Cache-Control" "") "no-store" = true
      · simp [h1, h2, h3]
      · by_cases h4 : str_contains (response.get_header "Cache-Control" "") "no-cache" = true
        · simp [h1, h2, h3, h4]
        · by_cases h5 : str_contains (response.get_header "Cache-Control" "") "private" = true
          · simp [h1, h2, h3, h4, h5]
          · simp [h1, h2, h3, h4, h5, RedisClient.set_with_expiry]
    · simp [h1, h2]
  · simp [h1]

theorem cacheable_iff (request : HttpRequest) (response : HttpResponse) (route : RouteConfig) :
    cacheable request response route = true ↔
      (request.method = "GET" ∧ response.status = 200 ∧
        str_contains (response.get_header "Cache-Control" "") "no-store" = false ∧
        str_contains (response.get_header "Cache-Control" "") "no-cache" = false ∧
        str_contains (response.get_header "Cache-Control" "") "private" = false ∧
        route.cache_enabled = true) := by
  unfold cacheable
  simp only [Bool.and_eq_true, beq_iff_eq, Bool.not_eq_true', decide_eq_true_eq]
  tauto

/-- The tail of `handle_request` issues one `SETEX` of the serialised upstream response under
the cache key, with the route's time to live, when the response is cacheable, and no command
otherwise. -/
theorem handle_request_forward_sent (env : Env) (h : ProxyHandler) (request : HttpRequest)
    (route : RouteConfig) (r2 : RedisClient) (h2 : h.redis_client = some r2) :
    ∃ r3, (handle_request_forward env h request route).handler.redis_client = some r3 ∧
      r3.sent = r2.sent ++
        (if cacheable request (forward_request env h request route).response route = true then
          [RedisCommand.SETEX (generate_cache_key request) route.cache_ttl_seconds
            (forward_request env h request route).response.to_string]
        else []) := by
  unfold handle_request_forward
  simp only [h2]
  by_cases hc : route.cache_enabled = true ∧
      (forward_request env h request route).response.status = 200 ∧ request.method = "GET"
  · simp only [hc, and_self, if_true]
    refine ⟨_, rfl, ?_⟩
    rw [cache_response_sent]
    congr 1
    by_cases hcb : cacheable request (forward_request env h request route).response route = true
    · have := (cacheable_iff _ _ _).mp hcb
      simp [hcb, this]
    · have hn : ¬ (str_contains ((forward_request env h request route).response.get_header
          "Cache-Control" "") "no-store" = false ∧
          str_contains ((forward_request env h request route).response.get_header
          "Cache-Control" "") "no-cache" = false ∧
          str_contains ((forward_request env h request route).response.get_header
          "Cache-Control" "") "private" = false) := by
        intro hh
        exact hcb ((cacheable_iff _ _ _).mpr ⟨hc.2.2, hc.2.1, hh.1, hh.2.1, hh.2.2, hc.1⟩)
      simp only [hcb, if_false]
      simp only [Bool.not_eq_true, hc, true_and]
      simp only [hn, if_false]
      simp
  · have hcb : ¬ cacheable request (forward_request env h request route).response route = true := by
      intro hcb
      have := (cacheable_iff _ _ _).mp hcb
      exact hc ⟨this.2.2.2.2.2, this.2.1, this.1⟩
    simp only [hc, if_false, hcb]
    exact ⟨r2, rfl, by simp⟩
theorem forward_request_redis_irrelevant (env : Env) (h : ProxyHandler)
    (rc : Option RedisClient) (request : HttpRequest) (route : RouteConfig) :
    forward_request env { h with redis_client := rc } request route =
      forward_request env h request route := rfl

/-- Among commands that carry the rate-limit key or are reads, followed by the commands `w` of
the cache write, a `SETEX` under the cache key can only be one of `w`. -/
theorem setex_mem_cache_write (client_ip : String) (request : HttpRequest) (window : Int)
    (cmds1 cmds2 w : List RedisCommand)
    (h1 : ∀ c ∈ cmds1, c = RedisCommand.GET ("rate_limit:" ++ client_ip) ∨
        c = RedisCommand.SETEX ("rate_limit:" ++ client_ip) window "1" ∨
        c = RedisCommand.INCR ("rate_limit:" ++ client_ip))
    (h2 : ∀ c ∈ cmds2, c = RedisCommand.GET (generate_cache_key request))
    (ttl : Int) (v : String) :
    RedisCommand.SETEX (generate_cache_key request) ttl v ∈ cmds1 ++ cmds2 ++ w ↔
      RedisCommand.SETEX (generate_cache_key request) ttl v ∈ w := by
  constructor
  · intro hm
    rcases List.mem_append.mp hm with hm | hm
    · rcases List.mem_append.mp hm with hm | hm
      · rcases h1 _ hm with hc | hc | hc
        · cases hc
        · injection hc with hkey
          exact absurd hkey.symm (rate_key_ne_cache_key client_ip request)
        · cases hc
      · have := h2 _ hm
        cases this
    · exact hm
  · intro hm
    exact List.mem_append.mpr (Or.inr hm)

/-- C8: cacheability. With a store client configured, whenever `handle_request` has sent the
request upstream, a route matched it, and among the store commands issued by the call there is a
`SETEX` under the request's cache key if and only if the method is `GET`, the status of the
upstream response is 200, its `Cache-Control` contains none of `no-store`, `no-cache`, `private`,
and the route has `cache_enabled`; such a command carries the route's `cache_ttl_seconds` and the
serialised upstream response. -/
theorem cache_write_iff_cacheable (env : Env) (h : ProxyHandler) (request : HttpRequest)
    (client_ip : String) (redis : RedisClient) (url : String)
    (hredis : h.redis_client = some redis)
    (hup : (handle_request env h request client_ip).upstream_url = some url) :
    ∃ route r' cmds,
      find_route h.config.routes request.path = some route ∧
      (handle_request env h request client_ip).handler.redis_client = some r' ∧
      r'.sent = redis.sent ++ cmds ∧
      ((∃ ttl v, RedisCommand.SETEX (generate_cache_key request) ttl v ∈ cmds) ↔
        (request.method = "GET" ∧
          (forward_request env h request route).response.status = 200 ∧
          str_contains ((forward_request env h request route).response.get_header
            "Cache-Control" "") "no-store" = false ∧
          str_contains ((forward_request env h request route).response.get_header
            "Cache-Control" "") "no-cache" = false ∧
          str_contains ((forward_request env h request route).response.get_header
            "Cache-Control" "") "private" = false ∧
          route.cache_enabled = true)) ∧
      (∀ ttl v, RedisCommand.SETEX (generate_cache_key request) ttl v ∈ cmds →
        ttl = route.cache_ttl_seconds ∧
        v = (forward_request env h request route).response.to_string) := by
  obtain ⟨r1, cmds1, hr1, hs1, hk1⟩ := check_rate_limit_sent h.config redis client_ip
  rw [← hredis] at hr1
  -- what the tail of the function contributes, for a state `hx` that holds the client `rx`
  have tail : ∀ (route : RouteConfig) (rx : RedisClient) (cmds2 : List RedisCommand),
      rx.sent = redis.sent ++ cmds1 ++ cmds2 →
      (∀ c ∈ cmds2, c = RedisCommand.GET (generate_cache_key request)) →
      ∃ r' cmds,
        (handle_request_forward env { h with redis_client := some rx } request
          route).handler.redis_client = some r' ∧
        r'.sent = redis.sent ++ cmds ∧
        ((∃ ttl v, RedisCommand.SETEX (generate_cache_key request) ttl v ∈ cmds) ↔
          cacheable request (forward_request env h request route).response route = true) ∧
        (∀ ttl v, RedisCommand.SETEX (generate_cache_key request) ttl v ∈ cmds →
          ttl = route.cache_ttl_seconds ∧
          v = (forward_request env h request route).response.to_string) := by
    intro route rx cmds2 hrx hk2
    obtain ⟨r3, hr3, hs3⟩ := handle_request_forward_sent env
      { h with redis_client := some rx } request route rx rfl
    rw [forward_request_redis_irrelevant] at hs3
    refine ⟨r3, cmds1 ++ cmds2 ++
      (if cacheable request (forward_request env h request route).response route = true then
        [RedisCommand.SETEX (generate_cache_key request) route.cache_ttl_seconds
          (forward_request env h request route).response.to_string]
      else []), hr3, ?_, ?_, ?_⟩
    · rw [hs3, hrx, List.append_assoc, List.append_assoc, List.append_assoc]
    · constructor
      · rintro ⟨ttl, v, hm⟩
        have hm' := (setex_mem_cache_write client_ip request _ cmds1 cmds2 _ hk1 hk2 ttl v).mp hm
        by_contra hcb
        simp [hcb] at hm'
      · intro hcb
        refine ⟨route.cache_ttl_seconds,
          (forward_request env h request route).response.to_string, ?_⟩
        simp [hcb]
    · intro ttl v hm
      have hm' := (setex_mem_cache_write client_ip request _ cmds1 cmds2 _ hk1 hk2 ttl v).mp hm
      by_cases hcb : cacheable request (forward_request env h request route).response route = true
      · simp only [hcb, if_true, List.mem_singleton] at hm'
        injection hm' with _ h2 h3
        exact ⟨h2, h3⟩
      · simp [hcb] at hm'
  unfold handle_request at hup ⊢
  by_cases hsec : apply_security_checks env h request client_ip = true
  · simp only [hsec, Bool.not_true, Bool.false_eq_true, if_false] at hup ⊢
    cases hrl : (check_rate_limit h.config h.redis_client client_ip).1 with
    | error e => simp [hrl] at hup
    | ok b =>
      cases b with
      | false => simp [hrl] at hup
      | true =>
        simp only [hrl] at hup ⊢
        cases hroute : find_route h.config.routes request.path with
        | none => simp [hroute] at hup
        | some route =>
          simp only [hroute, hr1] at hup ⊢
          by_cases hce : route.cache_enabled = true
          · simp only [hce, if_true] at hup ⊢
            obtain ⟨cmds2, hs2, hk2⟩ := get_cached_response_sent r1 request route
            cases hcached : (get_cached_response r1 request route).1 with
            | error e => simp [hcached] at hup
            | ok cr =>
              cases cr with
              | some resp => simp [hcached] at hup
              | none =>
                simp only [hcached] at hup ⊢
                obtain ⟨r', cmds, ha, hb, hc, hd⟩ := tail route
                  (get_cached_response r1 request route).2 cmds2 (by rw [hs2, hs1]) hk2
                exact ⟨route, r', cmds, rfl, ha, hb, hc.trans (cacheable_iff _ _ _), hd⟩
          · simp only [hce, Bool.false_eq_true, if_false] at hup ⊢
            obtain ⟨r', cmds, ha, hb, hc, hd⟩ := tail route r1 [] (by simp [hs1]) (by simp)
            exact ⟨route, r', cmds, rfl, ha, hb, hc.trans (cacheable_iff _ _ _), hd⟩
  · simp [hsec] at hup

/-- C8 at the cache scenario: a GET for `/api/x` on a route with caching enabled and an empty
store is sent upstream, so the theorem applies. -/
theorem cache_write_iff_cacheable_witness :
    ∃ route r' cmds,
      find_route (ProxyHandler.make s1_config empty_store).config.routes s1_request.path =
        some route ∧
      (handle_request scenario_env (ProxyHandler.make s1_config empty_store) s1_request
        "10.0.0.1").handler.redis_client = some r' ∧
      r'.sent = empty_store.sent ++ cmds ∧
      ((∃ ttl v, RedisCommand.SETEX (generate_cache_key s1_request) ttl v ∈ cmds) ↔
        (s1_request.method = "GET" ∧
          (forward_request scenario_env (ProxyHandler.make s1_config empty_store) s1_request
            route).response.status = 200 ∧
          str_contains ((forward_request scenario_env (ProxyHandler.make s1_config empty_store)
            s1_request route).response.get_header "Cache-Control" "") "no-store" = false ∧
          str_contains ((forward_request scenario_env (ProxyHandler.make s1_config empty_store)
            s1_request route).response.get_header "Cache-Control" "") "no-cache" = false ∧
          str_contains ((forward_request scenario_env (ProxyHandler.make s1_config empty_store)
            s1_request route).response.get_header "Cache-Control" "") "private" = false ∧
          route.cache_enabled = true)) ∧
      (∀ ttl v, RedisCommand.SETEX (generate_cache_key s1_request) ttl v ∈ cmds →
        ttl = route.cache_ttl_seconds ∧
        v = (forward_request scenario_env (ProxyHandler.make s1_config empty_store) s1_request
          route).response.to_string) :=
  cache_write_iff_cacheable scenario_env (ProxyHandler.make s1_config empty_store) s1_request
    "10.0.0.1" empty_store "http://127.0.0.1:9001/api/x" (by decide) (by decide)

/-! ## Sorted maps -/

theorem map_set_mem {V : Type} (m : StdMap V) (key : String) (v : V) (x : String × V)
    (hx : x ∈ map_set m key v) : x = (key, v) ∨ x ∈ m := by
  induction m with
  | nil =>
    simp only [map_set, List.mem_singleton] at hx
    exact Or.inl hx
  | cons e rest ih =>
    obtain ⟨k, w⟩ := e
    unfold map_set at hx
    by_cases h1 : key.data < k.data
    · simp only [h1, if_true, List.mem_cons] at hx
      rcases hx with hx | hx | hx
      · exact Or.inl hx
      · exact Or.inr (by rw [hx]; exact List.mem_cons_self _ _)
      · exact Or.inr (List.mem_cons_of_mem _ hx)
    · by_cases h2 : key = k
      · subst h2
        simp only [h1, if_false, if_true, List.mem_cons] at hx
        rcases hx with hx | hx
        · exact Or.inl hx
        · exact Or.inr (List.mem_cons_of_mem _ hx)
      · simp only [h1, h2, if_false, List.mem_cons] at hx
        rcases hx with hx | hx
        · exact Or.inr (by rw [hx]; exact List.mem_cons_self _ _)
        · rcases ih hx with h | h
          · exact Or.inl h
          · exact Or.inr (List.mem_cons_of_mem _ h)

theorem map_set_sorted {V : Type} (m : StdMap V) (key : String) (v : V)
    (hm : map_sorted m) : map_sorted (map_set m key v) := by
  induction m with
  | nil => simp [map_set, map_sorted]
  | cons e rest ih =>
    obtain ⟨k, w⟩ := e
    unfold map_sorted at hm ih ⊢
    rw [List.pairwise_cons] at hm
    unfold map_set
    by_cases h1 : key.data < k.data
    · simp only [h1, if_true]
      rw [List.pairwise_cons, List.pairwise_cons]
      refine ⟨?_, hm.1, hm.2⟩
      intro x hx
      rcases List.mem_cons.mp hx with hx | hx
      · rw [hx]; exact h1
      · exact lt_trans h1 (hm.1 x hx)
    · by_cases h2 : key = k
      · subst h2
        simp only [h1, if_false, if_true]
        rw [List.pairwise_cons]
        exact ⟨hm.1, hm.2⟩
      · simp only [h1, h2, if_false]
        rw [List.pairwise_cons]
        refine ⟨?_, ih hm.2⟩
        intro x hx
        rcases map_set_mem rest key v x hx with hx | hx
        · rw [hx]
          rcases lt_trichotomy key.data k.data with h | h | h
          · exact absurd h h1
          · exact absurd (String.ext h) h2
          · exact h
        · exact hm.1 x hx

theorem map_find_mem {V : Type} (m : StdMap V) (key : String) (v : V)
    (h : map_find m key = some v) : (key, v) ∈ m := by
  induction m with
  | nil => simp [map_find] at h
  | cons e rest ih =>
    obtain ⟨k, w⟩ := e
    unfold map_find at h
    by_cases hk : key = k
    · simp only [hk, if_true, Option.some.injEq] at h
      rw [hk, h]
      exact List.mem_cons_self _ _
    · simp only [hk, if_false] at h
      exact List.mem_cons_of_mem _ (ih h)

theorem map_find_of_mem {V : Type} (m : StdMap V) (hm : map_sorted m) (key : String) (v : V)
    (h : (key, v) ∈ m) : map_find m key = some v := by
  induction m with
  | nil => cases h
  | cons e rest ih =>
    obtain ⟨k, w⟩ := e
    unfold map_sorted at hm ih
    rw [List.pairwise_cons] at hm
    unfold map_find
    rcases List.mem_cons.mp h with h | h
    · injection h with h1 h2
      simp [h1, h2]
    · have hlt := hm.1 _ h
      have hne : key ≠ k := by
        intro he
        rw [he] at hlt
        exact lt_irrefl _ hlt
      simp only [hne, if_false]
      exact ih hm.2 h

/-- Two sorted maps with the same lookups are the same list. -/
theorem map_ext {V : Type} (m₁ : StdMap V) :
    ∀ (m₂ : StdMap V), map_sorted m₁ → map_sorted m₂ →
      (∀ k, map_find m₁ k = map_find m₂ k) → m₁ = m₂ := by
  induction m₁ with
  | nil =>
    intro m₂ _ _ h
    cases m₂ with
    | nil => rfl
    | cons e rest =>
      have := h e.1
      simp [map_find] at this
  | cons e₁ rest₁ ih =>
    intro m₂ hs₁ hs₂ h
    cases m₂ with
    | nil =>
      have := h e₁.1
      simp [map_find] at this
    | cons e₂ rest₂ =>
      obtain ⟨k₁, v₁⟩ := e₁
      obtain ⟨k₂, v₂⟩ := e₂
      have hp₁ := List.pairwise_cons.mp hs₁
      have hp₂ := List.pairwise_cons.mp hs₂
      have hk : k₁ = k₂ := by
        by_contra hne
        have h1 := h k₁
        have h2 := h k₂
        simp only [map_find, if_true, hne, if_false] at h1
        have hne' : ¬ k₂ = k₁ := fun he => hne he.symm
        simp only [map_find, if_true, hne', if_false] at h2
        have l1 := hp₂.1 _ (map_find_mem rest₂ k₁ v₁ h1.symm)
        have l2 := hp₁.1 _ (map_find_mem rest₁ k₂ v₂ h2)
        exact lt_irrefl _ (lt_trans l1 l2)
      subst hk
      have hv : v₁ = v₂ := by
        have h1 := h k₁
        simpa [map_find] using h1
      subst hv
      congr 1
      apply ih rest₂ hp₁.2 hp₂.2
      intro k
      by_cases hk : k = k₁
      · subst hk
        have n1 : map_find rest₁ k = none := by
          cases hf : map_find rest₁ k with
          | none => rfl
          | some w => exact absurd (hp₁.1 _ (map_find_mem rest₁ k w hf)) (lt_irrefl _)
        have n2 : map_find rest₂ k = none := by
          cases hf : map_find rest₂ k with
          | none => rfl
          | some w => exact absurd (hp₂.1 _ (map_find_mem rest₂ k w hf)) (lt_irrefl _)
        rw [n1, n2]
      · have := h k
        simpa [map_find, hk] using this

theorem map_set_same {V : Type} (m : StdMap V) (hm : map_sorted m) (key : String) (v : V)
    (h : map_find m key = some v) : map_set m key v = m := by
  apply map_ext _ _ (map_set_sorted m key v hm) hm
  intro k
  rw [map_find_set]
  by_cases hk : k = key
  · simp [hk, h]
  · simp [hk]

theorem map_find_cons {V : Type} (k₁ : String) (v₁ : V) (rest : StdMap V) (k : String) :
    map_find ((k₁, v₁) :: rest) k = if k = k₁ then some v₁ else map_find rest k := rfl

/-- Entering the entries of a sorted map, in order, into a sorted map whose keys all occur in
it gives the map itself. -/
theorem map_foldl_set_find {V : Type} (m : StdMap V) :
    ∀ (init : StdMap V) (k : String), map_sorted m →
      map_find (m.foldl (fun acc kv => map_set acc kv.1 kv.2) init) k =
        match map_find m k with
        | some v => some v
        | none => map_find init k := by
  induction m with
  | nil => intro init k _; simp [map_find]
  | cons e rest ih =>
    intro init k hs
    obtain ⟨k₁, v₁⟩ := e
    have hp := List.pairwise_cons.mp hs
    simp only [List.foldl_cons]
    rw [ih _ k hp.2, map_find_cons]
    by_cases hk : k = k₁
    · subst hk
      have n1 : map_find rest k = none := by
        cases hf : map_find rest k with
        | none => rfl
        | some w => exact absurd (hp.1 _ (map_find_mem rest k w hf)) (lt_irrefl _)
      simp [n1, map_find_set]
    · simp only [hk, if_false]
      cases map_find rest k with
      | none => simp [map_find_set, hk]
      | some w => rfl

theorem map_foldl_set_sorted {V : Type} (m : StdMap V) :
    ∀ (init : StdMap V), map_sorted init →
      map_sorted (m.foldl (fun acc kv => map_set acc kv.1 kv.2) init) := by
  induction m with
  | nil => intro init h; exact h
  | cons e rest ih =>
    intro init h
    exact ih _ (map_set_sorted init e.1 e.2 h)

theorem map_foldl_set_self {V : Type} (m init : StdMap V) (hm : map_sorted m)
    (hi : map_sorted init) (hsub : ∀ k, map_find m k = none → map_find init k = none) :
    m.foldl (fun acc kv => map_set acc kv.1 kv.2) init = m := by
  apply map_ext _ _ (map_foldl_set_sorted m init hi) hm
  intro k
  rw [map_foldl_set_find m init k hm]
  cases hf : map_find m k with
  | none => exact hsub k hf
  | some v => rfl

/-! ## Searching in strings -/

theorem find_from_cons (pat : List Char) (c : Char) (cs : List Char) (i : Nat) :
    find_from pat (c :: cs) i =
      if pat.isPrefixOf (c :: cs) then some i else find_from pat cs (i + 1) := rfl

/-- A pattern whose second character is a line feed does not occur at a position of a text `l`
without line feed, when what follows `l` does not start with a line feed. -/
theorem find_from_skip (a : Char) (tail l : List Char) (hl : '\n' ∉ l) :
    ∀ (Y : List Char) (i : Nat), Y.head? ≠ some '\n' →
      find_from (a :: '\n' :: tail) (l ++ Y) i = find_from (a :: '\n' :: tail) Y (i + l.length) := by
  induction l with
  | nil => intro Y i _; simp
  | cons c l' ih =>
    intro Y i hY
    have hl' : '\n' ∉ l' := fun h => hl (List.mem_cons_of_mem _ h)
    have hnp : (a :: '\n' :: tail).isPrefixOf (c :: (l' ++ Y)) = false := by
      cases l' with
      | nil =>
        cases Y with
        | nil => simp [List.isPrefixOf]
        | cons y Y' =>
          have : y ≠ '\n' := fun h => hY (by simp [h])
          simp [List.isPrefixOf, this, Ne.symm this]
      | cons d l'' =>
        have : d ≠ '\n' := fun h => hl (by simp [h])
        simp [List.isPrefixOf, Ne.symm this]
    rw [List.cons_append, find_from_cons, hnp]
    simp only [Bool.false_eq_true, if_false]
    rw [ih hl' Y (i + 1) hY]
    simp only [List.length_cons]
    congr 1
    omega

/-- A one-character pattern is first found right after a text that does not contain it. -/
theorem find_from_char (a : Char) (l : List Char) (hl : a ∉ l) :
    ∀ (Y : List Char) (i : Nat), find_from [a] (l ++ a :: Y) i = some (i + l.length) := by
  induction l with
  | nil => intro Y i; simp [find_from, List.isPrefixOf]
  | cons c l' ih =>
    intro Y i
    have hc : a ≠ c := fun h => hl (by simp [h])
    have hl' : a ∉ l' := fun h => hl (List.mem_cons_of_mem _ h)
    have hnp : [a].isPrefixOf (c :: (l' ++ a :: Y)) = false := by
      simp [List.isPrefixOf, hc]
    rw [List.cons_append, find_from_cons, hnp]
    simp only [Bool.false_eq_true, if_false]
    rw [ih hl' Y (i + 1)]
    simp only [List.length_cons]
    congr 1
    omega

theorem find_from_crlf_crlf (Y : List Char) (i : Nat) :
    find_from ['\r', '\n', '\r', '\n'] ('\r' :: '\n' :: '\r' :: '\n' :: Y) i = some i := by
  simp [find_from, List.isPrefixOf]

theorem find_from_crlf (Y : List Char) (i : Nat) :
    find_from ['\r', '\n'] ('\r' :: '\n' :: Y) i = some i := by
  simp [find_from, List.isPrefixOf]

/-- The blank-line pattern does not start at a CR LF that is followed by a text `c :: d :: X`
whose second character is not a line feed. -/
theorem find_from_after_crlf (c d : Char) (X : List Char) (i : Nat) (hd : d ≠ '\n') :
    find_from ['\r', '\n', '\r', '\n'] ('\r' :: '\n' :: c :: d :: X) i =
      find_from ['\r', '\n', '\r', '\n'] (c :: d :: X) (i + 2) := by
  have h1 : ['\r', '\n', '\r', '\n'].isPrefixOf ('\r' :: '\n' :: c :: d :: X) = false := by
    simp [List.isPrefixOf, Ne.symm hd]
  have h2 : ['\r', '\n', '\r', '\n'].isPrefixOf ('\n' :: c :: d :: X) = false := by
    simp [List.isPrefixOf]
  rw [find_from_cons, h1]
  simp only [Bool.false_eq_true, if_false]
  rw [find_from_cons, h2]
  simp only [Bool.false_eq_true, if_false]

theorem find_first_not_of_value (value : List Char) (i : Nat)
    (hv : ∀ c, value.head? = some c → c ≠ ' ' ∧ c ≠ '\t') :
    find_first_not_of_from [' ', '\t'] (' ' :: value) i =
      if value = [] then none else some (i + 1) := by
  cases value with
  | nil => simp [find_first_not_of_from]
  | cons c rest =>
    have := hv c rfl
    simp [find_first_not_of_from, this.1, this.2]

/-! ## The serialised response -/

theorem to_string_foldl_data (hs : List (String × String)) :
    ∀ ss : String,
      (hs.foldl (fun ss header => ss ++ header.1 ++ ": " ++ header.2 ++ "\r\n") ss).data =
        ss.data ++ wire_block hs := by
  induction hs with
  | nil => intro ss; simp [wire_block]
  | cons h rest ih =>
    intro ss
    simp only [List.foldl_cons]
    rw [ih]
    simp only [String.data_append, wire_block, wire_line, List.append_assoc]
    rfl

theorem to_string_data (r : HttpResponse) :
    r.to_string.data =
      wire_status_line r.status ++ '\r' :: '\n' :: (wire_block r.headers ++
        '\r' :: '\n' :: r.body.data) := by
  unfold HttpResponse.to_string
  simp only [String.data_append, to_string_foldl_data, wire_status_line, List.append_assoc]
  rfl

theorem wire_block_eq_join (h : String × String) (rest : List (String × String)) :
    wire_block (h :: rest) = wire_join (h :: rest) ++ ['\r', '\n'] := by
  induction rest generalizing h with
  | nil => simp [wire_block, wire_join]
  | cons h' rest' ih =>
    rw [wire_block, ih h']
    simp [wire_join]

theorem digit_ne (c : Char) (h : c.isDigit = true) : c ≠ '\n' ∧ c ≠ ' ' := by
  constructor <;> (rintro rfl; exact absurd h (by decide))

theorem to_string_int_chars (i : Int) :
    '\n' ∉ (to_string_int i).data ∧ ' ' ∉ (to_string_int i).data := by
  unfold to_string_int
  by_cases hneg : i < 0
  · simp only [hneg, if_true]
    obtain ⟨_, hdig, _⟩ := toDigits_spec i.natAbs
    constructor
    · intro hm
      rcases List.mem_cons.mp hm with h | h
      · exact absurd h (by decide)
      · exact (digit_ne _ (hdig _ h)).1 rfl
    · intro hm
      rcases List.mem_cons.mp hm with h | h
      · exact absurd h (by decide)
      · exact (digit_ne _ (hdig _ h)).2 rfl
  · simp only [hneg, if_false]
    obtain ⟨_, hdig, _⟩ := toDigits_spec i.toNat
    exact ⟨fun hm => (digit_ne _ (hdig _ hm)).1 rfl, fun hm => (digit_ne _ (hdig _ hm)).2 rfl⟩

theorem ite_no_lf (c : Prop) [Decidable c] (a b : String) (ha : '\n' ∉ a.data)
    (hb : '\n' ∉ b.data) : '\n' ∉ (if c then a else b).data := by
  split_ifs <;> assumption

theorem status_message_no_lf (status : Int) :
    '\n' ∉ (HttpResponse.get_status_message status).data := by
  unfold HttpResponse.get_status_message
  repeat (apply ite_no_lf; · decide)
  decide

theorem wire_status_line_no_lf (status : Int) : '\n' ∉ wire_status_line status := by
  unfold wire_status_line
  intro hm
  rcases List.mem_append.mp hm with h | h
  · rcases List.mem_append.mp h with h | h
    · revert h; decide
    · exact (to_string_int_chars status).1 h
  · rcases List.mem_cons.mp h with h | h
    · exact absurd h (by decide)
    · exact status_message_no_lf status h

theorem wire_line_no_lf (h : String × String) (hn : header_name_ok h.1 = true)
    (hv : header_value_ok h.2 = true) : '\n' ∉ wire_line h := by
  unfold header_name_ok at hn
  unfold header_value_ok at hv
  simp only [List.all_eq_true, Bool.and_eq_true, bne_iff_ne, ne_eq] at hn hv
  unfold wire_line
  intro hm
  rcases List.mem_append.mp hm with h1 | h1
  · exact (hn _ h1).2 rfl
  · rcases List.mem_cons.mp h1 with h2 | h2
    · exact absurd h2 (by decide)
    · rcases List.mem_cons.mp h2 with h3 | h3
      · exact absurd h3 (by decide)
      · exact (hv.1 _ h3).2 rfl

/-- A header line has at least two characters, and the second is not a line feed. -/
theorem wire_line_shape (h : String × String) (hn : header_name_ok h.1 = true) :
    ∃ c d X, wire_line h = c :: d :: X ∧ d ≠ '\n' := by
  unfold header_name_ok at hn
  simp only [List.all_eq_true, Bool.and_eq_true, bne_iff_ne, ne_eq] at hn
  unfold wire_line
  cases hd : h.1.data with
  | nil => exact ⟨':', ' ', h.2.data, rfl, by decide⟩
  | cons c rest =>
    cases rest with
    | nil => exact ⟨c, ':', ' ' :: h.2.data, rfl, by decide⟩
    | cons d rest' =>
      refine ⟨c, d, rest' ++ ':' :: ' ' :: h.2.data, rfl, ?_⟩
      have : d ∈ h.1.data := by rw [hd]; simp
      exact (hn d this).2

theorem wire_join_shape (h : String × String) (rest : List (String × String))
    (hn : header_name_ok h.1 = true) :
    ∃ c d X, wire_join (h :: rest) = c :: d :: X ∧ d ≠ '\n' := by
  obtain ⟨c, d, X, hX, hd⟩ := wire_line_shape h hn
  cases rest with
  | nil => exact ⟨c, d, X, by simp [wire_join, hX], hd⟩
  | cons h' rest' =>
    exact ⟨c, d, X ++ '\r' :: '\n' :: wire_join (h' :: rest'), by simp [wire_join, hX], hd⟩

/-- The first blank line of the text `header lines, blank line, body` is the one after the last
header line. -/
theorem find_blank_line (hs : List (String × String)) (hne : hs ≠ [])
    (hok : ∀ h ∈ hs, header_name_ok h.1 = true ∧ header_value_ok h.2 = true)
    (Y : List Char) :
    ∀ i : Nat, find_from ['\r', '\n', '\r', '\n']
        (wire_join hs ++ '\r' :: '\n' :: '\r' :: '\n' :: Y) i =
      some (i + (wire_join hs).length) := by
  induction hs with
  | nil => exact absurd rfl hne
  | cons h rest ih =>
    intro i
    have hh := hok h (List.mem_cons_self _ _)
    have hlf := wire_line_no_lf h hh.1 hh.2
    cases rest with
    | nil =>
      simp only [wire_join]
      rw [find_from_skip '\r' ['\r', '\n'] _ hlf _ i (by simp), find_from_crlf_crlf]
    | cons h' rest' =>
      have hok' : ∀ x ∈ h' :: rest', header_name_ok x.1 = true ∧ header_value_ok x.2 = true :=
        fun x hx => hok x (List.mem_cons_of_mem _ hx)
      obtain ⟨c, d, X, hX, hd⟩ := wire_join_shape h' rest' (hok' h' (List.mem_cons_self _ _)).1
      have step := ih (by simp) hok' (i + (wire_line h).length + 2)
      simp only [wire_join, List.append_assoc, List.cons_append]
      rw [find_from_skip '\r' ['\r', '\n'] _ hlf _ i (by simp)]
      rw [hX] at step ⊢
      simp only [List.cons_append] at step ⊢
      rw [find_from_after_crlf c d _ _ hd, step]
      simp only [List.length_append, List.length_cons]
      congr 1
      omega

/-! ## Re-parsing the serialised response -/

theorem str_find_zero (s pat : String) : str_find s pat 0 = find_from pat.data s.data 0 := by
  simp [str_find]

theorem getlines_aux_line (l : List Char) (hl : '\n' ∉ l) (rest : List Char) :
    ∀ cur : List Char,
      getlines_aux (l ++ '\n' :: rest) cur = ⟨cur ++ l⟩ :: getlines_aux rest [] := by
  induction l with
  | nil => intro cur; simp [getlines_aux]
  | cons c l' ih =>
    intro cur
    have hc : c ≠ '\n' := fun h => hl (by simp [h])
    have hl' : '\n' ∉ l' := fun h => hl (List.mem_cons_of_mem _ h)
    rw [List.cons_append, getlines_aux]
    simp only [hc, if_false]
    rw [ih hl']
    simp

theorem getlines_aux_last (l : List Char) (hl : '\n' ∉ l) :
    ∀ cur : List Char, cur ++ l ≠ [] → getlines_aux l cur = [⟨cur ++ l⟩] := by
  induction l with
  | nil =>
    intro cur hne
    cases cur with
    | nil => simp at hne
    | cons _ _ => simp [getlines_aux]
  | cons c l' ih =>
    intro cur _
    have hc : c ≠ '\n' := fun h => hl (by simp [h])
    have hl' : '\n' ∉ l' := fun h => hl (List.mem_cons_of_mem _ h)
    rw [getlines_aux]
    simp only [hc, if_false]
    rw [ih hl' (cur ++ [c]) (by simp)]
    simp

theorem wire_line_ne_nil (h : String × String) : wire_line h ≠ [] := by
  unfold wire_line
  simp

theorem getlines_wire_join (hs : List (String × String)) (hne : hs ≠ [])
    (hok : ∀ h ∈ hs, header_name_ok h.1 = true ∧ header_value_ok h.2 = true) :
    getlines_aux (wire_join hs) [] = wire_lines hs := by
  induction hs with
  | nil => exact absurd rfl hne
  | cons h rest ih =>
    have hh := hok h (List.mem_cons_self _ _)
    have hlf := wire_line_no_lf h hh.1 hh.2
    cases rest with
    | nil =>
      simp only [wire_join, wire_lines]
      rw [getlines_aux_last _ hlf [] (by simpa using wire_line_ne_nil h)]
      simp
    | cons h' rest' =>
      have hok' : ∀ x ∈ h' :: rest', header_name_ok x.1 = true ∧ header_value_ok x.2 = true :=
        fun x hx => hok x (List.mem_cons_of_mem _ hx)
      simp only [wire_join, wire_lines]
      have hlf' : '\n' ∉ wire_line h ++ ['\r'] := by
        intro hm
        rcases List.mem_append.mp hm with h1 | h1
        · exact hlf h1
        · simp at h1
      have e : wire_line h ++ '\r' :: '\n' :: wire_join (h' :: rest') =
          (wire_line h ++ ['\r']) ++ '\n' :: wire_join (h' :: rest') := by simp
      rw [e, getlines_aux_line _ hlf' _ [], ih (by simp) hok']
      simp

/-- The value part of a header line never ends in a carriage return. -/
theorem wire_line_last (h : String × String) (hv : header_value_ok h.2 = true) :
    (wire_line h).getLast? ≠ some '\r' := by
  unfold header_value_ok at hv
  simp only [List.all_eq_true, Bool.and_eq_true, bne_iff_ne, ne_eq] at hv
  unfold wire_line
  cases hd : h.2.data with
  | nil =>
    simp [List.getLast?_append]
  | cons c rest =>
    have hlast : (h.1.data ++ ':' :: ' ' :: c :: rest).getLast? = (c :: rest).getLast? := by
      have e : h.1.data ++ ':' :: ' ' :: c :: rest = (h.1.data ++ [':', ' ']) ++ (c :: rest) := by
        simp
      obtain ⟨x, hx⟩ : ∃ x, (c :: rest).getLast? = some x :=
        ⟨_, List.getLast?_eq_getLast _ (by simp)⟩
      rw [e, List.getLast?_append, hx]
      rfl
    rw [hlast]
    intro hl
    have hm : '\r' ∈ c :: rest := List.mem_of_getLast?_eq_some hl
    rw [← hd] at hm
    exact (hv.1 _ hm).1 rfl

theorem strip_cr_wire_line (h : String × String) (hv : header_value_ok h.2 = true) :
    strip_cr ⟨wire_line h⟩ = ⟨wire_line h⟩ ∧
    strip_cr ⟨wire_line h ++ ['\r']⟩ = ⟨wire_line h⟩ := by
  constructor
  · unfold strip_cr
    simp [wire_line_last h hv]
  · unfold strip_cr
    simp

theorem split_wire_line (h : String × String) (hn : header_name_ok h.1 = true)
    (hv : header_value_ok h.2 = true) : split_header_line ⟨wire_line h⟩ = some h := by
  have hn' := hn
  have hv' := hv
  unfold header_name_ok at hn'
  unfold header_value_ok at hv'
  simp only [List.all_eq_true, Bool.and_eq_true, bne_iff_ne, ne_eq] at hn' hv'
  have hcolon : ':' ∉ h.1.data := fun hm => (hn' _ hm).1.1 rfl
  have hfind : str_find ⟨wire_line h⟩ ":" 0 = some h.1.data.length := by
    rw [str_find_zero]
    unfold wire_line
    have := find_from_char ':' h.1.data hcolon (' ' :: h.2.data) 0
    simpa using this
  have hhead : ∀ c, h.2.data.head? = some c → c ≠ ' ' ∧ c ≠ '\t' := by
    intro c hc
    cases hd : h.2.data with
    | nil => rw [hd] at hc; simp at hc
    | cons d rest =>
      rw [hd] at hc hv'
      simp only [List.head?_cons, Option.some.injEq] at hc
      subst hc
      simpa using hv'.2
  have hdrop : (wire_line h).drop (h.1.data.length + 1) = ' ' :: h.2.data := by
    unfold wire_line
    rw [List.drop_append_eq_append_drop]
    simp
  have hfn : str_find_first_not_of ⟨wire_line h⟩ " \t" (h.1.data.length + 1) =
      if h.2.data = [] then none else some (h.1.data.length + 1 + 1) := by
    unfold str_find_first_not_of
    simp only [hdrop]
    exact find_first_not_of_value h.2.data _ hhead
  unfold split_header_line
  simp only [hfind, hfn]
  have hname : substr ⟨wire_line h⟩ 0 h.1.data.length = h.1 := by
    unfold substr wire_line
    simp
  rw [hname]
  by_cases he : h.2.data = []
  · simp only [he, if_true]
    have : h.2 = "" := String.ext he
    rw [← this]
  · simp only [he, if_false]
    have hval : substr_from ⟨wire_line h⟩ (h.1.data.length + 1 + 1) = h.2 := by
      unfold substr_from wire_line
      have e : h.1.data ++ ':' :: ' ' :: h.2.data = (h.1.data ++ [':', ' ']) ++ h.2.data := by
        simp
      simp only [e]
      rw [List.drop_left' (by simp)]
    rw [hval]

/-- The header loop of `get_cached_response` on the lines of a serialised header block enters
the headers one by one. -/
theorem fold_wire_lines (hs : List (String × String))
    (hok : ∀ h ∈ hs, header_name_ok h.1 = true ∧ header_value_ok h.2 = true) :
    ∀ resp : HttpResponse,
      (wire_lines hs).foldl
        (fun r line =>
          match split_header_line (strip_cr line) with
          | some nv => r.set_header nv.1 nv.2
          | none => r) resp =
      hs.foldl (fun r h => r.set_header h.1 h.2) resp := by
  induction hs with
  | nil => intro resp; rfl
  | cons h rest ih =>
    intro resp
    have hh := hok h (List.mem_cons_self _ _)
    have hsplit := split_wire_line h hh.1 hh.2
    have hstrip := strip_cr_wire_line h hh.2
    cases rest with
    | nil => simp [wire_lines, hstrip.1, hsplit]
    | cons h' rest' =>
      have hok' : ∀ x ∈ h' :: rest', header_name_ok x.1 = true ∧ header_value_ok x.2 = true :=
        fun x hx => hok x (List.mem_cons_of_mem _ hx)
      simp only [wire_lines, List.foldl_cons, hstrip.2, hsplit]
      exact ih hok' _

theorem wire_lines_nonempty (hs : List (String × String)) :
    (wire_lines hs).takeWhile (fun line => !str_empty line) = wire_lines hs := by
  rw [List.takeWhile_eq_self_iff]
  intro line hm
  induction hs with
  | nil => simp [wire_lines] at hm
  | cons h rest ih =>
    cases rest with
    | nil =>
      simp only [wire_lines, List.mem_singleton] at hm
      subst hm
      have := wire_line_ne_nil h
      cases hw : wire_line h with
      | nil => exact absurd hw this
      | cons _ _ => simp [str_empty]
    | cons h' rest' =>
      simp only [wire_lines, List.mem_cons] at hm ih
      rcases hm with hm | hm
      · subst hm
        have := wire_line_ne_nil h
        cases hw : wire_line h with
        | nil => exact absurd hw this
        | cons _ _ => simp [str_empty]
      · exact ih hm

theorem parse_cached_status_wire (status : Int) (hmin : INT_MIN ≤ status)
    (hmax : status ≤ INT_MAX) (X : List Char) (resp : HttpResponse) :
    parse_cached_status ⟨wire_status_line status ++ '\r' :: '\n' :: X⟩ resp =
      Except.ok (resp.set_status status) := by
  have hsl := wire_status_line_no_lf status
  have hcode := to_string_int_chars status
  have hfind : str_find ⟨wire_status_line status ++ '\r' :: '\n' :: X⟩ "\r\n" 0 =
      some (wire_status_line status).length := by
    rw [str_find_zero]
    have := find_from_skip '\r' [] (wire_status_line status) hsl ('\r' :: '\n' :: X) 0 (by simp)
    have e : ("\r\n" : String).data = ['\r', '\n'] := rfl
    rw [e, this, find_from_crlf]
    simp
  have hline : substr ⟨wire_status_line status ++ '\r' :: '\n' :: X⟩ 0
      (wire_status_line status).length = ⟨wire_status_line status⟩ := by
    unfold substr
    simp
  have hshape : wire_status_line status =
      "HTTP/1.1".data ++ ' ' :: ((to_string_int status).data ++
        ' ' :: (HttpResponse.get_status_message status).data) := by
    unfold wire_status_line
    have e : ("HTTP/1.1 " : String).data = "HTTP/1.1".data ++ [' '] := rfl
    rw [e]
    simp
  have hcs : str_find ⟨wire_status_line status⟩ " " 0 = some 8 := by
    rw [str_find_zero, hshape]
    have e : (" " : String).data = [' '] := rfl
    rw [e, find_from_char ' ' "HTTP/1.1".data (by decide)]
    rfl
  have hdrop : (wire_status_line status).drop 9 =
      (to_string_int status).data ++ ' ' :: (HttpResponse.get_status_message status).data := by
    rw [hshape]
    rfl
  have hlen9 : 9 ≤ (wire_status_line status).length := by
    rw [hshape]
    simp only [List.length_append, List.length_cons]
    have : "HTTP/1.1".data.length = 8 := rfl
    omega
  have hce : str_find ⟨wire_status_line status⟩ " " (8 + 1) =
      some (9 + (to_string_int status).data.length) := by
    unfold str_find
    have e : (" " : String).data = [' '] := rfl
    simp only [String.length, hlen9, if_true, e, hdrop]
    exact find_from_char ' ' _ hcode.2 _ 9
  have hsub : substr ⟨wire_status_line status⟩ (8 + 1)
      (9 + (to_string_int status).data.length - 8 - 1) = to_string_int status := by
    unfold substr
    apply String.ext
    simp only [hdrop]
    have : 9 + (to_string_int status).data.length - 8 - 1 =
        (to_string_int status).data.length := by omega
    rw [this]
    simp
  unfold parse_cached_status
  simp only [hfind, hline, hcs, hce, hsub, stoi_to_string_int status hmin hmax]

theorem foldl_set_header (hs : List (String × String)) :
    ∀ resp : HttpResponse,
      hs.foldl (fun r h => r.set_header h.1 h.2) resp =
        { resp with headers := hs.foldl (fun acc kv => map_set acc kv.1 kv.2) resp.headers } := by
  induction hs with
  | nil => intro resp; rfl
  | cons h rest ih =>
    intro resp
    simp only [List.foldl_cons]
    rw [ih]
    rfl

theorem make_headers_sorted (status : Int) : map_sorted (HttpResponse.make status).headers := by
  show map_sorted (map_set (map_set [] "Server" "C++ Reverse Proxy") "Connection" "close")
  unfold map_sorted
  decide

theorem make_headers_find (status : Int) (k : String) (h1 : k ≠ "Server")
    (h2 : k ≠ "Connection") : map_find (HttpResponse.make status).headers k = none := by
  unfold HttpResponse.make
  simp only [map_find_set, h1, h2, if_false]
  rfl

theorem get_header_congr (r₁ r₂ : HttpResponse) (h : r₁.headers = r₂.headers)
    (name dflt : String) : r₁.get_header name dflt = r₂.get_header name dflt := by
  unfold HttpResponse.get_header
  rw [h]

/-- Re-parsing the serialised form of a response as `get_cached_response` does: for a response
with a sorted header map, an `int` status, header names and values that survive the wire
format, the `Server` and `Connection` headers, a `Content-Length` equal to the decimal length of
the body and a `Content-Type` that the case-insensitive lookup finds, the parser returns the
response with the header `X-Proxy-Cache: HIT` set. -/
theorem parse_cached_response_to_string (r : HttpResponse)
    (hsorted : map_sorted r.headers)
    (hmin : INT_MIN ≤ r.status) (hmax : r.status ≤ INT_MAX)
    (hok : ∀ h ∈ r.headers, header_name_ok h.1 = true ∧ header_value_ok h.2 = true)
    (hserver : map_find r.headers "Server" ≠ none)
    (hconn : map_find r.headers "Connection" ≠ none)
    (hlen : map_find r.headers "Content-Length" = some (to_string_nat r.body.length))
    (htype : map_find r.headers "Content-Type" =
      some (r.get_header "Content-Type" "text/plain")) :
    parse_cached_response r.to_string =
      Except.ok (some (r.set_header "X-Proxy-Cache" "HIT")) := by
  -- the header map is not empty
  obtain ⟨h0, rest, hhs⟩ : ∃ h0 rest, r.headers = h0 :: rest := by
    cases hh : r.headers with
    | nil => rw [hh] at hserver; exact absurd rfl hserver
    | cons a b => exact ⟨a, b, rfl⟩
  have hne : r.headers ≠ [] := by rw [hhs]; simp
  -- the serialised text
  have hdata : r.to_string =
      ⟨(wire_status_line r.status ++ '\r' :: '\n' :: wire_join r.headers) ++
        '\r' :: '\n' :: '\r' :: '\n' :: r.body.data⟩ := by
    apply String.ext
    rw [to_string_data, hhs, wire_block_eq_join]
    simp
  obtain ⟨c, d, X, hX, hd⟩ := wire_join_shape h0 rest (hok h0 (by rw [hhs]; simp)).1
  rw [← hhs] at hX
  have hfind : str_find r.to_string "\r\n\r\n" 0 =
      some (wire_status_line r.status ++ '\r' :: '\n' :: wire_join r.headers).length := by
    rw [str_find_zero, hdata]
    have e : ("\r\n\r\n" : String).data = ['\r', '\n', '\r', '\n'] := rfl
    simp only [e, List.append_assoc, List.cons_append]
    rw [find_from_skip '\r' ['\r', '\n'] _ (wire_status_line_no_lf r.status) _ 0 (by simp)]
    have hblank := find_blank_line r.headers hne hok r.body.data
      (0 + (wire_status_line r.status).length + 2)
    rw [hX] at hblank ⊢
    simp only [List.cons_append] at hblank ⊢
    rw [find_from_after_crlf c d _ _ hd, hblank]
    simp only [List.length_append, List.length_cons]
    congr 1
    omega
  have hhead : substr r.to_string 0
      (wire_status_line r.status ++ '\r' :: '\n' :: wire_join r.headers).length =
      ⟨wire_status_line r.status ++ '\r' :: '\n' :: wire_join r.headers⟩ := by
    rw [hdata]
    unfold substr
    apply String.ext
    show List.take _ (List.drop 0 _) = _
    rw [List.drop_zero, List.take_left' rfl]
  have hbody : substr_from r.to_string
      ((wire_status_line r.status ++ '\r' :: '\n' :: wire_join r.headers).length + 4) =
      r.body := by
    rw [hdata]
    unfold substr_from
    apply String.ext
    have e : (wire_status_line r.status ++ '\r' :: '\n' :: wire_join r.headers) ++
        '\r' :: '\n' :: '\r' :: '\n' :: r.body.data =
        ((wire_status_line r.status ++ '\r' :: '\n' :: wire_join r.headers) ++
          ['\r', '\n', '\r', '\n']) ++ r.body.data := by simp
    simp only [e]
    rw [List.drop_left' (by simp only [List.length_append, List.length_cons, List.length_nil])]
  -- the header loop
  have hlines : getlines ⟨wire_status_line r.status ++ '\r' :: '\n' :: wire_join r.headers⟩ =
      ⟨wire_status_line r.status ++ ['\r']⟩ :: wire_lines r.headers := by
    unfold getlines
    have hlf : '\n' ∉ wire_status_line r.status ++ ['\r'] := by
      intro hm
      rcases List.mem_append.mp hm with h1 | h1
      · exact wire_status_line_no_lf r.status h1
      · simp at h1
    have e : wire_status_line r.status ++ '\r' :: '\n' :: wire_join r.headers =
        (wire_status_line r.status ++ ['\r']) ++ '\n' :: wire_join r.headers := by simp
    simp only [e]
    rw [getlines_aux_line _ hlf _ [], getlines_wire_join r.headers hne hok]
    simp
  have hloop : ∀ resp : HttpResponse,
      parse_cached_headers
        ⟨wire_status_line r.status ++ '\r' :: '\n' :: wire_join r.headers⟩ resp =
        { resp with
          headers := r.headers.foldl (fun acc kv => map_set acc kv.1 kv.2) resp.headers } := by
    intro resp
    unfold parse_cached_headers
    rw [hlines]
    simp only [List.drop_succ_cons, List.drop_zero]
    rw [wire_lines_nonempty, fold_wire_lines r.headers hok, foldl_set_header]
  have hmap : r.headers.foldl (fun acc kv => map_set acc kv.1 kv.2)
      ((HttpResponse.make 200).set_status r.status).headers = r.headers := by
    apply map_foldl_set_self r.headers _ hsorted (make_headers_sorted 200)
    intro k hk
    apply make_headers_find
    · intro he; rw [he] at hk; exact hserver hk
    · intro he; rw [he] at hk; exact hconn hk
  unfold parse_cached_response
  simp only [hfind, hhead, hbody, parse_cached_status_wire r.status hmin hmax, hloop, hmap]
  have hct : HttpResponse.get_header
      { status := ((HttpResponse.make 200).set_status r.status).status, headers := r.headers,
        body := ((HttpResponse.make 200).set_status r.status).body }
      "Content-Type" "text/plain" = r.get_header "Content-Type" "text/plain" :=
    get_header_congr _ _ rfl _ _
  rw [hct]
  unfold HttpResponse.set_body
  simp only [map_set_same r.headers hsorted "Content-Type" _ htype,
    map_set_same r.headers hsorted "Content-Length" _ hlen]
  rfl

/-- C9 (amended): cache round trip. Let `r` be a response whose status is an `int`, whose header
map is sorted (the invariant of `std::map`), whose header names contain no colon, CR or LF,
whose header values contain no CR or LF and do not start with a blank or tab, that carries the
`Server` and `Connection` headers every constructed response has, whose `Content-Length` is the
decimal length of its body, and whose `Content-Type` header is present and is the header that a
case-insensitive lookup of `Content-Type` finds. Then re-parsing `to_string(r)` as
`get_cached_response` does gives `r` with the header `X-Proxy-Cache: HIT` set: same status, same
body, same headers. -/
theorem cache_round_trip (r : HttpResponse)
    (hsorted : map_sorted r.headers)
    (hmin : INT_MIN ≤ r.status) (hmax : r.status ≤ INT_MAX)
    (hok : ∀ h ∈ r.headers, header_name_ok h.1 = true ∧ header_value_ok h.2 = true)
    (hserver : map_find r.headers "Server" ≠ none)
    (hconn : map_find r.headers "Connection" ≠ none)
    (hlen : map_find r.headers "Content-Length" = some (to_string_nat r.body.length))
    (htype : map_find r.headers "Content-Type" =
      some (r.get_header "Content-Type" "text/plain")) :
    parse_cached_response r.to_string =
      Except.ok (some (r.set_header "X-Proxy-Cache" "HIT")) :=
  parse_cached_response_to_string r hsorted hmin hmax hok hserver hconn hlen htype

/-- C9 at a concrete response: the 200 response with body `hello` that `forward_request` builds
in the scenarios satisfies every hypothesis, so it comes back from the cache unchanged but for
`X-Proxy-Cache: HIT`. -/
theorem cache_round_trip_witness :
    parse_cached_response plain_response.to_string =
      Except.ok (some (plain_response.set_header "X-Proxy-Cache" "HIT")) :=
  cache_round_trip plain_response (by unfold map_sorted; decide) (by decide) (by decide)
    (by decide) (by decide) (by decide) (by decide) (by decide)

set_option maxRecDepth 20000 in
/-- C9 as stated fails: when the backend writes `CONTENT-TYPE` in capitals, `forward_request`
builds a response whose `Content-Type` is `text/plain`; the response is cached, and re-parsing
its serialisation gives a response whose `Content-Type` is `application/json`. -/
theorem cache_round_trip_changes_content_type :
    (forward_request capitals_env (ProxyHandler.make s1_config empty_store) s1_request
      (RouteConfig.mk "/api/" [BackendServer.make "b1" "127.0.0.1" 9001 1] false true
        60)).response = capitals_response ∧
    map_find capitals_response.headers "Content-Type" = some "text/plain" ∧
    (∃ cached, parse_cached_response capitals_response.to_string = Except.ok (some cached) ∧
      map_find cached.headers "Content-Type" = some "application/json") ∧
    parse_cached_response capitals_response.to_string ≠
      Except.ok (some (capitals_response.set_header "X-Proxy-Cache" "HIT")) := by
  refine ⟨by decide, by decide, ?_, by decide⟩
  refine ⟨((((HttpResponse.make 200).set_header "CONTENT-TYPE" "application/json").set_body "{}"
    "application/json").set_header "X-Proxy-Cache" "HIT"), by decide, by decide⟩

/-- C10 (the code at the failing input): a blob whose status line has a non-numeric code makes
`std::stoi` throw; the exception leaves `get_cached_response` and `handle_request`, and the
request is not sent to the backend. A blob without a blank line is a miss. -/
theorem malformed_status_code_raises :
    parse_cached_response "HTTP/1.1 abc OK\r\nServer: x\r\n\r\nhello" =
      Except.error CppException.invalid_argument ∧
    (handle_request scenario_env bad_blob_handler s1_request "10.0.0.1").response =
      Except.error CppException.invalid_argument ∧
    (handle_request scenario_env bad_blob_handler s1_request "10.0.0.1").upstream_url = none ∧
    parse_cached_response "no blank line" = Except.ok none := by
  refine ⟨by decide, by decide, by decide, by decide⟩

/-! ## Admission ordering -/

/-- The answer of `apply_security_checks` is the conjunction of its two gates, the allow-list
first. -/
theorem apply_security_checks_gates (env : Env) (h : ProxyHandler) (request : HttpRequest)
    (client_ip : String) :
    apply_security_checks env h request client_ip =
      (ip_allowed h.config client_ip && token_allowed env h request) := by
  show (if !ip_allowed h.config client_ip then false else token_allowed env h request) = _
  cases ip_allowed h.config client_ip <;> rfl

/-- When the security checks fail, `handle_request` answers 403 `Forbidden`, leaves the handler
as it was and forwards nothing. -/
theorem handle_request_forbidden (env : Env) (h : ProxyHandler) (request : HttpRequest)
    (client_ip : String) (hs : apply_security_checks env h request client_ip = false) :
    ∃ response, handle_request env h request client_ip =
        { response := Except.ok response, handler := h, upstream_url := none } ∧
      response.status = 403 ∧ response.body = "Forbidden" := by
  refine ⟨apply_cors_headers h.config request
    ((HttpResponse.make 403).set_body "Forbidden" "text/plain"), ?_, ?_, ?_⟩
  · simp only [handle_request, hs, Bool.not_false, if_true]
  · rw [(apply_cors_headers_status_body _ _ _).1]; rfl
  · rw [(apply_cors_headers_status_body _ _ _).2]; rfl

/-- C11: admission ordering in `handle_request`. For every environment, handler state (allow
list, token secret, rate store, health registry, route table), request and client address:
a failure of the allow-list gives 403 `Forbidden`; with the allow-list passed a failure of the
token check gives the same 403 and leaves the whole handler state, the rate counter included,
untouched; with both passed a denial by the rate limiter gives 429 `Rate limit exceeded`
whatever the route table holds; with all three passed a path without a route gives 404
`Not Found`; and a response with status 404 is returned only when all three gates have
passed. -/
theorem admission_ordering (env : Env) (h : ProxyHandler) (request : HttpRequest)
    (client_ip : String) :
    (ip_allowed h.config client_ip = false →
      ∃ response, handle_request env h request client_ip =
          { response := Except.ok response, handler := h, upstream_url := none } ∧
        response.status = 403 ∧ response.body = "Forbidden") ∧
    (ip_allowed h.config client_ip = true → token_allowed env h request = false →
      ∃ response, handle_request env h request client_ip =
          { response := Except.ok response, handler := h, upstream_url := none } ∧
        response.status = 403 ∧ response.body = "Forbidden") ∧
    (ip_allowed h.config client_ip = true → token_allowed env h request = true →
      rate_denied h client_ip →
      ∃ response, (handle_request env h request client_ip).response = Except.ok response ∧
        response.status = 429 ∧ response.body = "Rate limit exceeded" ∧
        (handle_request env h request client_ip).upstream_url = none) ∧
    (ip_allowed h.config client_ip = true → token_allowed env h request = true →
      rate_allowed h client_ip → find_route h.config.routes request.path = none →
      ∃ response, (handle_request env h request client_ip).response = Except.ok response ∧
        response.status = 404 ∧ response.body = "Not Found" ∧
        (handle_request env h request client_ip).upstream_url = none) ∧
    (∀ response, (handle_request env h request client_ip).response = Except.ok response →
      response.status = 404 →
      ip_allowed h.config client_ip = true ∧ token_allowed env h request = true ∧
        rate_allowed h client_ip) := by
  refine ⟨?_, ?_, ?_, ?_, ?_⟩
  · intro hip
    exact handle_request_forbidden env h request client_ip
      (by rw [apply_security_checks_gates, hip]; rfl)
  · intro hip htok
    exact handle_request_forbidden env h request client_ip
      (by rw [apply_security_checks_gates, hip, htok]; rfl)
  · intro hip htok hrl
    have hs : apply_security_checks env h request client_ip = true := by
      rw [apply_security_checks_gates, hip, htok]; rfl
    unfold rate_denied at hrl
    refine ⟨apply_cors_headers h.config request
      ((HttpResponse.make 429).set_body "Rate limit exceeded" "text/plain"), ?_, ?_, ?_, ?_⟩
    · simp only [handle_request, hs, hrl, Bool.not_true, Bool.false_eq_true, if_false]
    · rw [(apply_cors_headers_status_body _ _ _).1]; rfl
    · rw [(apply_cors_headers_status_body _ _ _).2]; rfl
    · simp only [handle_request, hs, hrl, Bool.not_true, Bool.false_eq_true, if_false]
  · intro hip htok hrl hroute
    have hs : apply_security_checks env h request client_ip = true := by
      rw [apply_security_checks_gates, hip, htok]; rfl
    unfold rate_allowed at hrl
    refine ⟨apply_cors_headers h.config request
      ((HttpResponse.make 404).set_body "Not Found" "text/plain"), ?_, ?_, ?_, ?_⟩
    · simp only [handle_request, hs, hrl, hroute, Bool.not_true, Bool.false_eq_true, if_false]
    · rw [(apply_cors_headers_status_body _ _ _).1]; rfl
    · rw [(apply_cors_headers_status_body _ _ _).2]; rfl
    · simp only [handle_request, hs, hrl, hroute, Bool.not_true, Bool.false_eq_true, if_false]
  · intro response hresp hst
    cases hs : apply_security_checks env h request client_ip with
    | false =>
        obtain ⟨r, hr, h403, _⟩ := handle_request_forbidden env h request client_ip hs
        rw [hr] at hresp
        simp only [Except.ok.injEq] at hresp
        rw [← hresp, h403] at hst
        exact absurd hst (by decide)
    | true =>
        rw [apply_security_checks_gates, Bool.and_eq_true] at hs
        refine ⟨hs.1, hs.2, ?_⟩
        have hs' : apply_security_checks env h request client_ip = true := by
          rw [apply_security_checks_gates, hs.1, hs.2]; rfl
        unfold rate_allowed
        cases hrl : (check_rate_limit h.config h.redis_client client_ip).1 with
        | error e =>
            simp only [handle_request, hs', hrl, Bool.not_true, Bool.false_eq_true,
              if_false] at hresp
            cases hresp
        | ok b =>
            cases b with
            | true => rfl
            | false =>
                simp only [handle_request, hs', hrl, Bool.not_true, Bool.false_eq_true,
                  if_false, Except.ok.injEq] at hresp
                rw [← hresp, (apply_cors_headers_status_body _ _ _).1] at hst
                exact absurd hst (by decide)

/-- Witness for C11: the client `10.0.0.1` is on the allow-list, carries a valid token and has
used up its limit of 3; its request for a path without a route is answered 429, not 404. -/
theorem admission_ordering_witness :
    ∃ response,
      (handle_request scenario_env (ProxyHandler.make allow_list_config spent_store)
        stray_request "10.0.0.1").response = Except.ok response ∧
      response.status = 429 ∧ response.body = "Rate limit exceeded" ∧
      (handle_request scenario_env (ProxyHandler.make allow_list_config spent_store)
        stray_request "10.0.0.1").upstream_url = none :=
  (admission_ordering scenario_env (ProxyHandler.make allow_list_config spent_store)
    stray_request "10.0.0.1").2.2.1 (by decide) (by decide) (by decide)

/-! ## The upgrade check of the connection handler -/

/-- Counterexample for C12: a WebSocket upgrade for a path that matches no route is answered 400
by `handle_connection`, not 404, although `handle_request` would answer 404 for it. -/
theorem upgrade_without_route_gets_400 :
    upgrade_request.is_websocket_request = true ∧
    find_route s1_config.routes upgrade_request.path = none ∧
    (handle_connection scenario_env (ProxyHandler.make s1_config empty_store) upgrade_request
      "10.0.0.1").sent.status = 400 ∧
    (handle_request scenario_env (ProxyHandler.make s1_config empty_store) upgrade_request
      "10.0.0.1").response.map (fun r => r.status) = Except.ok 404 := by
  decide

/-- C12 (amended): `handle_connection` checks for a WebSocket upgrade before it calls
`handle_request`. An upgrade request is answered 400 with the body
`WebSocket connections should be made to the WebSocket port` whatever the allow-list, the token,
the rate counter and the route table are; the handler state (the rate counter included) is left
as it was and nothing is forwarded. A request that is not an upgrade is given the response of
`handle_request`, so the gates of `handle_request` decide only for such requests. -/
theorem upgrade_rejected_before_gates (env : Env) (h : ProxyHandler) (request : HttpRequest)
    (client_ip : String) :
    (request.is_websocket_request = true →
      handle_connection env h request client_ip =
        { sent := (HttpResponse.make 400).set_body
            "WebSocket connections should be made to the WebSocket port" "text/plain"
          handler := h, upstream_url := none }) ∧
    (request.is_websocket_request = false →
      ∀ response, (handle_request env h request client_ip).response = Except.ok response →
        handle_connection env h request client_ip =
          { sent := response
            handler := (handle_request env h request client_ip).handler
            upstream_url := (handle_request env h request client_ip).upstream_url }) := by
  constructor
  · intro hw
    simp only [handle_connection, hw, if_true]
  · intro hw response hr
    simp only [handle_connection, hw, hr, Bool.false_eq_true, if_false]

/-- Witness for C12: an upgrade request from an address that is not on the allow-list, without
a token, is answered 400 and the handler is left as it was. -/
theorem upgrade_rejected_before_gates_witness :
    ip_allowed allow_list_config "10.0.0.2" = false ∧
    handle_connection scenario_env (ProxyHandler.make allow_list_config empty_store)
        upgrade_request "10.0.0.2" =
      { sent := (HttpResponse.make 400).set_body
          "WebSocket connections should be made to the WebSocket port" "text/plain"
        handler := ProxyHandler.make allow_list_config empty_store, upstream_url := none } :=
  ⟨by decide,
    (upgrade_rejected_before_gates scenario_env (ProxyHandler.make allow_list_config empty_store)
      upgrade_request "10.0.0.2").1 (by decide)⟩

/-! ## The allow-list -/

/-- The allow-list gate lets a client pass exactly when the list is empty, holds the address of
the client, or holds one of the entries `0.0.0.0` and `*`. -/
theorem ip_allowed_iff (config : Config) (client_ip : String) :
    ip_allowed config client_ip = true ↔
      config.allowed_ips = [] ∨ client_ip ∈ config.allowed_ips ∨
        "0.0.0.0" ∈ config.allowed_ips ∨ "*" ∈ config.allowed_ips := by
  unfold ip_allowed
  cases hl : config.allowed_ips with
  | nil => simp
  | cons a l =>
      simp only [List.isEmpty_cons, Bool.not_false, if_true, List.any_eq_true, Bool.or_eq_true,
        beq_iff_eq, false_or, reduceCtorEq]
      constructor
      · rintro ⟨x, hx, (h1 | h1) | h1⟩
        · exact Or.inl (h1 ▸ hx)
        · exact Or.inr (Or.inl (h1 ▸ hx))
        · exact Or.inr (Or.inr (h1 ▸ hx))
      · rintro (h1 | h1 | h1)
        · exact ⟨_, h1, Or.inl (Or.inl rfl)⟩
        · exact ⟨_, h1, Or.inl (Or.inr rfl)⟩
        · exact ⟨_, h1, Or.inr rfl⟩

/-- Counterexample for C13: the allow-list is not empty and the address `10.0.0.1` is not one
of its entries, yet the request is forwarded and answered 200, because the entry `*` admits
every client. -/
theorem allow_list_star_admits :
    star_config.allowed_ips ≠ [] ∧ "10.0.0.1" ∉ star_config.allowed_ips ∧
    (handle_request scenario_env (ProxyHandler.make star_config empty_store)
      (HttpRequest.make "GET" "/x" "HTTP/1.1") "10.0.0.1").response.map (fun r => r.status) =
      Except.ok 200 ∧
    (handle_request scenario_env (ProxyHandler.make star_config empty_store)
      (HttpRequest.make "GET" "/x" "HTTP/1.1") "10.0.0.1").upstream_url =
      some "http://127.0.0.1:9001/x" := by
  decide

/-- C13 (amended): when the allow-list is not empty, holds neither of the entries `0.0.0.0`
and `*`, and the address of the client is not one of its entries, `handle_request` answers 403
with the body `Forbidden`, leaves the handler as it was and forwards nothing; a list that holds
`0.0.0.0` or `*` admits every client, whatever its address; and when the allow-list is empty
the gate lets every client pass. In the last two cases the answer of the security checks is that
of the token check alone. -/
theorem allow_list_rejects (env : Env) (h : ProxyHandler) (request : HttpRequest)
    (client_ip : String) :
    (h.config.allowed_ips ≠ [] → client_ip ∉ h.config.allowed_ips →
      "0.0.0.0" ∉ h.config.allowed_ips → "*" ∉ h.config.allowed_ips →
      ∃ response, handle_request env h request client_ip =
          { response := Except.ok response, handler := h, upstream_url := none } ∧
        response.status = 403 ∧ response.body = "Forbidden") ∧
    ("0.0.0.0" ∈ h.config.allowed_ips ∨ "*" ∈ h.config.allowed_ips →
      ip_allowed h.config client_ip = true ∧
      apply_security_checks env h request client_ip = token_allowed env h request) ∧
    (h.config.allowed_ips = [] →
      ip_allowed h.config client_ip = true ∧
      apply_security_checks env h request client_ip = token_allowed env h request) := by
  refine ⟨?_, ?_, ?_⟩
  · intro h1 h2 h3 h4
    apply handle_request_forbidden
    have hip : ip_allowed h.config client_ip = false := by
      cases hb : ip_allowed h.config client_ip with
      | false => rfl
      | true =>
          rcases (ip_allowed_iff _ _).mp hb with h5 | h5 | h5 | h5
          · exact absurd h5 h1
          · exact absurd h5 h2
          · exact absurd h5 h3
          · exact absurd h5 h4
    rw [apply_security_checks_gates, hip]; rfl
  · intro h1
    have hip : ip_allowed h.config client_ip = true :=
      (ip_allowed_iff _ _).mpr (Or.inr (Or.inr h1))
    exact ⟨hip, by rw [apply_security_checks_gates, hip]; rfl⟩
  · intro h1
    have hip : ip_allowed h.config client_ip = true := (ip_allowed_iff _ _).mpr (Or.inl h1)
    exact ⟨hip, by rw [apply_security_checks_gates, hip]; rfl⟩

/-- Witness for C13: the allow-list holds `10.0.0.1` only, and a request from `10.0.0.2` with a
valid token is answered 403. -/
theorem allow_list_rejects_witness :
    ∃ response, handle_request scenario_env (ProxyHandler.make allow_list_config empty_store)
        signed_request "10.0.0.2" =
        { response := Except.ok response
          handler := ProxyHandler.make allow_list_config empty_store, upstream_url := none } ∧
      response.status = 403 ∧ response.body = "Forbidden" :=
  (allow_list_rejects scenario_env (ProxyHandler.make allow_list_config empty_store)
    signed_request "10.0.0.2").1 (by decide) (by decide) (by decide) (by decide)

/-! ## Compression -/

/-- C14: compression gate. `apply_compression` returns the response as it was given, body and
headers alike, whenever one of the three conditions fails: the `Accept-Encoding` of the request
does not contain `gzip`, or the content type of the response contains none of `text/`,
`application/json`, `application/javascript`, `application/xml`, `application/xhtml+xml`, or the
body is shorter than 1024 bytes. -/
theorem compression_gate (env : Env) (request : HttpRequest) (response : HttpResponse)
    (hgate : str_contains (request.get_header "Accept-Encoding" "") "gzip" = false ∨
      compressible_type (response.get_header "Content-Type" "") = false ∨
      response.body.length < 1024) :
    apply_compression env request response = response := by
  simp only [apply_compression]
  by_cases h1 : str_contains (request.get_header "Accept-Encoding" "") "gzip" = true
  · simp only [h1, Bool.not_true, Bool.false_eq_true, if_false]
    rcases hgate with h2 | h2 | h2
    · rw [h1] at h2; cases h2
    · unfold compressible_type at h2
      simp only [h2, Bool.not_false, Bool.true_or, if_true]
    · simp only [h2, decide_True, Bool.or_true, if_true]
  · simp only [Bool.not_eq_true] at h1
    simp only [h1, Bool.not_false, if_true]

/-- Witness for C14: the body `hello` is shorter than 1024 bytes, so the response stays as it
is although the client accepts gzip and the content type is `text/plain`. -/
theorem compression_gate_witness :
    str_contains (gzip_request.get_header "Accept-Encoding" "") "gzip" = true ∧
    compressible_type (plain_response.get_header "Content-Type" "") = true ∧
    apply_compression short_output_env gzip_request plain_response = plain_response :=
  ⟨by decide, by decide,
    compression_gate short_output_env gzip_request plain_response (Or.inr (Or.inr (by decide)))⟩

/-- C15: compression monotonicity. For every response and every sequence of outputs of the
encoder: the body after `apply_compression` is never longer than the body before; when the
response is changed at all, the output of the encoder is strictly shorter than the original
body, the new body is that output, `Content-Encoding` is `gzip` and `Content-Length` is the
decimal length of the new body; and when the output is not strictly shorter the response is
returned as it was given, so no `Content-Encoding` is set. -/
theorem compression_never_grows (env : Env) (request : HttpRequest) (response : HttpResponse) :
    (apply_compression env request response).body.length ≤ response.body.length ∧
    (apply_compression env request response ≠ response →
      (deflate_loop (env.deflate response.body) "").2.length < response.body.length ∧
      (apply_compression env request response).body =
        (deflate_loop (env.deflate response.body) "").2 ∧
      map_find (apply_compression env request response).headers "Content-Encoding" =
        some "gzip" ∧
      map_find (apply_compression env request response).headers "Content-Length" =
        some (to_string_nat (deflate_loop (env.deflate response.body) "").2.length)) ∧
    (¬ (deflate_loop (env.deflate response.body) "").2.length < response.body.length →
      apply_compression env request response = response) := by
  by_cases hc : apply_compression env request response = response
  · refine ⟨by rw [hc], fun hne => absurd hc hne, fun _ => hc⟩
  · have key : (deflate_loop (env.deflate response.body) "").2.length < response.body.length ∧
        apply_compression env request response =
          (response.set_body (deflate_loop (env.deflate response.body) "").2
            (response.get_header "Content-Type" "")).set_header "Content-Encoding" "gzip" := by
      simp only [apply_compression] at hc ⊢
      split_ifs at hc ⊢ with h1 h2 h3 h4
      all_goals first
        | exact absurd rfl hc
        | exact ⟨h4.2, rfl⟩
    obtain ⟨hlt, heq⟩ := key
    refine ⟨?_, fun _ => ⟨hlt, ?_, ?_, ?_⟩, fun hn => absurd hlt hn⟩
    · rw [heq]; exact Nat.le_of_lt hlt
    · rw [heq]; rfl
    · rw [heq]
      simp only [HttpResponse.set_header, map_find_set, if_true]
    · rw [heq]
      simp only [HttpResponse.set_header, HttpResponse.set_body, map_find_set]
      rw [if_neg (by decide)]
      simp only [if_true]

set_option maxRecDepth 100000 in
/-- Witness for C15: an output of two bytes for a body of 1024 bytes replaces the body. -/
theorem compression_never_grows_witness :
    (deflate_loop (short_output_env.deflate long_response.body) "").2.length <
      long_response.body.length ∧
    (apply_compression short_output_env gzip_request long_response).body =
      (deflate_loop (short_output_env.deflate long_response.body) "").2 ∧
    map_find (apply_compression short_output_env gzip_request long_response).headers
      "Content-Encoding" = some "gzip" ∧
    map_find (apply_compression short_output_env gzip_request long_response).headers
      "Content-Length" = some (to_string_nat
        (deflate_loop (short_output_env.deflate long_response.body) "").2.length) :=
  (compression_never_grows short_output_env gzip_request long_response).2.1 (by decide)

/-! ## CORS -/

/-- The origin test of `apply_cors_headers` in terms of membership. -/
theorem origin_allowed_iff (config : Config) (request : HttpRequest) :
    origin_allowed config request = true ↔
      (str_empty (request.get_header "Origin" "") = false ∧
        config.allowed_origins.any (fun allowed_origin =>
          allowed_origin == "*" || allowed_origin == request.get_header "Origin" "") = true) := by
  simp only [origin_allowed, Bool.and_eq_true, Bool.not_eq_true', Bool.or_eq_true,
    decide_eq_true_eq, List.any_eq_true, beq_iff_eq]
  constructor
  · rintro ⟨h1, h2 | h2⟩
    · exact ⟨h1, _, h2, Or.inr rfl⟩
    · exact ⟨h1, _, h2, Or.inl rfl⟩
  · rintro ⟨h1, x, hx, h2 | h2⟩
    · exact ⟨h1, Or.inr (h2 ▸ hx)⟩
    · exact ⟨h1, Or.inl (h2 ▸ hx)⟩

/-- What `apply_cors_headers` returns for an allowed origin. -/
theorem apply_cors_headers_allowed (config : Config) (request : HttpRequest)
    (response : HttpResponse) (ha : origin_allowed config request = true) :
    apply_cors_headers config request response =
      ((((response.set_header "Access-Control-Allow-Origin"
        (request.get_header "Origin" "")).set_header
        "Access-Control-Allow-Methods" "GET, POST, PUT, DELETE, OPTIONS").set_header
        "Access-Control-Allow-Headers"
        "Origin, Content-Type, Accept, Authorization, X-Requested-With").set_header
        "Access-Control-Allow-Credentials" "true").set_header "Access-Control-Max-Age" "3600" := by
  obtain ⟨h1, h2⟩ := (origin_allowed_iff _ _).mp ha
  simp only [apply_cors_headers, h1, h2, Bool.false_eq_true, if_false, if_true]

/-- What `apply_cors_headers` returns when the origin is missing or not allowed. -/
theorem apply_cors_headers_refused (config : Config) (request : HttpRequest)
    (response : HttpResponse) (ha : origin_allowed config request = false) :
    apply_cors_headers config request response = response := by
  simp only [apply_cors_headers]
  split_ifs with h1 h2
  · rfl
  · have := (origin_allowed_iff config request).mpr ⟨by simpa using h1, h2⟩
    rw [ha] at this; cases this
  · rfl

/-- The five headers are on every response that `apply_cors_headers` returns for an allowed
origin. -/
theorem apply_cors_headers_attached (config : Config) (request : HttpRequest)
    (response : HttpResponse) (ha : origin_allowed config request = true) :
    cors_attached (request.get_header "Origin" "")
      (apply_cors_headers config request response) = true := by
  rw [apply_cors_headers_allowed _ _ _ ha]
  simp only [cors_attached, HttpResponse.set_header, map_find_set, Bool.and_eq_true, beq_iff_eq]
  refine ⟨⟨⟨⟨?_, ?_⟩, ?_⟩, ?_⟩, ?_⟩
  · rw [if_neg (by decide), if_neg (by decide), if_neg (by decide), if_neg (by decide)]
    simp only [if_true]
  · rw [if_neg (by decide), if_neg (by decide), if_neg (by decide)]
    simp only [if_true]
  · rw [if_neg (by decide), if_neg (by decide)]
    simp only [if_true]
  · rw [if_neg (by decide)]
    simp only [if_true]
  · simp only [if_true]

/-- C16: CORS policy. For every configuration, request and response: when the request carries
an origin (a non-empty `Origin` value) that is an entry of the allowed origins, or the list
holds `*`, `apply_cors_headers` sets `Access-Control-Allow-Origin` to that origin and the four
other headers to their fixed values, and leaves the status, the body and every other header as
they were; when the `Origin` value is missing or empty, or is not allowed, the response is
returned unchanged. -/
theorem cors_policy (config : Config) (request : HttpRequest) (response : HttpResponse) :
    (origin_allowed config request = true →
      cors_attached (request.get_header "Origin" "")
        (apply_cors_headers config request response) = true ∧
      (apply_cors_headers config request response).status = response.status ∧
      (apply_cors_headers config request response).body = response.body ∧
      ∀ name, name ∉ cors_header_names →
        map_find (apply_cors_headers config request response).headers name =
          map_find response.headers name) ∧
    (origin_allowed config request = false →
      apply_cors_headers config request response = response) := by
  refine ⟨fun ha => ⟨apply_cors_headers_attached _ _ _ ha,
    (apply_cors_headers_status_body _ _ _).1, (apply_cors_headers_status_body _ _ _).2, ?_⟩,
    apply_cors_headers_refused _ _ _⟩
  intro name hn
  rw [apply_cors_headers_allowed _ _ _ ha]
  simp only [cors_header_names, List.mem_cons, List.mem_singleton, List.not_mem_nil, or_false,
    not_or] at hn
  obtain ⟨h1, h2, h3, h4, h5⟩ := hn
  simp only [HttpResponse.set_header, map_find_set, h1, h2, h3, h4, h5, if_false]

/-- Witness for C16: the origin `https://a.example` is on the list, and the 404 response is
given the five headers. -/
theorem cors_policy_witness :
    cors_attached (cors_request.get_header "Origin" "")
      (apply_cors_headers cors_config cors_request
        ((HttpResponse.make 404).set_body "Not Found" "text/plain")) = true ∧
    (apply_cors_headers cors_config cors_request
      ((HttpResponse.make 404).set_body "Not Found" "text/plain")).status = 404 ∧
    (apply_cors_headers cors_config cors_request
      ((HttpResponse.make 404).set_body "Not Found" "text/plain")).body = "Not Found" :=
  have h := (cors_policy cors_config cors_request
    ((HttpResponse.make 404).set_body "Not Found" "text/plain")).1 (by decide)
  ⟨h.1, h.2.1, h.2.2.1⟩

/-- Every response that `handle_request` returns has passed through `apply_cors_headers`. -/
theorem handle_request_response_cors (env : Env) (h : ProxyHandler) (request : HttpRequest)
    (client_ip : String) (response : HttpResponse)
    (hr : (handle_request env h request client_ip).response = Except.ok response) :
    ∃ inner, response = apply_cors_headers h.config request inner := by
  unfold handle_request at hr
  split_ifs at hr with h1
  · exact ⟨_, (Except.ok.inj hr).symm⟩
  · simp only [] at hr
    split at hr
    · cases hr
    · exact ⟨_, (Except.ok.inj hr).symm⟩
    · split at hr
      · exact ⟨_, (Except.ok.inj hr).symm⟩
      · split at hr
        · split_ifs at hr
          · split at hr
            · cases hr
            · exact ⟨_, (Except.ok.inj hr).symm⟩
            · exact ⟨_, (Except.ok.inj hr).symm⟩
          · exact ⟨_, (Except.ok.inj hr).symm⟩
        · exact ⟨_, (Except.ok.inj hr).symm⟩

/-- The responses of `handle_request` carry the CORS headers: for a request with an allowed
origin, every response that `handle_request` returns, whatever its status, has the five
headers. -/
theorem handle_request_cors_attached (env : Env) (h : ProxyHandler) (request : HttpRequest)
    (client_ip : String) (response : HttpResponse)
    (ha : origin_allowed h.config request = true)
    (hr : (handle_request env h request client_ip).response = Except.ok response) :
    cors_attached (request.get_header "Origin" "") response = true := by
  obtain ⟨inner, rfl⟩ := handle_request_response_cors env h request client_ip response hr
  exact apply_cors_headers_attached _ _ _ ha

/-- C17: the responses that `handle_connection` builds itself carry no CORS headers. The
request `cors_upgrade_request` is a WebSocket upgrade from an allowed origin; it is answered
400 and the response has no `Access-Control-Allow-Origin` header. The request `cors_request`
comes from the same allowed origin and meets a cached blob that makes `handle_request` raise an
exception; it is answered 500, again without the header. -/
theorem connection_responses_lack_cors :
    origin_allowed cors_config cors_upgrade_request = true ∧
    (handle_connection scenario_env (ProxyHandler.make cors_config empty_store)
      cors_upgrade_request "10.0.0.1").sent.status = 400 ∧
    map_find (handle_connection scenario_env (ProxyHandler.make cors_config empty_store)
      cors_upgrade_request "10.0.0.1").sent.headers "Access-Control-Allow-Origin" = none ∧
    origin_allowed cors_config cors_request = true ∧
    (handle_connection scenario_env cors_bad_blob_handler cors_request "10.0.0.1").sent.status =
      500 ∧
    map_find (handle_connection scenario_env cors_bad_blob_handler cors_request
      "10.0.0.1").sent.headers "Access-Control-Allow-Origin" = none := by
  decide

/-! ## Forwarding -/

/-- A body shorter than 1024 bytes is never compressed. -/
theorem apply_compression_short (env : Env) (request : HttpRequest) (response : HttpResponse)
    (hlen : response.body.length < 1024) :
    apply_compression env request response = response := by
  simp only [apply_compression, hlen, decide_True, Bool.or_true, if_true]
  split_ifs <;> rfl

/-- When every backend of the route is marked unhealthy, `select_backend` returns nothing. -/
theorem select_backend_all_down (hs : HealthStatus) (route : RouteConfig) (random_weight : Int)
    (hdown : ∀ b ∈ route.backends, health_get hs route.path_prefix b.name = false) :
    (select_backend hs route random_weight).1 = none := by
  simp only [select_backend, select_weighted_random, get_healthy_backends_fst]
  have : route.backends.filter (fun b => health_get hs route.path_prefix b.name) = [] := by
    rw [List.filter_eq_nil_iff]
    intro b hb
    simp [hdown b hb]
  simp [this]

/-- The tail of `handle_request` when no backend of the route is healthy: the response is 503
`No backend available`, nothing is sent upstream and the store client is left as it was. -/
theorem handle_request_forward_all_down (env : Env) (h : ProxyHandler) (request : HttpRequest)
    (route : RouteConfig) (hcurl : env.curl_init_ok = true)
    (hdown : ∀ b ∈ route.backends,
      health_get h.health_status route.path_prefix b.name = false) :
    ∃ response,
      (handle_request_forward env h request route).response = Except.ok response ∧
      response.status = 503 ∧ response.body = "No backend available" ∧
      (handle_request_forward env h request route).upstream_url = none ∧
      (handle_request_forward env h request route).handler.redis_client = h.redis_client := by
  have hsel := select_backend_all_down h.health_status route env.random_weight hdown
  have hfwd : forward_request env h request route =
      { response := (HttpResponse.make 503).set_body "No backend available" "text/plain"
        health_status := (select_backend h.health_status route env.random_weight).2
        upstream_url := none } := by
    simp only [forward_request, hcurl, hsel, Bool.not_true, Bool.false_eq_true, if_false]
  have hst : ((HttpResponse.make 503).set_body "No backend available" "text/plain").status ≠
      200 := by decide
  have hcomp : (if h.config.gzip_enabled = true then
        apply_compression env request
          ((HttpResponse.make 503).set_body "No backend available" "text/plain")
      else (HttpResponse.make 503).set_body "No backend available" "text/plain") =
      (HttpResponse.make 503).set_body "No backend available" "text/plain" := by
    split_ifs
    · exact apply_compression_short _ _ _ (by decide)
    · rfl
  refine ⟨apply_cors_headers h.config request
    ((HttpResponse.make 503).set_body "No backend available" "text/plain"), ?_, ?_, ?_, ?_, ?_⟩
  · simp only [handle_request_forward, hfwd, hcomp]
  · rw [(apply_cors_headers_status_body _ _ _).1]; rfl
  · rw [(apply_cors_headers_status_body _ _ _).2]; rfl
  · simp only [handle_request_forward, hfwd]
  · simp only [handle_request_forward, hfwd]
    cases h.redis_client with
    | none => rfl
    | some redis => simp only [hst, false_and, and_false, if_false]

/-- A request that passes the three gates, matches `route` and gets no cache hit is handled by
the tail `handle_request_forward`, run on the handler whose store client has seen the commands
of the rate limiter and of the cache read, all of them reads or writes of the rate-limit key or
reads of the cache key. -/
theorem handle_request_reaches_forward (env : Env) (h : ProxyHandler) (request : HttpRequest)
    (client_ip : String) (route : RouteConfig)
    (hs : apply_security_checks env h request client_ip = true)
    (hrate : rate_allowed h client_ip)
    (hroute : find_route h.config.routes request.path = some route)
    (hmiss : ∀ redis, (check_rate_limit h.config h.redis_client client_ip).2 = some redis →
      route.cache_enabled = true →
      (get_cached_response redis request route).1 = Except.ok none) :
    ∃ rc : Option RedisClient,
      handle_request env h request client_ip =
        handle_request_forward env { h with redis_client := rc } request route ∧
      (h.redis_client = none → rc = none) ∧
      ∀ r0, h.redis_client = some r0 → ∃ r1 cmds, rc = some r1 ∧ r1.sent = r0.sent ++ cmds ∧
        ∀ c ∈ cmds, c = RedisCommand.GET ("rate_limit:" ++ client_ip) ∨
          c = RedisCommand.SETEX ("rate_limit:" ++ client_ip) h.config.rate_window_seconds "1" ∨
          c = RedisCommand.INCR ("rate_limit:" ++ client_ip) ∨
          c = RedisCommand.GET (generate_cache_key request) := by
  unfold rate_allowed at hrate
  cases hrc : h.redis_client with
  | none =>
      refine ⟨none, ?_, fun _ => rfl, fun r0 hr0 => by cases hr0⟩
      have h2 : (check_rate_limit h.config h.redis_client client_ip).2 = none := by
        rw [hrc]; rfl
      simp only [handle_request, hs, hrate, hroute, h2, Bool.not_true, Bool.false_eq_true,
        if_false]
  | some r0 =>
      obtain ⟨ra, cmds1, hra, hsent1, hc1⟩ := check_rate_limit_sent h.config r0 client_ip
      rw [← hrc] at hra
      by_cases hce : route.cache_enabled = true
      · have hm := hmiss ra hra hce
        obtain ⟨cmds2, hsent2, hc2⟩ := get_cached_response_sent ra request route
        refine ⟨some (get_cached_response ra request route).2, ?_, (fun hn => by cases hn),
          fun r hr => ?_⟩
        · simp only [handle_request, hs, hrate, hroute, hra, hce, hm, Bool.not_true,
            Bool.false_eq_true, if_false, if_true]
        · cases hr
          refine ⟨_, cmds1 ++ cmds2, rfl, by rw [hsent2, hsent1, List.append_assoc], ?_⟩
          intro c hc
          rcases List.mem_append.mp hc with hc | hc
          · rcases hc1 c hc with h1 | h1 | h1
            · exact Or.inl h1
            · exact Or.inr (Or.inl h1)
            · exact Or.inr (Or.inr (Or.inl h1))
          · exact Or.inr (Or.inr (Or.inr (hc2 c hc)))
      · refine ⟨some ra, ?_, (fun hn => by cases hn), fun r hr => ?_⟩
        · simp only [handle_request, hs, hrate, hroute, hra, hce, Bool.not_true,
            Bool.false_eq_true, if_false]
        · cases hr
          refine ⟨_, cmds1, rfl, hsent1, ?_⟩
          intro c hc
          rcases hc1 c hc with h1 | h1 | h1
          · exact Or.inl h1
          · exact Or.inr (Or.inl h1)
          · exact Or.inr (Or.inr (Or.inl h1))
/-- Counterexample for C18: the request passes the gates, matches the route `/`, the route does
no caching and its one backend is marked unhealthy, but `curl_easy_init` returns no handle; the
response is 500 `Internal Server Error`, not 503. -/
theorem no_backend_without_curl_handle_gets_500 :
    ip_allowed s3_handler.config "10.0.0.1" = true ∧
    token_allowed no_curl_env s3_handler (HttpRequest.make "GET" "/x" "HTTP/1.1") = true ∧
    rate_allowed s3_handler "10.0.0.1" ∧
    find_route s3_handler.config.routes (HttpRequest.make "GET" "/x" "HTTP/1.1").path =
      some s3_route ∧
    s3_route.cache_enabled = false ∧
    (∀ b ∈ s3_route.backends,
      health_get s3_handler.health_status s3_route.path_prefix b.name = false) ∧
    (handle_request no_curl_env s3_handler (HttpRequest.make "GET" "/x" "HTTP/1.1")
      "10.0.0.1").response.map (fun r => (r.status, r.body)) =
      Except.ok (500, "Internal Server Error") := by
  decide

/-- C18 (amended): no backend. When `curl_easy_init` returns a handle, a request that passes
the allow-list, the token check and the rate limiter, matches a route and gets no cache hit
(the route does no caching, there is no store client, or the lookup returns nothing), and every
backend of the route is marked unhealthy, then `handle_request` responds with status 503 and the
body `No backend available`, sends nothing upstream, and issues no store command other than
those of the rate limiter on the rate-limit key and the read of the cache key: nothing is
written to the cache. -/
theorem no_backend_503 (env : Env) (h : ProxyHandler) (request : HttpRequest)
    (client_ip : String) (route : RouteConfig)
    (hcurl : env.curl_init_ok = true)
    (hip : ip_allowed h.config client_ip = true)
    (htok : token_allowed env h request = true)
    (hrate : rate_allowed h client_ip)
    (hroute : find_route h.config.routes request.path = some route)
    (hmiss : ∀ redis, (check_rate_limit h.config h.redis_client client_ip).2 = some redis →
      route.cache_enabled = true →
      (get_cached_response redis request route).1 = Except.ok none)
    (hdown : ∀ b ∈ route.backends,
      health_get h.health_status route.path_prefix b.name = false) :
    ∃ response,
      (handle_request env h request client_ip).response = Except.ok response ∧
      response.status = 503 ∧ response.body = "No backend available" ∧
      (handle_request env h request client_ip).upstream_url = none ∧
      ∀ r0, h.redis_client = some r0 → ∃ r1 cmds,
        (handle_request env h request client_ip).handler.redis_client = some r1 ∧
        r1.sent = r0.sent ++ cmds ∧
        ∀ c ∈ cmds, c = RedisCommand.GET ("rate_limit:" ++ client_ip) ∨
          c = RedisCommand.SETEX ("rate_limit:" ++ client_ip) h.config.rate_window_seconds "1" ∨
          c = RedisCommand.INCR ("rate_limit:" ++ client_ip) ∨
          c = RedisCommand.GET (generate_cache_key request) := by
  have hs : apply_security_checks env h request client_ip = true := by
    rw [apply_security_checks_gates, hip, htok]; rfl
  obtain ⟨rc, heq, _, hlog⟩ :=
    handle_request_reaches_forward env h request client_ip route hs hrate hroute hmiss
  obtain ⟨response, hr, hst, hbody, hup, hredis⟩ :=
    handle_request_forward_all_down env { h with redis_client := rc } request route hcurl hdown
  refine ⟨response, by rw [heq]; exact hr, hst, hbody, by rw [heq]; exact hup, ?_⟩
  intro r0 hr0
  obtain ⟨r1, cmds, hrc, hsent, hc⟩ := hlog r0 hr0
  exact ⟨r1, cmds, by rw [heq, hredis]; exact hrc, hsent, hc⟩

/-- Witness for C18: the one backend of the route `/` is marked unhealthy. -/
theorem no_backend_503_witness :
    ∃ response,
      (handle_request scenario_env s3_handler (HttpRequest.make "GET" "/x" "HTTP/1.1")
        "10.0.0.1").response = Except.ok response ∧
      response.status = 503 ∧ response.body = "No backend available" ∧
      (handle_request scenario_env s3_handler (HttpRequest.make "GET" "/x" "HTTP/1.1")
        "10.0.0.1").upstream_url = none ∧
      ∀ r0, s3_handler.redis_client = some r0 → ∃ r1 cmds,
        (handle_request scenario_env s3_handler (HttpRequest.make "GET" "/x" "HTTP/1.1")
          "10.0.0.1").handler.redis_client = some r1 ∧
        r1.sent = r0.sent ++ cmds ∧
        ∀ c ∈ cmds, c = RedisCommand.GET ("rate_limit:" ++ "10.0.0.1") ∨
          c = RedisCommand.SETEX ("rate_limit:" ++ "10.0.0.1")
            s3_handler.config.rate_window_seconds "1" ∨
          c = RedisCommand.INCR ("rate_limit:" ++ "10.0.0.1") ∨
          c = RedisCommand.GET (generate_cache_key (HttpRequest.make "GET" "/x" "HTTP/1.1")) :=
  no_backend_503 scenario_env s3_handler (HttpRequest.make "GET" "/x" "HTTP/1.1") "10.0.0.1"
    s3_route rfl (by decide) (by decide) (by decide) (by decide)
    (fun _ _ hce => absurd hce (by decide)) (by decide)

/-! ## Cache reads -/

/-- The store after `set_with_expiry`: reachability and every other key are as before. -/
theorem set_with_expiry_frame (c : RedisClient) (key value : String) (ttl_seconds : Int) :
    (c.set_with_expiry key value ttl_seconds).reachable = c.reachable ∧
    ∀ k, k ≠ key →
      map_find (c.set_with_expiry key value ttl_seconds).store k = map_find c.store k := by
  refine ⟨rfl, fun k hk => ?_⟩
  simp only [RedisClient.set_with_expiry]
  split_ifs
  · rw [map_find_set, if_neg hk]
  · rfl

/-- The store after `increment`: reachability and every other key are as before. -/
theorem increment_frame (c : RedisClient) (key : String) :
    (c.increment key).reachable = c.reachable ∧
    ∀ k, k ≠ key → map_find (c.increment key).store k = map_find c.store k := by
  refine ⟨rfl, fun k hk => ?_⟩
  simp only [RedisClient.increment]
  split_ifs
  · split
    · rw [map_find_set, if_neg hk]
    · split
      · split_ifs
        · rw [map_find_set, if_neg hk]
        · rfl
      · rfl
  · rfl

/-- One call of `check_rate_limit` leaves the reachability of the store and every key other
than the rate-limit key of the client as they were. -/
theorem check_rate_limit_frame (config : Config) (redis : RedisClient) (client_ip : String)
    (r1 : RedisClient) (h : (check_rate_limit config (some redis) client_ip).2 = some r1) :
    r1.reachable = redis.reachable ∧
    ∀ k, k ≠ "rate_limit:" ++ client_ip → map_find r1.store k = map_find redis.store k := by
  simp only [check_rate_limit] at h
  split_ifs at h with hcond
  · cases h; exact ⟨rfl, fun _ _ => rfl⟩
  · split at h
    · simp only [Option.some.injEq] at h
      rw [← h, redis_get_int_snd]
      exact ⟨rfl, fun _ _ => rfl⟩
    · split_ifs at h
      · simp only [Option.some.injEq] at h
        rw [← h, redis_get_int_snd]
        exact set_with_expiry_frame _ _ _ _
      · simp only [Option.some.injEq] at h
        rw [← h, redis_get_int_snd]
        exact increment_frame _ _
      · simp only [Option.some.injEq] at h
        rw [← h, redis_get_int_snd]
        exact ⟨rfl, fun _ _ => rfl⟩

/-- Every response that `parse_cached_response` returns carries `X-Proxy-Cache: HIT`. -/
theorem parse_cached_response_hit (cached_data : String) (cached : HttpResponse)
    (hparse : parse_cached_response cached_data = Except.ok (some cached)) :
    map_find cached.headers "X-Proxy-Cache" = some "HIT" := by
  simp only [parse_cached_response] at hparse
  split at hparse
  · cases hparse
  · split at hparse
    · cases hparse
    · simp only [Except.ok.injEq, Option.some.injEq] at hparse
      rw [← hparse]
      simp only [HttpResponse.set_header, map_find_set, if_true]

/-- The lookup of a `GET` request in a reachable store that holds a non-empty blob without a
NUL character under its cache key returns what the parser makes of the blob. -/
theorem get_cached_response_found (redis : RedisClient) (request : HttpRequest)
    (route : RouteConfig) (entry : RedisEntry)
    (hget : request.method = "GET") (hreach : redis.reachable = true)
    (hentry : map_find redis.store (generate_cache_key request) = some entry)
    (hnul : no_nul entry.value = true)
    (hne : str_empty entry.value = false) :
    (get_cached_response redis request route).1 = parse_cached_response entry.value := by
  have hrd : (redis.get (generate_cache_key request)).1 = entry.value := by
    simp only [RedisClient.get, hreach, hentry, if_true, c_str_of_no_nul _ hnul]
  simp only [get_cached_response, hget, ne_eq, not_true_eq_false, if_false, hrd, hne,
    Bool.false_eq_true]

/-- The serialised form of a response is never empty. -/
theorem to_string_not_empty (r : HttpResponse) : str_empty r.to_string = false := by
  unfold str_empty
  rw [to_string_data]
  have e : wire_status_line r.status =
      'H' :: ("TTP/1.1 ".data ++ (to_string_int r.status).data ++
        ' ' :: (HttpResponse.get_status_message r.status).data) := rfl
  rw [e]
  rfl

/-- The lookup of `get_cached_response` changes no key of the store. -/
theorem get_cached_response_store (redis : RedisClient) (request : HttpRequest)
    (route : RouteConfig) : (get_cached_response redis request route).2.store = redis.store := by
  unfold get_cached_response
  split_ifs <;> simp only [redis_get_snd]
  split_ifs <;> rfl

/-- C19: cache hit short-circuits. Take a `GET` request that passes the allow-list, the token
check and the rate limiter and matches a route with `cache_enabled`, and a reachable store that
holds under the cache key of the request the serialised form `to_string(stored)` of a
well-formed response `stored` (keys and blob without a NUL character, so that they pass whole
through the C strings of the store client). Then `handle_request` returns `stored` itself, same
status, body and headers, stamped `X-Proxy-Cache: HIT` (and with the CORS headers for an allowed
origin); the handler after the call differs from the handler before only in its store client,
so no backend was selected; no upstream call was made; and the cached entry is still in the
store. For a request with any other method the lookup returns nothing and issues no command. -/
theorem cache_hit_short_circuits (env : Env) (h : ProxyHandler) (request : HttpRequest)
    (client_ip : String) :
    (∀ (route : RouteConfig) (redis : RedisClient) (entry : RedisEntry) (stored : HttpResponse),
      request.method = "GET" →
      ip_allowed h.config client_ip = true → token_allowed env h request = true →
      rate_allowed h client_ip →
      find_route h.config.routes request.path = some route → route.cache_enabled = true →
      h.redis_client = some redis → redis.reachable = true →
      map_find redis.store (generate_cache_key request) = some entry →
      entry.value = stored.to_string → well_formed_stored stored →
      no_nul client_ip = true → no_nul (generate_cache_key request) = true →
      no_nul stored.to_string = true →
      ∃ r2, handle_request env h request client_ip =
          { response := Except.ok (apply_cors_headers h.config request
              (stored.set_header "X-Proxy-Cache" "HIT"))
            handler := { h with redis_client := some r2 }
            upstream_url := none } ∧
        map_find r2.store (generate_cache_key request) = some entry) ∧
    (request.method ≠ "GET" → ∀ (redis : RedisClient) (route : RouteConfig),
      get_cached_response redis request route = (Except.ok none, redis)) := by
  constructor
  · intro route redis entry stored hget hip htok hrate hroute hce hredis hreach hentry hvalue
      hwf _ _ hnul
    obtain ⟨hsorted, hmin, hmax, hok, hserver, hconn, hlen, htype⟩ := hwf
    have hparse : parse_cached_response entry.value =
        Except.ok (some (stored.set_header "X-Proxy-Cache" "HIT")) := by
      rw [hvalue]
      exact parse_cached_response_to_string stored hsorted hmin hmax hok hserver hconn hlen
        htype
    have hne : str_empty entry.value = false := by
      rw [hvalue]; exact to_string_not_empty stored
    have hs : apply_security_checks env h request client_ip = true := by
      rw [apply_security_checks_gates, hip, htok]; rfl
    unfold rate_allowed at hrate
    obtain ⟨ra, cmds1, hra, _, _⟩ := check_rate_limit_sent h.config redis client_ip
    rw [← hredis] at hra
    have hfr := check_rate_limit_frame h.config redis client_ip ra (by rw [← hredis]; exact hra)
    have hentry' : map_find ra.store (generate_cache_key request) = some entry := by
      rw [hfr.2 _ (fun hk => rate_key_ne_cache_key client_ip request hk.symm)]; exact hentry
    have hfound := get_cached_response_found ra request route entry hget
      (by rw [hfr.1]; exact hreach) hentry' (by rw [hvalue]; exact hnul) hne
    rw [hparse] at hfound
    refine ⟨(get_cached_response ra request route).2, ?_, ?_⟩
    · simp only [handle_request, hs, hrate, hroute, hra, hce, hfound, Bool.not_true,
        Bool.false_eq_true, if_false, if_true]
    · rw [get_cached_response_store]; exact hentry'
  · intro hm redis route
    simp only [get_cached_response, hm, ne_eq, not_false_eq_true, if_true]

set_option maxRecDepth 20000 in
/-- Witness for C19: the store holds the serialised `rich_response` (status 203, a JSON body,
the headers `Cache-Control` and `X-Up`) under the key of `s1_request`; the request is answered
with that response stamped `HIT` and nothing is forwarded. -/
theorem cache_hit_short_circuits_witness :
    ∃ r2, handle_request scenario_env warm_handler s1_request "10.0.0.1" =
        { response := Except.ok (apply_cors_headers warm_handler.config s1_request
            (rich_response.set_header "X-Proxy-Cache" "HIT"))
          handler := { warm_handler with redis_client := some r2 }
          upstream_url := none } ∧
      map_find r2.store (generate_cache_key s1_request) =
        some ⟨rich_response.to_string, some 60⟩ :=
  (cache_hit_short_circuits scenario_env warm_handler s1_request "10.0.0.1").1
    s1_route
    { reachable := true
      store := [("cache:GET:/api/x", ⟨rich_response.to_string, some 60⟩)]
      sent := [] }
    ⟨rich_response.to_string, some 60⟩
    rich_response
    (by decide) (by decide) (by decide) (by decide) (by decide) (by decide) (by decide)
    (by decide) (by decide) rfl (by decide) (by decide) (by decide) (by decide)

/-! ## The headers of the forwarded response -/

/-- One call of `header_callback` keeps the map sorted. -/
theorem header_callback_step_sorted (headers : StdMap String) (buffer : String)
    (h : map_sorted headers) : map_sorted (header_callback headers buffer) := by
  unfold header_callback
  simp only []
  split_ifs
  all_goals first
    | exact h
    | (split
       · exact map_set_sorted _ _ _ h
       · exact h)

/-- The map that `header_callback` builds from the header lines is sorted. -/
theorem header_callback_sorted (header_lines : List String) :
    ∀ headers : StdMap String, map_sorted headers →
      map_sorted (header_lines.foldl header_callback headers) := by
  induction header_lines with
  | nil => intro headers h; exact h
  | cons line rest ih =>
    intro headers h
    simp only [List.foldl_cons]
    exact ih _ (header_callback_step_sorted headers line h)

/-- The copy loop leaves the status and the body alone; a header named `Content-Length` or
`Connection` keeps the value it had before the loop, and any other name takes the value of the
backend when the backend sent it. -/
theorem copy_headers_spec (response_headers : StdMap String) :
    ∀ (response : HttpResponse), map_sorted response_headers →
      (copy_headers response_headers response).status = response.status ∧
      (copy_headers response_headers response).body = response.body ∧
      ∀ name, map_find (copy_headers response_headers response).headers name =
        if name = "Content-Length" ∨ name = "Connection" then map_find response.headers name
        else
          match map_find response_headers name with
          | some v => some v
          | none => map_find response.headers name := by
  induction response_headers with
  | nil =>
    intro response _
    refine ⟨rfl, rfl, fun name => ?_⟩
    simp [copy_headers, map_find]
  | cons e rest ih =>
    intro response hs
    obtain ⟨k₁, v₁⟩ := e
    have hp := List.pairwise_cons.mp hs
    have hstep : copy_headers ((k₁, v₁) :: rest) response =
        copy_headers rest
          (if k₁ ≠ "Content-Length" ∧ k₁ ≠ "Connection" then response.set_header k₁ v₁
           else response) := rfl
    rw [hstep]
    obtain ⟨h1, h2, h3⟩ := ih
      (if k₁ ≠ "Content-Length" ∧ k₁ ≠ "Connection" then response.set_header k₁ v₁
       else response) hp.2
    refine ⟨?_, ?_, fun name => ?_⟩
    · rw [h1]; split_ifs <;> rfl
    · rw [h2]; split_ifs <;> rfl
    · rw [h3 name, map_find_cons]
      by_cases hskip : name = "Content-Length" ∨ name = "Connection"
      · rw [if_pos hskip, if_pos hskip]
        by_cases hk : k₁ ≠ "Content-Length" ∧ k₁ ≠ "Connection"
        · rw [if_pos hk]
          have hne : name ≠ k₁ := by
            rintro rfl
            rcases hskip with h | h
            · exact hk.1 h
            · exact hk.2 h
          simp only [HttpResponse.set_header, map_find_set, hne, if_false]
        · rw [if_neg hk]
      · rw [if_neg hskip, if_neg hskip]
        by_cases hname : name = k₁
        · subst hname
          have n1 : map_find rest name = none := by
            cases hf : map_find rest name with
            | none => rfl
            | some w => exact absurd (hp.1 _ (map_find_mem rest name w hf)) (lt_irrefl _)
          have hk : name ≠ "Content-Length" ∧ name ≠ "Connection" :=
            ⟨fun h => hskip (Or.inl h), fun h => hskip (Or.inr h)⟩
          rw [n1, if_pos hk, if_pos rfl]
          simp only [HttpResponse.set_header, map_find_set, if_true]
        · rw [if_neg hname]
          cases map_find rest name with
          | some w => rfl
          | none =>
            simp only []
            by_cases hk : k₁ ≠ "Content-Length" ∧ k₁ ≠ "Connection"
            · rw [if_pos hk]
              simp only [HttpResponse.set_header, map_find_set, hname, if_false]
            · rw [if_neg hk]

/-- The response `forward_request` builds from an answer of the backend: its body is the body
of the backend, its `Content-Length` is the decimal length of that body, its `Connection` is
`close`, and every header of the backend whose name is not exactly `Content-Length` or
`Connection` is copied with its value. -/
theorem forward_request_header_policy (env : Env) (h : ProxyHandler) (request : HttpRequest)
    (route : RouteConfig) (backend : BackendServer) (http_code : Int)
    (header_lines : List String) (response_body : String)
    (hcurl : env.curl_init_ok = true)
    (hsel : (select_backend h.health_status route env.random_weight).1 = some backend)
    (hdone : env.curl_perform ("http://" ++ backend.host ++ ":" ++ to_string_int backend.port ++
        request.path ++
        (if !str_empty request.query_string then "?" ++ request.query_string else ""))
        request = CurlResult.done http_code header_lines response_body) :
    (forward_request env h request route).response.status = http_code ∧
    (forward_request env h request route).response.body = response_body ∧
    map_find (forward_request env h request route).response.headers "Content-Length" =
      some (to_string_nat response_body.length) ∧
    map_find (forward_request env h request route).response.headers "Connection" =
      some "close" ∧
    ∀ name v, name ≠ "Content-Length" → name ≠ "Connection" →
      map_find (header_lines.foldl header_callback []) name = some v →
      map_find (forward_request env h request route).response.headers name = some v := by
  have hfwd : (forward_request env h request route).response =
      copy_headers (header_lines.foldl header_callback [])
        (((HttpResponse.make 200).set_status http_code).set_body response_body
          (match map_find (header_lines.foldl header_callback []) "Content-Type" with
           | some ct => ct
           | none => "text/plain")) := by
    simp only [forward_request, hcurl, hsel, hdone, Bool.not_true, Bool.false_eq_true, if_false,
      copy_headers]
  have hsorted := header_callback_sorted header_lines [] List.Pairwise.nil
  obtain ⟨h1, h2, h3⟩ := copy_headers_spec (header_lines.foldl header_callback [])
    (((HttpResponse.make 200).set_status http_code).set_body response_body
      (match map_find (header_lines.foldl header_callback []) "Content-Type" with
       | some ct => ct
       | none => "text/plain")) hsorted
  rw [hfwd]
  refine ⟨by rw [h1]; rfl, by rw [h2]; rfl, ?_, ?_, ?_⟩
  · rw [h3]
    simp only [true_or, if_true, HttpResponse.set_body, map_find_set]
  · rw [h3]
    simp only [or_true, if_true, HttpResponse.set_body, map_find_set]
    rw [if_neg (by decide), if_neg (by decide)]
    rfl
  · intro name v hn1 hn2 hv
    rw [h3, hv]
    simp only [hn1, hn2, or_self, if_false]

/-- C20: the copy loop of `forward_request` compares header names exactly. A backend that
answers with the body `hello` and writes `content-length: 5` and `connection: keep-alive` in
lower case has both headers copied into the response, next to the locally set
`Content-Length: 5` and `Connection: close`: the response carries two length headers and two
connection headers, the latter with different values. -/
theorem lower_case_headers_copied :
    (forward_request lower_case_env (ProxyHandler.make s1_config empty_store) s1_request
      s1_route).response =
      { status := 200
        headers := [("Connection", "close"), ("Content-Length", "5"),
          ("Content-Type", "text/plain"), ("Server", "C++ Reverse Proxy"),
          ("connection", "keep-alive"), ("content-length", "5"), ("x-up", "1")]
        body := "hello" } ∧
    (forward_request lower_case_env (ProxyHandler.make s1_config empty_store) s1_request
      s1_route).upstream_url = some "http://127.0.0.1:9001/api/x" := by
  decide

/-! ## Health probe -/

/-- C21: probe classification. `check_backend_health` answers healthy exactly when the transfer
completed without error (`curl_easy_init` gave a handle and `curl_easy_perform` returned
`CURLE_OK`) and the status code lies in [200, 499]; hence a transport error, a timeout among
them, and every status code of 500 or more are classified unhealthy. -/
theorem probe_classification (curl_init_ok : Bool) (curl_perform_head : String → ProbeReply)
    (backend : BackendServer) :
    (check_backend_health curl_init_ok curl_perform_head backend = true ↔
      curl_init_ok = true ∧ (curl_perform_head (probe_url backend)).res = CURLE_OK ∧
        200 ≤ (curl_perform_head (probe_url backend)).http_code ∧
        (curl_perform_head (probe_url backend)).http_code ≤ 499) ∧
    ((curl_perform_head (probe_url backend)).res ≠ CURLE_OK →
      check_backend_health curl_init_ok curl_perform_head backend = false) ∧
    ((curl_perform_head (probe_url backend)).res = CURLE_OPERATION_TIMEDOUT →
      check_backend_health curl_init_ok curl_perform_head backend = false) ∧
    (500 ≤ (curl_perform_head (probe_url backend)).http_code →
      check_backend_health curl_init_ok curl_perform_head backend = false) := by
  have key : check_backend_health curl_init_ok curl_perform_head backend = true ↔
      curl_init_ok = true ∧ (curl_perform_head (probe_url backend)).res = CURLE_OK ∧
        200 ≤ (curl_perform_head (probe_url backend)).http_code ∧
        (curl_perform_head (probe_url backend)).http_code ≤ 499 := by
    simp only [check_backend_health, probe_url]
    cases curl_init_ok with
    | false => simp
    | true =>
      by_cases hres : (curl_perform_head ("http://" ++ backend.host ++ ":" ++
          to_string_int backend.port ++ "/health")).res = CURLE_OK
      · simp only [hres, beq_self_eq_true, if_true, Bool.not_true, Bool.false_eq_true,
          if_false, decide_eq_true_eq, true_and, ge_iff_le]
        constructor
        · rintro ⟨h1, h2⟩; exact ⟨h1, by omega⟩
        · rintro ⟨h1, h2⟩; exact ⟨h1, by omega⟩
      · simp [hres]
  refine ⟨key, ?_, ?_, ?_⟩
  · intro hres
    cases hc : check_backend_health curl_init_ok curl_perform_head backend with
    | false => rfl
    | true => exact absurd (key.mp hc).2.1 hres
  · intro hres
    cases hc : check_backend_health curl_init_ok curl_perform_head backend with
    | false => rfl
    | true =>
      have := (key.mp hc).2.1
      rw [hres] at this
      exact absurd this (by decide)
  · intro hcode
    cases hc : check_backend_health curl_init_ok curl_perform_head backend with
    | false => rfl
    | true =>
      have := (key.mp hc).2.2.2
      omega

/-- Witness for C21: a probe answered 404 counts as healthy, one answered 503 does not. -/
theorem probe_classification_witness :
    check_backend_health true (fun _ => ⟨0, 404⟩) (BackendServer.make "b1" "127.0.0.1" 9001 1) =
      true ∧
    check_backend_health true (fun _ => ⟨0, 503⟩) (BackendServer.make "b1" "127.0.0.1" 9001 1) =
      false :=
  ⟨(probe_classification true (fun _ => ⟨0, 404⟩)
      (BackendServer.make "b1" "127.0.0.1" 9001 1)).1.mpr (by decide),
    (probe_classification true (fun _ => ⟨0, 503⟩)
      (BackendServer.make "b1" "127.0.0.1" 9001 1)).2.2.2 (by decide)⟩

/-! ## The token gate -/

/-- C22: `OPTIONS` bypasses authentication. With token authentication on (`auth_` holds the
secret and `jwt_auth_enabled` is set): every `OPTIONS` request from a client that passes the
allow-list passes `apply_security_checks`, whatever its headers are; and a request with any
other method fails when its `Authorization` header is missing (empty), does not start with
`Bearer `, or carries a token that `verify_jwt` rejects. -/
theorem options_bypasses_authentication (env : Env) (h : ProxyHandler) (request : HttpRequest)
    (client_ip secret : String) (hauth : h.auth = some secret)
    (hen : h.config.jwt_auth_enabled = true) :
    (request.method = "OPTIONS" → ip_allowed h.config client_ip = true →
      apply_security_checks env h request client_ip = true) ∧
    (request.method ≠ "OPTIONS" →
      (str_empty (request.get_header "Authorization" "") = true ∨
        substr (request.get_header "Authorization" "") 0 7 ≠ "Bearer " ∨
        verify_jwt env secret (substr_from (request.get_header "Authorization" "") 7) = false) →
      apply_security_checks env h request client_ip = false) := by
  constructor
  · intro hm hip
    rw [apply_security_checks_gates, hip]
    simp only [token_allowed, hauth, hen, hm, beq_self_eq_true, if_true, Bool.and_self]
  · intro hm hbad
    rw [apply_security_checks_gates]
    have htok : token_allowed env h request = false := by
      simp only [token_allowed, hauth, hen, if_true, beq_iff_eq, hm, if_false]
      rcases hbad with hb | hb | hb
      · simp only [hb, if_true]
      · by_cases he : str_empty (request.get_header "Authorization" "") = true
        · simp only [he, if_true]
        · simp only [he, hb, ne_eq, not_false_eq_true, if_true, if_false, Bool.false_eq_true]
      · by_cases he : str_empty (request.get_header "Authorization" "") = true
        · simp only [he, if_true]
        · by_cases hp : substr (request.get_header "Authorization" "") 0 7 ≠ "Bearer "
          · simp only [he, hp, ne_eq, not_false_eq_true, if_true, if_false,
              Bool.false_eq_true]
          · simp only [he, hp, hb, if_false, Bool.false_eq_true]
    rw [htok, Bool.and_false]

/-- Witness for C22: an `OPTIONS` request whose `Authorization` header is no bearer token
passes the security checks of a handler with token authentication. -/
theorem options_bypasses_authentication_witness :
    apply_security_checks scenario_env (ProxyHandler.make guarded_config empty_store)
      options_request "10.0.0.1" = true :=
  (options_bypasses_authentication scenario_env (ProxyHandler.make guarded_config empty_store)
    options_request "10.0.0.1" "k" (by decide) (by decide)).1 (by decide) (by decide)

/-! ## The cache key -/

/-- C23: cache fingerprint. The key of a request is `cache:`, the method, a colon and the URI as
the request line gave it (the query string is part of it); requests that agree in method and URI
have the same key, so setting a header or the body of a request does not change its key. -/
theorem cache_fingerprint (request : HttpRequest) :
    generate_cache_key request = "cache:" ++ request.method ++ ":" ++ request.uri ∧
    (∀ other : HttpRequest, other.method = request.method → other.uri = request.uri →
      generate_cache_key other = generate_cache_key request) ∧
    (∀ name value, generate_cache_key (request.set_header name value) =
      generate_cache_key request) ∧
    (∀ body, generate_cache_key (request.set_body body) = generate_cache_key request) ∧
    (∀ method uri http_version,
      generate_cache_key (HttpRequest.make method uri http_version) =
        "cache:" ++ method ++ ":" ++ uri) := by
  refine ⟨rfl, ?_, fun _ _ => rfl, fun _ => rfl, fun _ _ _ => rfl⟩
  intro other hm hu
  simp only [generate_cache_key, hm, hu]

/-- Witness for C23: two requests for the same URI with a query string, one with a token and a
body and one without, have the same key, and the key holds the query string. -/
theorem cache_fingerprint_witness :
    generate_cache_key (((HttpRequest.make "GET" "/api/x?id=7" "HTTP/1.1").set_header
      "Authorization" "Bearer hd.E60.khd.E60").set_body "b") =
      generate_cache_key (HttpRequest.make "GET" "/api/x?id=7" "HTTP/1.1") ∧
    generate_cache_key (HttpRequest.make "GET" "/api/x?id=7" "HTTP/1.1") =
      "cache:GET:/api/x?id=7" :=
  ⟨(cache_fingerprint (HttpRequest.make "GET" "/api/x?id=7" "HTTP/1.1")).2.1 _ rfl rfl,
    by decide⟩

/-! ## The registry after construction -/

/-- The flag of a pair after `set_backend_health`: the new value for the pair that was set, the
old flag for every other pair. -/
theorem health_get_set (hs : HealthStatus) (p n : String) (v : Bool) (p' n' : String) :
    health_get (set_backend_health hs p n v) p' n' =
      if p' = p ∧ n' = n then v else health_get hs p' n' := by
  unfold set_backend_health health_get
  simp only [map_find_set, map_index_fst]
  by_cases hp : p' = p
  · subst hp
    simp only [if_true, true_and, map_find_set]
    by_cases hn : n' = n
    · simp [hn]
    · simp only [hn, if_false]
      cases map_find hs p' <;> simp [map_find]
  · simp only [hp, if_false, false_and, map_find_index]

/-- Marking all backends of one route healthy makes their flags `true` and keeps every flag that
was `true`. -/
theorem mark_route_healthy (pfx : String) (backends : List BackendServer) :
    ∀ hs : HealthStatus,
      (∀ b ∈ backends, health_get (backends.foldl
        (fun hs' backend => set_backend_health hs' pfx backend.name true) hs) pfx b.name = true) ∧
      (∀ p n, health_get hs p n = true → health_get (backends.foldl
        (fun hs' backend => set_backend_health hs' pfx backend.name true) hs) p n = true) := by
  induction backends with
  | nil => intro hs; exact ⟨fun b hb => (by cases hb), fun p n h => h⟩
  | cons b rest ih =>
    intro hs
    simp only [List.foldl_cons]
    obtain ⟨h1, h2⟩ := ih (set_backend_health hs pfx b.name true)
    constructor
    · intro c hc
      rcases List.mem_cons.mp hc with hc | hc
      · subst hc
        apply h2
        rw [health_get_set]
        simp
      · exact h1 c hc
    · intro p n hpn
      apply h2
      rw [health_get_set]
      split_ifs
      · rfl
      · exact hpn

/-- The constructor loop over the routes, started from any registry. -/
theorem mark_routes_healthy (routes : List RouteConfig) :
    ∀ hs : HealthStatus,
      (∀ route ∈ routes, ∀ b ∈ route.backends, health_get (routes.foldl
        (fun hs route => route.backends.foldl
          (fun hs' backend => set_backend_health hs' route.path_prefix backend.name true) hs)
        hs) route.path_prefix b.name = true) ∧
      (∀ p n, health_get hs p n = true → health_get (routes.foldl
        (fun hs route => route.backends.foldl
          (fun hs' backend => set_backend_health hs' route.path_prefix backend.name true) hs)
        hs) p n = true) := by
  induction routes with
  | nil => intro hs; exact ⟨fun r hr => (by cases hr), fun p n h => h⟩
  | cons r rest ih =>
    intro hs
    simp only [List.foldl_cons]
    obtain ⟨h1, h2⟩ := ih (r.backends.foldl
      (fun hs' backend => set_backend_health hs' r.path_prefix backend.name true) hs)
    obtain ⟨g1, g2⟩ := mark_route_healthy r.path_prefix r.backends hs
    constructor
    · intro route hroute b hb
      rcases List.mem_cons.mp hroute with hr | hr
      · subst hr
        exact h2 _ _ (g1 b hb)
      · exact h1 route hr b hb
    · intro p n hpn
      exact h2 _ _ (g2 p n hpn)

/-- A flag that reads `true` belongs to a pair that is present in the registry. -/
theorem health_get_true_present (hs : HealthStatus) (p n : String)
    (h : health_get hs p n = true) :
    ∃ inner, map_find hs p = some inner ∧ map_find inner n = some true := by
  unfold health_get at h
  cases hp : map_find hs p with
  | none => simp [hp] at h
  | some inner =>
    simp only [hp] at h
    cases hn : map_find inner n with
    | none => simp [hn] at h
    | some v =>
      simp only [hn, Option.getD_some] at h
      subst h
      exact ⟨inner, rfl, hn⟩

/-- C24: initial liveness. In the registry that the constructor of `LoadBalancer` builds, every
pair of a route prefix and a backend name of the configuration is present with the value `true`;
so for every configured route `get_healthy_backends` returns all backends of the route, and
`select_backend` returns nothing exactly when the route has no backend, whatever number is
drawn. -/
theorem initial_liveness (config : Config) :
    (∀ route ∈ config.routes, ∀ b ∈ route.backends,
      ∃ inner, map_find (LoadBalancer_make config) route.path_prefix = some inner ∧
        map_find inner b.name = some true) ∧
    (∀ route ∈ config.routes,
      (get_healthy_backends (LoadBalancer_make config) route).1 = route.backends) ∧
    (∀ route ∈ config.routes, ∀ random_weight : Int,
      ((select_backend (LoadBalancer_make config) route random_weight).1 = none ↔
        route.backends = [])) := by
  have hall : ∀ route ∈ config.routes, ∀ b ∈ route.backends,
      health_get (LoadBalancer_make config) route.path_prefix b.name = true :=
    (mark_routes_healthy config.routes []).1
  have hsnap : ∀ route ∈ config.routes,
      (get_healthy_backends (LoadBalancer_make config) route).1 = route.backends := by
    intro route hroute
    rw [get_healthy_backends_fst, List.filter_eq_self]
    intro b hb
    exact hall route hroute b hb
  refine ⟨fun route hroute b hb => health_get_true_present _ _ _ (hall route hroute b hb),
    hsnap, ?_⟩
  intro route hroute random_weight
  simp only [select_backend, select_weighted_random, hsnap route hroute]
  cases hb : route.backends with
  | nil => simp
  | cons b rest =>
    obtain ⟨c, hc, _⟩ := weighted_pick_mem random_weight (b :: rest) (by simp)
    simp [hc]

/-- Witness for C24: the registry built for the configuration of the cache scenario makes the
one backend of its route healthy, and the selector returns it. -/
theorem initial_liveness_witness :
    (get_healthy_backends (LoadBalancer_make s1_config) s1_route).1 = s1_route.backends ∧
    (select_backend (LoadBalancer_make s1_config) s1_route 1).1 =
      some (BackendServer.make "b1" "127.0.0.1" 9001 1) :=
  ⟨(initial_liveness s1_config).2.1 s1_route (by decide), by decide⟩

/-! ## The weighted walk returns the first backend that reaches the drawn number -/

/-- C27: healthy snapshot. For every route and registry, `get_healthy_backends` returns the
order-preserving filter of `route.backends` by the flag of the pair (route prefix, backend
name): a backend is in the result exactly when it is a backend of the route whose flag is
`true`, it occurs as often as in the route, the result is a sublist of `route.backends`, and the
reads leave every flag of the registry as it was. -/
theorem healthy_snapshot (hs : HealthStatus) (route : RouteConfig) :
    (get_healthy_backends hs route).1 =
      route.backends.filter (fun b => health_get hs route.path_prefix b.name) ∧
    (∀ b, b ∈ (get_healthy_backends hs route).1 ↔
      b ∈ route.backends ∧ health_get hs route.path_prefix b.name = true) ∧
    (∀ b, health_get hs route.path_prefix b.name = true →
      (get_healthy_backends hs route).1.count b = route.backends.count b) ∧
    List.Sublist (get_healthy_backends hs route).1 route.backends ∧
    (∀ p n, health_get (get_healthy_backends hs route).2 p n = health_get hs p n) := by
  refine ⟨get_healthy_backends_fst hs route, ?_, ?_, ?_, get_healthy_backends_flags hs route⟩
  · intro b
    rw [get_healthy_backends_fst, List.mem_filter]
  · intro b hb
    rw [get_healthy_backends_fst, List.count_filter]
    simpa using hb
  · rw [get_healthy_backends_fst]
    exact List.filter_sublist _

/-- Witness for C27: with `a` healthy and `b` not, the snapshot of the route is `a` alone. -/
theorem healthy_snapshot_witness :
    (get_healthy_backends only_a_healthy two_backend_route).1 =
      [BackendServer.make "a" "10.0.0.2" 9001 1] := by
  rw [(healthy_snapshot only_a_healthy two_backend_route).1]
  decide
/-! ## Round robin -/

/-- A natural number below 2^64 survives the conversion to `size_t`. -/
theorem size_t_of_int_nat (m : Nat) (hm : m < 18446744073709551616) :
    size_t_of_int (m : Int) = m := by
  unfold size_t_of_int
  rw [Int.emod_eq_of_lt (by omega) (by omega)]
  exact Int.toNat_ofNat m

/-- One call of `select_round_robin` on a non-empty snapshot `H` with the counter `c`: the
result is `H[c mod |H|]`, the flags of the registry stay, and the counter becomes
`(c + 1) mod |H|`. -/
theorem select_round_robin_step (hs : HealthStatus) (counters : StdMap Int)
    (route : RouteConfig) (c : Nat)
    (hne : route.backends.filter (fun b => health_get hs route.path_prefix b.name) ≠ [])
    (hc : (map_find counters route.path_prefix).getD 0 = (c : Int))
    (hbound : c < 2147483647) :
    (select_round_robin hs counters route).1 =
      (route.backends.filter (fun b => health_get hs route.path_prefix b.name))[c %
        (route.backends.filter (fun b => health_get hs route.path_prefix b.name)).length]? ∧
    (∀ p n, health_get (select_round_robin hs counters route).2.1 p n = health_get hs p n) ∧
    (map_find (select_round_robin hs counters route).2.2 route.path_prefix).getD 0 =
      (((c + 1) % (route.backends.filter
        (fun b => health_get hs route.path_prefix b.name)).length : Nat) : Int) := by
  have hemp : (route.backends.filter
      (fun b => health_get hs route.path_prefix b.name)).isEmpty = false := by
    cases hf : route.backends.filter (fun b => health_get hs route.path_prefix b.name) with
    | nil => exact absurd hf hne
    | cons _ _ => rfl
  have h1 : size_t_of_int (c : Int) = c := size_t_of_int_nat c (by omega)
  have h2 : size_t_of_int ((c : Int) + 1) = c + 1 := by
    have := size_t_of_int_nat (c + 1) (by omega)
    simpa using this
  simp only [select_round_robin, get_healthy_backends_fst, hemp, Bool.false_eq_true, if_false,
    map_index_fst, hc, h1, h2, map_find_set, if_true, Option.getD_some]
  exact ⟨trivial, get_healthy_backends_flags hs route, trivial⟩

/-- The filter of the backends of a route depends on the registry through the flags only. -/
theorem healthy_filter_congr (hs hs' : HealthStatus) (route : RouteConfig)
    (h : ∀ p n, health_get hs' p n = health_get hs p n) :
    route.backends.filter (fun b => health_get hs' route.path_prefix b.name) =
      route.backends.filter (fun b => health_get hs route.path_prefix b.name) := by
  congr 1
  funext b
  rw [h]

/-- After `k` calls on an unchanged healthy set, started with the counter 0, the flags are those
of the start and the counter is `k mod |H|`. -/
theorem round_robin_state_inv (hs : HealthStatus) (counters : StdMap Int) (route : RouteConfig)
    (hsize : route.backends.length ≤ 2147483647)
    (hne : route.backends.filter (fun b => health_get hs route.path_prefix b.name) ≠ [])
    (h0 : (map_find counters route.path_prefix).getD 0 = 0) :
    ∀ k : Nat,
      (∀ p n, health_get (round_robin_state route k (hs, counters)).1 p n = health_get hs p n) ∧
      (map_find (round_robin_state route k (hs, counters)).2 route.path_prefix).getD 0 =
        ((k % (route.backends.filter
          (fun b => health_get hs route.path_prefix b.name)).length : Nat) : Int) := by
  have hlen : (route.backends.filter
      (fun b => health_get hs route.path_prefix b.name)).length ≤ 2147483647 :=
    le_trans (List.length_filter_le _ _) hsize
  have hpos : 0 < (route.backends.filter
      (fun b => health_get hs route.path_prefix b.name)).length :=
    List.length_pos.mpr hne
  intro k
  induction k with
  | zero => exact ⟨fun _ _ => rfl, by simpa [round_robin_state] using h0⟩
  | succ k ih =>
    obtain ⟨hflags, hcount⟩ := ih
    have hfilter := healthy_filter_congr hs (round_robin_state route k (hs, counters)).1 route
      hflags
    have hstep := select_round_robin_step (round_robin_state route k (hs, counters)).1
      (round_robin_state route k (hs, counters)).2 route
      (k % (route.backends.filter
        (fun b => health_get hs route.path_prefix b.name)).length)
      (by rw [hfilter]; exact hne) hcount
      (lt_of_lt_of_le (Nat.mod_lt _ hpos) hlen)
    rw [hfilter] at hstep
    refine ⟨fun p n => ?_, ?_⟩
    · show health_get (select_round_robin _ _ route).2.1 p n = _
      rw [hstep.2.1, hflags]
    · show (map_find (select_round_robin _ _ route).2.2 route.path_prefix).getD 0 = _
      rw [hstep.2.2]
      congr 1
      exact Nat.mod_add_mod k _ 1
/-- Counterexample for C28: the first call meets the snapshot `[a]`, the second the snapshot
`[a, b]`. The code stores the counter reduced modulo the size of the snapshot, so after the
first call it is 0 again and the second call returns `a`; a counter raised by one on every
selection would be 1 at the second call and select `b`. -/
theorem round_robin_counter_is_reduced :
    (get_healthy_backends only_a_healthy two_backend_route).1 =
      [BackendServer.make "a" "10.0.0.2" 9001 1] ∧
    (get_healthy_backends both_healthy two_backend_route).1 =
      [BackendServer.make "a" "10.0.0.2" 9001 1, BackendServer.make "b" "10.0.0.3" 9002 3] ∧
    (select_round_robin only_a_healthy [("/api/", 0)] two_backend_route).1 =
      some (BackendServer.make "a" "10.0.0.2" 9001 1) ∧
    (select_round_robin both_healthy
      (select_round_robin only_a_healthy [("/api/", 0)] two_backend_route).2.2
      two_backend_route).1 = some (BackendServer.make "a" "10.0.0.2" 9001 1) ∧
    (spec_round_robin
      [BackendServer.make "a" "10.0.0.2" 9001 1, BackendServer.make "b" "10.0.0.3" 9002 3]
      (spec_round_robin [BackendServer.make "a" "10.0.0.2" 9001 1] 0).2).1 =
      some (BackendServer.make "b" "10.0.0.3" 9002 3) := by
  decide

/-- C28 (amended): round robin. Let `H` be the healthy snapshot of the route at a call of
`select_round_robin` (the route has at most `INT_MAX` backends). When `H` is empty the call
returns nothing and leaves the counters alone. When `H` is not empty and the counter of the
route is `c` (0 when the route has no counter yet), the call returns `H[c mod |H|]` and stores
`(c + 1) mod |H|` as the new counter. Hence with a healthy set that does not change and a
counter that starts at 0, the call number `k` returns `H[k mod |H|]`, as the rule of the
specification does, and `|H|` consecutive calls return the backends of `H` once each, in
configured order. -/
theorem round_robin_cycle (hs : HealthStatus) (counters : StdMap Int) (route : RouteConfig)
    (hsize : route.backends.length ≤ 2147483647) :
    (route.backends.filter (fun b => health_get hs route.path_prefix b.name) = [] →
      (select_round_robin hs counters route).1 = none ∧
      (select_round_robin hs counters route).2.2 = counters) ∧
    (∀ c : Nat,
      route.backends.filter (fun b => health_get hs route.path_prefix b.name) ≠ [] →
      (map_find counters route.path_prefix).getD 0 = (c : Int) → c < 2147483647 →
      (select_round_robin hs counters route).1 =
        (route.backends.filter (fun b => health_get hs route.path_prefix b.name))[c %
          (route.backends.filter (fun b => health_get hs route.path_prefix b.name)).length]? ∧
      (map_find (select_round_robin hs counters route).2.2 route.path_prefix).getD 0 =
        (((c + 1) % (route.backends.filter
          (fun b => health_get hs route.path_prefix b.name)).length : Nat) : Int)) ∧
    (route.backends.filter (fun b => health_get hs route.path_prefix b.name) ≠ [] →
      (map_find counters route.path_prefix).getD 0 = 0 →
      (∀ k, round_robin_result route k (hs, counters) =
        (route.backends.filter (fun b => health_get hs route.path_prefix b.name))[k %
          (route.backends.filter (fun b => health_get hs route.path_prefix b.name)).length]? ∧
        round_robin_result route k (hs, counters) =
          (spec_round_robin
            (route.backends.filter (fun b => health_get hs route.path_prefix b.name)) k).1) ∧
      (List.range
        (route.backends.filter (fun b => health_get hs route.path_prefix b.name)).length).map
        (fun k => round_robin_result route k (hs, counters)) =
        (route.backends.filter (fun b => health_get hs route.path_prefix b.name)).map some) := by
  refine ⟨?_, ?_, ?_⟩
  · intro hnil
    simp only [select_round_robin, get_healthy_backends_fst, hnil, List.isEmpty_nil, if_true,
      and_self]
  · intro c hne hc hbound
    have hstep := select_round_robin_step hs counters route c hne hc hbound
    exact ⟨hstep.1, hstep.2.2⟩
  · intro hne h0
    have hlen : (route.backends.filter
        (fun b => health_get hs route.path_prefix b.name)).length ≤ 2147483647 :=
      le_trans (List.length_filter_le _ _) hsize
    have hpos : 0 < (route.backends.filter
        (fun b => health_get hs route.path_prefix b.name)).length :=
      List.length_pos.mpr hne
    have hemp : (route.backends.filter
        (fun b => health_get hs route.path_prefix b.name)).isEmpty = false := by
      cases hf : route.backends.filter (fun b => health_get hs route.path_prefix b.name) with
      | nil => exact absurd hf hne
      | cons _ _ => rfl
    have hres : ∀ k, round_robin_result route k (hs, counters) =
        (route.backends.filter (fun b => health_get hs route.path_prefix b.name))[k %
          (route.backends.filter
            (fun b => health_get hs route.path_prefix b.name)).length]? := by
      intro k
      obtain ⟨hflags, hcount⟩ := round_robin_state_inv hs counters route hsize hne h0 k
      have hfilter := healthy_filter_congr hs (round_robin_state route k (hs, counters)).1
        route hflags
      have hstep := select_round_robin_step (round_robin_state route k (hs, counters)).1
        (round_robin_state route k (hs, counters)).2 route
        (k % (route.backends.filter
          (fun b => health_get hs route.path_prefix b.name)).length)
        (by rw [hfilter]; exact hne) hcount
        (lt_of_lt_of_le (Nat.mod_lt _ hpos) hlen)
      rw [hfilter] at hstep
      unfold round_robin_result
      rw [hstep.1, Nat.mod_mod]
    refine ⟨fun k => ⟨hres k, ?_⟩, ?_⟩
    · rw [hres k]
      simp only [spec_round_robin, hemp, Bool.false_eq_true, if_false]
    · apply List.ext_getElem?
      intro i
      simp only [List.getElem?_map]
      by_cases hi : i < (route.backends.filter
          (fun b => health_get hs route.path_prefix b.name)).length
      · rw [List.getElem?_range hi, List.getElem?_eq_getElem hi]
        simp only [Option.map_some']
        rw [hres i, Nat.mod_eq_of_lt hi, List.getElem?_eq_getElem hi]
      · rw [List.getElem?_eq_none (by simpa using hi),
          List.getElem?_eq_none (by simpa using hi)]
        rfl

/-- Witness for C28: with both backends healthy and the counters of the constructor, two
consecutive calls return `a` and then `b`. -/
theorem round_robin_cycle_witness :
    (List.range (two_backend_route.backends.filter
      (fun b => health_get both_healthy two_backend_route.path_prefix b.name)).length).map
      (fun k => round_robin_result two_backend_route k
        (both_healthy, round_robin_counters_make two_backend_config)) =
      (two_backend_route.backends.filter
        (fun b => health_get both_healthy two_backend_route.path_prefix b.name)).map some :=
  ((round_robin_cycle both_healthy (round_robin_counters_make two_backend_config)
    two_backend_route (by decide)).2.2 (by decide) (by decide)).2

/-! ## The declared length of the body -/

/-- The header lines of two lists written one after the other. -/
theorem wire_block_append (hs₁ hs₂ : List (String × String)) :
    wire_block (hs₁ ++ hs₂) = wire_block hs₁ ++ wire_block hs₂ := by
  induction hs₁ with
  | nil => rfl
  | cons h rest ih => simp [wire_block, ih]

/-- C30: `Content-Length` follows the body. For every response, body `b` and content type `t`,
after `set_body(b, t)` the body is `b`, the header `Content-Type` is `t`, the header
`Content-Length` is the decimal representation of the length of `b`, the status is as before and
so is every header of another name. The serialisation of that response is the status line, the
header lines, among them the line `Content-Length: ` with that number, a blank line, and then
the bytes of `b` and nothing else. -/
theorem content_length_follows_body (r : HttpResponse) (body content_type : String) :
    (r.set_body body content_type).body = body ∧
    map_find (r.set_body body content_type).headers "Content-Type" = some content_type ∧
    map_find (r.set_body body content_type).headers "Content-Length" =
      some (to_string_nat body.length) ∧
    digits_value (to_string_nat body.length).data = body.length ∧
    (r.set_body body content_type).status = r.status ∧
    (∀ name, name ≠ "Content-Type" → name ≠ "Content-Length" →
      map_find (r.set_body body content_type).headers name = map_find r.headers name) ∧
    ∃ pre post,
      (r.set_body body content_type).headers =
        pre ++ ("Content-Length", to_string_nat body.length) :: post ∧
      (r.set_body body content_type).to_string.data =
        wire_status_line r.status ++ ['\r', '\n'] ++ wire_block pre ++
          "Content-Length: ".data ++ (to_string_nat body.length).data ++ ['\r', '\n'] ++
          wire_block post ++ ['\r', '\n'] ++ body.data := by
  have hcl : map_find (r.set_body body content_type).headers "Content-Length" =
      some (to_string_nat body.length) := by
    simp only [HttpResponse.set_body, map_find_set, if_true]
  refine ⟨rfl, ?_, hcl, (toDigits_spec body.length).2.2, rfl, ?_, ?_⟩
  · simp only [HttpResponse.set_body, map_find_set]
    rw [if_neg (by decide)]
    simp only [if_true]
  · intro name h1 h2
    simp only [HttpResponse.set_body, map_find_set, h1, h2, if_false]
  · obtain ⟨pre, post, hsplit⟩ := List.append_of_mem (map_find_mem _ _ _ hcl)
    refine ⟨pre, post, hsplit, ?_⟩
    rw [to_string_data, hsplit, wire_block_append]
    simp only [wire_block, wire_line, List.append_assoc, List.cons_append, List.nil_append,
      List.singleton_append]
    rfl

/-- Witness for C30: a body of five bytes is declared with `Content-Length: 5`. -/
theorem content_length_follows_body_witness :
    map_find ((HttpResponse.make 200).set_body "hello" "text/plain").headers "Content-Length" =
      some (to_string_nat "hello".length) :=
  (content_length_follows_body (HttpResponse.make 200) "hello" "text/plain").2.2.1

/-! ## The rate counter stays below the limit -/

/-- A value that the server reads as the integer `n` is the decimal representation of `n`. -/
theorem redis_integer_some (value : String) (n : Int) (h : redis_integer value = some n) :
    to_string_int n = value ∧ INT64_MIN ≤ n ∧ n ≤ INT64_MAX := by
  simp only [redis_integer] at h
  generalize (if (minus_sign value.data).1 = true then
    -((digits_value (minus_sign value.data).2 : Nat) : Int)
    else ((digits_value (minus_sign value.data).2 : Nat) : Int)) = m at h
  by_cases hc : to_string_int m = value ∧ INT64_MIN ≤ m ∧ m ≤ INT64_MAX
  · simp only [hc, and_self, if_true, Option.some.injEq] at h
    rw [← h]
    exact hc
  · simp only [hc, if_false] at h
    cases h

/-- The value `std::stoi` returns lies in the range of `int`. -/
theorem stoi_ok_range (s : String) (c : Int) (h : stoi s = Except.ok c) :
    INT_MIN ≤ c ∧ c ≤ INT_MAX := by
  simp only [stoi] at h
  generalize (if (stoi_sign (List.dropWhile is_space s.data)).1 = true then
    -((digits_value (List.takeWhile Char.isDigit
      (stoi_sign (List.dropWhile is_space s.data)).2) : Nat) : Int)
    else ((digits_value (List.takeWhile Char.isDigit
      (stoi_sign (List.dropWhile is_space s.data)).2) : Nat) : Int)) = v at h
  split_ifs at h with h1 h2
  simp only [Except.ok.injEq] at h
  rw [← h]
  omega

/-- When `std::stoi` accepts the decimal representation of `n`, it returns `n`. -/
theorem stoi_to_string_int_ok (n c : Int) (h : stoi (to_string_int n) = Except.ok c) :
    c = n := by
  unfold to_string_int at h
  by_cases hneg : n < 0
  · simp only [hneg, if_true] at h
    obtain ⟨hne, hdig, hval⟩ := toDigits_spec n.natAbs
    rw [(stoi_digits _ hne hdig).2, hval] at h
    split_ifs at h
    simp only [Except.ok.injEq] at h
    omega
  · simp only [hneg, if_false] at h
    obtain ⟨hne, hdig, hval⟩ := toDigits_spec n.toNat
    rw [(stoi_digits _ hne hdig).1, hval] at h
    split_ifs at h
    simp only [Except.ok.injEq] at h
    omega

/-- The decimal representation of an integer is never empty. -/
theorem str_empty_to_string_int_all (n : Int) : str_empty (to_string_int n) = false := by
  by_cases hneg : n < 0
  · unfold to_string_int str_empty
    simp [hneg]
  · exact str_empty_to_string_int n (by omega)

/-- The server reads the decimal representation of every 64-bit integer back as that
integer. -/
theorem redis_integer_to_string_int_all (n : Int) (h1 : INT64_MIN ≤ n) (h2 : n ≤ INT64_MAX) :
    redis_integer (to_string_int n) = some n := by
  by_cases hneg : n < 0
  · obtain ⟨hne, hdig, hval⟩ := toDigits_spec n.natAbs
    have hdata : (to_string_int n).data = '-' :: Nat.toDigits 10 n.natAbs := by
      unfold to_string_int
      simp [hneg]
    unfold redis_integer
    rw [hdata]
    have hn : -((digits_value (Nat.toDigits 10 n.natAbs) : Nat) : Int) = n := by
      rw [hval]; omega
    simp only [minus_sign, if_true, hn]
    simp [h1, h2]
  · exact redis_integer_to_string_int n (by omega) h2
/-- Counterexample for C29: with a limit of 3 and a window of 0 seconds the limiter is switched
off; the call is allowed although no counter is created or raised. -/
theorem allowed_call_without_window_keeps_counter :
    1 ≤ no_window_config.rate_limit ∧
    rate_counter empty_store "10.0.0.1" = some 0 ∧
    check_rate_limit no_window_config (some empty_store) "10.0.0.1" =
      (Except.ok true, some empty_store) := by
  decide

/-- C29 (amended): rate counter bound. With a limit `L >= 1`, a window of at least one second
and a reachable store in which the counter of the client is a number `n <= L` (0 when the key is
absent): after a call of `check_rate_limit` the counter is still a number of at most `L`; a
denied call leaves the keys of the store as they were; and an allowed call raises the counter to
`n + 1` (creating it with the value 1 when it was absent) and changes no other key. -/
theorem rate_counter_bound (config : Config) (redis : RedisClient) (client_ip : String)
    (n : Int) (hL : 1 ≤ config.rate_limit) (hW : 1 ≤ config.rate_window_seconds)
    (hreach : redis.reachable = true)
    (hcount : rate_counter redis client_ip = some n) (hle : n ≤ config.rate_limit) :
    ∃ r1, (check_rate_limit config (some redis) client_ip).2 = some r1 ∧
      (∃ m, rate_counter r1 client_ip = some m ∧ m ≤ config.rate_limit) ∧
      ((check_rate_limit config (some redis) client_ip).1 = Except.ok false →
        r1.store = redis.store) ∧
      ((check_rate_limit config (some redis) client_ip).1 = Except.ok true →
        rate_counter r1 client_ip = some (n + 1) ∧
        ∀ k, k ≠ "rate_limit:" ++ client_ip → map_find r1.store k = map_find redis.store k) := by
  have hcond : ¬ (config.rate_limit ≤ 0 ∨ config.rate_window_seconds ≤ 0) := by omega
  have hpos : 0 < config.rate_window_seconds := by omega
  obtain ⟨r1, _, hr1, _, _⟩ := check_rate_limit_sent config redis client_ip
  have hframe := check_rate_limit_frame config redis client_ip r1 hr1
  refine ⟨r1, hr1, ?_⟩
  cases hfind : map_find redis.store ("rate_limit:" ++ client_ip) with
  | none =>
    have hn : n = 0 := by
      simp only [rate_counter, hfind, Option.some.injEq] at hcount
      exact hcount.symm
    obtain ⟨r, hr, _, hentry, _⟩ := check_rate_limit_first config redis client_ip hL hW hreach
      hfind
    rw [hr] at hr1
    simp only [Option.some.injEq] at hr1
    subst hr1
    have hc1 : rate_counter r client_ip = some 1 := by
      simp only [rate_counter, hentry]
      decide
    rw [hr]
    refine ⟨⟨1, hc1, hL⟩, (fun h => by cases h), fun _ => ⟨by rw [hc1, hn]; rfl, hframe.2⟩⟩
  | some entry =>
    have hint : redis_integer entry.value = some n := by
      simpa only [rate_counter, hfind] using hcount
    obtain ⟨hval, h64min, h64max⟩ := redis_integer_some _ _ hint
    have hgi : redis.get_int ("rate_limit:" ++ client_ip) =
        (stoi (to_string_int n),
          { redis with sent := redis.sent ++ [RedisCommand.GET ("rate_limit:" ++ client_ip)] }) := by
      simp only [RedisClient.get_int, RedisClient.get, hreach, hfind, if_true, ← hval,
        c_str_to_string_int, str_empty_to_string_int_all, Bool.false_eq_true, if_false]
    have hsame : ∀ r : RedisClient, r.store = redis.store →
        rate_counter r client_ip = some n := by
      intro r hr
      simp only [rate_counter, hr, hfind]
      exact hint
    cases hst : stoi (to_string_int n) with
    | error e =>
      have hres : check_rate_limit config (some redis) client_ip =
          (Except.error e, some { redis with
            sent := redis.sent ++ [RedisCommand.GET ("rate_limit:" ++ client_ip)] }) := by
        simp only [check_rate_limit, hcond, if_false, hgi, hst]
      rw [hres] at hr1 ⊢
      simp only [Option.some.injEq] at hr1
      subst hr1
      exact ⟨⟨n, hsame _ rfl, hle⟩, fun _ => rfl, (fun h => by cases h)⟩
    | ok c =>
      have hc : c = n := stoi_to_string_int_ok n c hst
      subst hc
      have hrange := stoi_ok_range _ _ hst
      by_cases h0 : c = 0
      · subst h0
        have hres : check_rate_limit config (some redis) client_ip =
            (Except.ok true, some (({ redis with sent := redis.sent ++
              [RedisCommand.GET ("rate_limit:" ++ client_ip)] } : RedisClient).set_with_expiry
              ("rate_limit:" ++ client_ip) "1" config.rate_window_seconds)) := by
          simp only [check_rate_limit, hcond, if_false, hgi, hst, if_true]
        rw [hres] at hr1 ⊢
        simp only [Option.some.injEq] at hr1
        subst hr1
        have hc1 : rate_counter (({ redis with sent := redis.sent ++
            [RedisCommand.GET ("rate_limit:" ++ client_ip)] } : RedisClient).set_with_expiry
            ("rate_limit:" ++ client_ip) "1" config.rate_window_seconds) client_ip =
            some 1 := by
          simp only [rate_counter, RedisClient.set_with_expiry, hreach, hpos, and_self, if_true,
            map_find_set]
          decide
        exact ⟨⟨1, hc1, hL⟩, (fun h => by cases h), fun _ => ⟨by rw [hc1]; rfl, hframe.2⟩⟩
      · by_cases hlt : c < config.rate_limit
        · have hres : check_rate_limit config (some redis) client_ip =
              (Except.ok true, some (({ redis with sent := redis.sent ++
                [RedisCommand.GET ("rate_limit:" ++ client_ip)] } : RedisClient).increment
                ("rate_limit:" ++ client_ip))) := by
            simp only [check_rate_limit, hcond, if_false, hgi, hst, h0, hlt, if_true]
          rw [hres] at hr1 ⊢
          simp only [Option.some.injEq] at hr1
          subst hr1
          have hmax : c + 1 ≤ INT64_MAX := by
            have := hrange.2
            unfold INT_MAX at this
            unfold INT64_MAX
            omega
          have hmin : INT64_MIN ≤ c + 1 := by omega
          have hc1 : rate_counter (({ redis with sent := redis.sent ++
              [RedisCommand.GET ("rate_limit:" ++ client_ip)] } : RedisClient).increment
              ("rate_limit:" ++ client_ip)) client_ip = some (c + 1) := by
            simp only [rate_counter, RedisClient.increment, hreach, hfind, hint, hmax, if_true,
              map_find_set]
            exact redis_integer_to_string_int_all (c + 1) hmin hmax
          exact ⟨⟨c + 1, hc1, by omega⟩, (fun h => by cases h), fun _ => ⟨hc1, hframe.2⟩⟩
        · have hres : check_rate_limit config (some redis) client_ip =
              (Except.ok false, some { redis with
                sent := redis.sent ++ [RedisCommand.GET ("rate_limit:" ++ client_ip)] }) := by
            simp only [check_rate_limit, hcond, if_false, hgi, hst, h0, hlt]
          rw [hres] at hr1 ⊢
          simp only [Option.some.injEq] at hr1
          subst hr1
          exact ⟨⟨c, hsame _ rfl, hle⟩, fun _ => rfl, (fun h => by cases h)⟩

/-- Witness for C29: from an empty store the first call is allowed and creates the counter with
the value 1. -/
theorem rate_counter_bound_witness :
    ∃ r1, (check_rate_limit s2_config (some empty_store) "10.0.0.1").2 = some r1 ∧
      (∃ m, rate_counter r1 "10.0.0.1" = some m ∧ m ≤ s2_config.rate_limit) ∧
      ((check_rate_limit s2_config (some empty_store) "10.0.0.1").1 = Except.ok false →
        r1.store = empty_store.store) ∧
      ((check_rate_limit s2_config (some empty_store) "10.0.0.1").1 = Except.ok true →
        rate_counter r1 "10.0.0.1" = some (0 + 1) ∧
        ∀ k, k ≠ "rate_limit:" ++ "10.0.0.1" →
          map_find r1.store k = map_find empty_store.store k) :=
  rate_counter_bound s2_config empty_store "10.0.0.1" 0 (by decide) (by decide) (by decide)
    (by decide) (by decide)

/-! ## Configuration loading -/

/-- Indexing a section gives the member. -/
theorem index_of_section (v : JsonValue) (key : String) (h : is_section v = true) :
    v.index key = Except.ok (json_member v key) := by
  cases v with
  | null => rfl
  | object members =>
    simp only [JsonValue.index, json_member]
    cases map_find members key <;> rfl
  | _ => simp [is_section] at h

/-- A path of one key from a section. -/
theorem json_path_one (v : JsonValue) (k : String) (h : is_section v = true) :
    json_path v [k] = Except.ok (json_member v k) := by
  simp only [json_path, index_of_section v k h]

/-- A path of two keys through sections. -/
theorem json_path_two (v : JsonValue) (s k : String) (h1 : is_section v = true)
    (h2 : is_section (json_member v s) = true) :
    json_path v [s, k] = Except.ok (json_member (json_member v s) k) := by
  simp only [json_path, index_of_section v s h1, index_of_section _ k h2]

/-- An integer field converts to its value. -/
theorem asInt_of_field (v : JsonValue) (h : is_int_field v = true) :
    ∃ n, v.asInt = Except.ok n ∧ ∀ p, v = JsonValue.int p → n = p := by
  cases v with
  | null => exact ⟨0, rfl, fun p hp => by cases hp⟩
  | int w =>
    simp only [is_int_field, decide_eq_true_eq] at h
    exact ⟨w, by simp only [JsonValue.asInt, h, and_self, if_true],
      fun p hp => by cases hp; rfl⟩
  | _ => simp [is_int_field] at h

/-- A boolean field converts to its value. -/
theorem asBool_of_field (v : JsonValue) (h : is_bool_field v = true) :
    ∃ b, v.asBool = Except.ok b ∧ ∀ p, v = JsonValue.bool p → b = p := by
  cases v with
  | null => exact ⟨false, rfl, fun p hp => by cases hp⟩
  | bool w => exact ⟨w, rfl, fun p hp => by cases hp; rfl⟩
  | _ => simp [is_bool_field] at h

/-- A string field converts to its value. -/
theorem asString_of_field (f : Rat → String) (v : JsonValue) (h : is_string_field v = true) :
    ∃ s, v.asString f = Except.ok s ∧ ∀ p, v = JsonValue.string p → s = p := by
  cases v with
  | null => exact ⟨"", rfl, fun p hp => by cases hp⟩
  | string w => exact ⟨w, rfl, fun p hp => by cases hp; rfl⟩
  | _ => simp [is_string_field] at h

/-- A run of statements that all end normally and keep the six tested values ends normally and
keeps them. -/
theorem run_steps_keep (steps : List LoadStep)
    (h : ∀ step ∈ steps, ∀ c, ∃ c', step c = (Except.ok (), c') ∧
      tested_getters c' = tested_getters c) :
    ∀ c, ∃ c', run_steps steps c = (Except.ok (), c') ∧
      tested_getters c' = tested_getters c := by
  induction steps with
  | nil => intro c; exact ⟨c, rfl, rfl⟩
  | cons step rest ih =>
    intro c
    obtain ⟨c1, h1, g1⟩ := h step (List.mem_cons_self _ _) c
    obtain ⟨c2, h2, g2⟩ := ih (fun s hs => h s (List.mem_cons_of_mem _ hs)) c1
    exact ⟨c2, by simp only [run_steps, h1, h2], by rw [g2, g1]⟩

/-- An assignment whose expression has a value ends normally. -/
theorem assign_from_keep {α : Type} (value : Except CppException α) (v : α)
    (store : Config → α → Config) (hv : value = Except.ok v)
    (hs : ∀ c, tested_getters (store c v) = tested_getters c) :
    ∀ c, ∃ c', assign_from value store c = (Except.ok (), c') ∧
      tested_getters c' = tested_getters c := by
  intro c
  exact ⟨store c v, by simp only [assign_from, hv], hs c⟩

/-- A guarded statement ends normally when the statement does. -/
theorem when_set_keep (flag : Config → Bool) (step : LoadStep)
    (h : ∀ c, ∃ c', step c = (Except.ok (), c') ∧ tested_getters c' = tested_getters c) :
    ∀ c, ∃ c', when_set flag step c = (Except.ok (), c') ∧
      tested_getters c' = tested_getters c := by
  intro c
  unfold when_set
  split_ifs
  · exact h c
  · exact ⟨c, rfl, rfl⟩

/-- The loop over a list of strings ends normally. -/
theorem push_strings_keep (env : LoadEnv) (store : Config → String → Config)
    (hs : ∀ c s, tested_getters (store c s) = tested_getters c) (items : List JsonValue)
    (hitems : items.all is_string_field = true) :
    ∀ c, ∃ c', push_strings env store items c = (Except.ok (), c') ∧
      tested_getters c' = tested_getters c := by
  induction items with
  | nil => intro c; exact ⟨c, rfl, rfl⟩
  | cons item rest ih =>
    intro c
    simp only [List.all_cons, Bool.and_eq_true] at hitems
    obtain ⟨s, hs1, _⟩ := asString_of_field env.valueToString item hitems.1
    obtain ⟨c', h1, g1⟩ := ih hitems.2 (store c s)
    exact ⟨c', by simp only [push_strings, hs1, h1], by rw [g1, hs]⟩

/-- The values a loop over a list of strings visits are strings. -/
theorem string_list_elements (v : JsonValue) (h : is_string_list v = true) :
    v.elements.all is_string_field = true := by
  cases v with
  | null => rfl
  | array items => exact h
  | _ => simp [is_string_list] at h

/-- A backend of the schema is parsed without an exception. -/
theorem parse_backend_ok (env : LoadEnv) (backend : JsonValue)
    (h : is_backend_json backend = true) : ∃ x, parse_backend env backend = Except.ok x := by
  simp only [is_backend_json, Bool.and_eq_true] at h
  obtain ⟨⟨⟨⟨hsec, hname⟩, hhost⟩, hport⟩, hweight⟩ := h
  obtain ⟨name, h1, _⟩ := asString_of_field env.valueToString _ hname
  obtain ⟨host, h2, _⟩ := asString_of_field env.valueToString _ hhost
  obtain ⟨port, h3, _⟩ := asInt_of_field _ hport
  obtain ⟨weight, h4, _⟩ := asInt_of_field _ hweight
  refine ⟨BackendServer.make name host port weight, ?_⟩
  simp only [parse_backend, read_string, read_int, json_path_one _ _ hsec, h1, h2, h3, h4,
    bind, Except.bind, pure, Except.pure]

/-- A list of backends of the schema is parsed without an exception. -/
theorem parse_backends_ok (env : LoadEnv) (items : List JsonValue)
    (h : items.all is_backend_json = true) : ∃ xs, parse_backends env items = Except.ok xs := by
  induction items with
  | nil => exact ⟨[], rfl⟩
  | cons item rest ih =>
    simp only [List.all_cons, Bool.and_eq_true] at h
    obtain ⟨x, hx⟩ := parse_backend_ok env item h.1
    obtain ⟨xs, hxs⟩ := ih h.2
    exact ⟨x :: xs, by simp only [parse_backends, hx, hxs, bind, Except.bind, pure,
      Except.pure]⟩

/-- The values a loop over a list of backends visits are backends. -/
theorem backend_list_elements (v : JsonValue) (h : is_backend_list v = true) :
    v.elements.all is_backend_json = true := by
  cases v with
  | null => rfl
  | array items => exact h
  | _ => simp [is_backend_list] at h

/-- A route of the schema is parsed without an exception. -/
theorem parse_route_ok (env : LoadEnv) (route_json : JsonValue)
    (h : is_route_json route_json = true) : ∃ x, parse_route env route_json = Except.ok x := by
  simp only [is_route_json, Bool.and_eq_true] at h
  obtain ⟨⟨⟨⟨⟨hsec, hpfx⟩, hws⟩, hce⟩, httl⟩, hbs⟩ := h
  obtain ⟨pfx, h1, _⟩ := asString_of_field env.valueToString _ hpfx
  obtain ⟨ws, h2, _⟩ := asBool_of_field _ hws
  obtain ⟨ce, h3, _⟩ := asBool_of_field _ hce
  obtain ⟨ttl, h4, _⟩ := asInt_of_field _ httl
  obtain ⟨bs, h5⟩ := parse_backends_ok env _ (backend_list_elements _ hbs)
  cases ce with
  | true =>
    simp only [parse_route, read_string, read_bool, read_int,
      json_path_one _ _ hsec, index_of_section _ _ hsec, h1, h2, h3, h4, h5, bind, Except.bind,
      pure, Except.pure, if_true]
    exact ⟨_, rfl⟩
  | false =>
    simp only [parse_route, read_string, read_bool, read_int,
      json_path_one _ _ hsec, index_of_section _ _ hsec, h1, h2, h3, h4, h5, bind, Except.bind,
      pure, Except.pure, Bool.false_eq_true, if_false]
    exact ⟨_, rfl⟩

/-- The loop over a list of routes of the schema ends normally and touches the routes only. -/
theorem parse_routes_loop_keep (env : LoadEnv) (items : List JsonValue)
    (h : items.all is_route_json = true) :
    ∀ c, ∃ c', parse_routes_loop env items c = (Except.ok (), c') ∧
      tested_getters c' = tested_getters c := by
  induction items with
  | nil => intro c; exact ⟨c, rfl, rfl⟩
  | cons item rest ih =>
    intro c
    simp only [List.all_cons, Bool.and_eq_true] at h
    obtain ⟨x, hx⟩ := parse_route_ok env item h.1
    obtain ⟨c', h1, g1⟩ := ih h.2 { c with routes := c.routes ++ [x] }
    exact ⟨c', by simp only [parse_routes_loop, hx, h1], by rw [g1]; rfl⟩

/-- The values a loop over a list of routes visits are routes. -/
theorem route_list_elements (v : JsonValue) (h : is_route_list v = true) :
    v.elements.all is_route_json = true := by
  cases v with
  | null => rfl
  | array items => exact h
  | _ => simp [is_route_list] at h

/-- A path of three keys through sections. -/
theorem json_path_three (v : JsonValue) (s t k : String) (h1 : is_section v = true)
    (h2 : is_section (json_member v s) = true)
    (h3 : is_section (json_member (json_member v s) t) = true) :
    json_path v [s, t, k] = Except.ok (json_member (json_member (json_member v s) t) k) := by
  simp only [json_path, index_of_section v s h1, index_of_section _ t h2,
    index_of_section _ k h3]

/-- The membership test on a section does not throw. -/
theorem isMember_of_section (v : JsonValue) (key : String) (h : is_section v = true) :
    ∃ b, v.isMember key = Except.ok b := by
  cases v with
  | null => exact ⟨false, rfl⟩
  | object members => exact ⟨_, rfl⟩
  | _ => simp [is_section] at h

/-- The statements of `Config::load` after the SSL paths, on a well-formed document, end
normally and keep the six tested values. -/
theorem load_tail_keep (env : LoadEnv) (root : JsonValue)
    (hwf : well_formed_config root = true) :
    ∀ step ∈ (load_steps env root).drop 6, ∀ c, ∃ c', step c = (Except.ok (), c') ∧
      tested_getters c' = tested_getters c := by
  simp only [well_formed_config, Bool.and_eq_true, and_assoc] at hwf
  obtain ⟨hroot, _, hsecu, hcors, hperf, hcache, _, _, _, _, _, _, hjwt, hsecret, hrl, hrw,
    hgz, hrh, hrp, hrpw, horig, hips, hroutes⟩ := hwf
  obtain ⟨jwt, hjwt', _⟩ := asBool_of_field _ hjwt
  obtain ⟨secret, hsecret', _⟩ := asString_of_field env.valueToString _ hsecret
  obtain ⟨rl, hrl', _⟩ := asInt_of_field _ hrl
  obtain ⟨rw, hrw', _⟩ := asInt_of_field _ hrw
  obtain ⟨gz, hgz', _⟩ := asBool_of_field _ hgz
  obtain ⟨rh, hrh', _⟩ := asString_of_field env.valueToString _ hrh
  obtain ⟨rp, hrp', _⟩ := asInt_of_field _ hrp
  obtain ⟨rpw, hrpw', _⟩ := asString_of_field env.valueToString _ hrpw
  simp only [load_steps, List.drop_succ_cons, List.drop_zero, List.mem_cons,
    List.mem_singleton, List.not_mem_nil, or_false]
  rintro step (rfl | rfl | rfl | rfl | rfl | rfl | rfl | rfl | rfl | rfl | rfl)
  · exact assign_from_keep _ jwt _
      (by simp only [read_bool, json_path_two _ _ _ hroot hsecu, hjwt']) (fun _ => rfl)
  · exact when_set_keep _ _ (assign_from_keep _ secret _
      (by simp only [read_string, json_path_two _ _ _ hroot hsecu, hsecret']) (fun _ => rfl))
  · exact assign_from_keep _ rl _
      (by simp only [read_int, json_path_two _ _ _ hroot hperf, hrl']) (fun _ => rfl)
  · exact assign_from_keep _ rw _
      (by simp only [read_int, json_path_two _ _ _ hroot hperf, hrw']) (fun _ => rfl)
  · exact assign_from_keep _ gz _
      (by simp only [read_bool, json_path_two _ _ _ hroot hperf, hgz']) (fun _ => rfl)
  · exact assign_from_keep _ rh _
      (by simp only [read_string, json_path_two _ _ _ hroot hcache, hrh']) (fun _ => rfl)
  · exact assign_from_keep _ rp _
      (by simp only [read_int, json_path_two _ _ _ hroot hcache, hrp']) (fun _ => rfl)
  · intro c
    obtain ⟨b, hb⟩ := isMember_of_section _ "redis_password" hcache
    simp only [json_path_one _ _ hroot, hb]
    cases b with
    | true =>
      exact assign_from_keep _ rpw _
        (by simp only [read_string, json_path_two _ _ _ hroot hcache, hrpw']) (fun _ => rfl) c
    | false => exact ⟨c, rfl, rfl⟩
  · intro c
    simp only [json_path_three _ _ _ _ hroot hsecu hcors]
    refine push_strings_keep env _ ?_ _ (string_list_elements _ horig) c
    intro _ _; rfl
  · intro c
    simp only [json_path_two _ _ _ hroot hsecu]
    refine push_strings_keep env _ ?_ _ (string_list_elements _ hips) c
    intro _ _; rfl
  · intro c
    simp only [json_path_one _ _ hroot, parse_routes]
    obtain ⟨c', h1, g1⟩ := parse_routes_loop_keep env _ (route_list_elements _ hroutes)
      { c with routes := [] }
    exact ⟨c', h1, by rw [g1]; rfl⟩

/-- The first six statements of `Config::load` on a well-formed document: they end normally and
leave the values of the document in the six tested members, the WebSocket port and the SSL
paths only when their flag is set. -/
theorem load_head (env : LoadEnv) (root : JsonValue) (c : Config)
    (v1 : Int) (v2 : Bool) (v3 : Int) (v4 : Bool) (v5 v6 : String)
    (h1 : read_int root ["server", "http_port"] = Except.ok v1)
    (h2 : read_bool root ["server", "websocket_enabled"] = Except.ok v2)
    (h3 : read_int root ["server", "websocket_port"] = Except.ok v3)
    (h4 : read_bool root ["security", "ssl_enabled"] = Except.ok v4)
    (h5 : read_string env root ["security", "ssl_cert_path"] = Except.ok v5)
    (h6 : read_string env root ["security", "ssl_key_path"] = Except.ok v6) :
    ∃ c6, run_steps (load_steps env root) c = run_steps ((load_steps env root).drop 6) c6 ∧
      tested_getters c6 =
        (v1, v2, if v2 then v3 else c.websocket_port, v4,
          if v4 then v5 else c.ssl_cert_path, if v4 then v6 else c.ssl_key_path) := by
  have hsplit : load_steps env root =
      (load_steps env root).take 6 ++ (load_steps env root).drop 6 :=
    (List.take_append_drop 6 _).symm
  generalize htl : (load_steps env root).drop 6 = tail at hsplit ⊢
  rw [hsplit]
  cases v2 <;> cases v4 <;>
    simp only [load_steps, List.take_succ_cons, List.take_zero, List.cons_append,
      List.nil_append, run_steps, assign_from, when_set, h1, h2, h3, h4, h5, h6,
      if_true, if_false, Bool.false_eq_true] <;>
    exact ⟨_, rfl, rfl⟩

/-- C25: configuration loading. `Config::load` returns `false` and leaves the object as it was
when the file cannot be opened or its content is not valid JSON; no exception leaves the
function (an exception of a statement of its body is caught and answered `false`). For a
well-formed configuration, a document whose sections are objects and whose fields have the
types of the schema, it returns `true`, and afterwards the getters return the values of the
file: `http_port`, `websocket_enabled`, `ssl_enabled`, the WebSocket port when WebSocket is
enabled, and the certificate and key paths when SSL is enabled. -/
theorem config_load_contract (env : LoadEnv) (config_path : String) (c : Config) :
    (env.ifstream config_path = none → Config.load env config_path c = (false, c)) ∧
    (∀ content, env.ifstream config_path = some content →
      env.parseFromStream content = none → Config.load env config_path c = (false, c)) ∧
    (∀ content root, env.ifstream config_path = some content →
      env.parseFromStream content = some root → well_formed_config root = true →
      (Config.load env config_path c).1 = true ∧
      (∀ p, json_member (json_member root "server") "http_port" = JsonValue.int p →
        (Config.load env config_path c).2.http_port = p) ∧
      (∀ b, json_member (json_member root "server") "websocket_enabled" = JsonValue.bool b →
        (Config.load env config_path c).2.websocket_enabled = b) ∧
      (∀ p, json_member (json_member root "server") "websocket_enabled" = JsonValue.bool true →
        json_member (json_member root "server") "websocket_port" = JsonValue.int p →
        (Config.load env config_path c).2.websocket_port = p) ∧
      (∀ b, json_member (json_member root "security") "ssl_enabled" = JsonValue.bool b →
        (Config.load env config_path c).2.ssl_enabled = b) ∧
      (∀ s, json_member (json_member root "security") "ssl_enabled" = JsonValue.bool true →
        json_member (json_member root "security") "ssl_cert_path" = JsonValue.string s →
        (Config.load env config_path c).2.ssl_cert_path = s) ∧
      (∀ s, json_member (json_member root "security") "ssl_enabled" = JsonValue.bool true →
        json_member (json_member root "security") "ssl_key_path" = JsonValue.string s →
        (Config.load env config_path c).2.ssl_key_path = s)) := by
  refine ⟨?_, ?_, ?_⟩
  · intro hfile
    simp only [Config.load, hfile]
  · intro content hfile hparse
    simp only [Config.load, hfile, hparse]
  · intro content root hfile hparse hwf
    have htail := load_tail_keep env root hwf
    simp only [well_formed_config, Bool.and_eq_true, and_assoc] at hwf
    obtain ⟨hroot, hserver, hsecu, _, _, _, hport, hwse, hwsp, hssl, hcert, hkey, _⟩ := hwf
    obtain ⟨v1, e1, s1⟩ := asInt_of_field _ hport
    obtain ⟨v2, e2, s2⟩ := asBool_of_field _ hwse
    obtain ⟨v3, e3, s3⟩ := asInt_of_field _ hwsp
    obtain ⟨v4, e4, s4⟩ := asBool_of_field _ hssl
    obtain ⟨v5, e5, s5⟩ := asString_of_field env.valueToString _ hcert
    obtain ⟨v6, e6, s6⟩ := asString_of_field env.valueToString _ hkey
    obtain ⟨c6, hrun, hg6⟩ := load_head env root c v1 v2 v3 v4 v5 v6
      (by simp only [read_int, json_path_two _ _ _ hroot hserver, e1])
      (by simp only [read_bool, json_path_two _ _ _ hroot hserver, e2])
      (by simp only [read_int, json_path_two _ _ _ hroot hserver, e3])
      (by simp only [read_bool, json_path_two _ _ _ hroot hsecu, e4])
      (by simp only [read_string, json_path_two _ _ _ hroot hsecu, e5])
      (by simp only [read_string, json_path_two _ _ _ hroot hsecu, e6])
    obtain ⟨c', hrest, hg⟩ := run_steps_keep _ htail c6
    have hload : Config.load env config_path c = (true, c') := by
      simp only [Config.load, hfile, hparse, hrun, hrest]
    rw [hg6] at hg
    simp only [tested_getters, Prod.mk.injEq] at hg
    obtain ⟨g1, g2, g3, g4, g5, g6⟩ := hg
    rw [hload]
    refine ⟨rfl, ?_, ?_, ?_, ?_, ?_, ?_⟩
    · intro p hp
      rw [← s1 p hp]; exact g1
    · intro b hb
      rw [← s2 b hb]; exact g2
    · intro p hen hp
      have hv2 : v2 = true := s2 true hen
      rw [← s3 p hp]
      simpa only [hv2, if_true] using g3
    · intro b hb
      rw [← s4 b hb]; exact g4
    · intro s hen hs
      have hv4 : v4 = true := s4 true hen
      rw [← s5 s hs]
      simpa only [hv4, if_true] using g5
    · intro s hen hs
      have hv4 : v4 = true := s4 true hen
      rw [← s6 s hs]
      simpa only [hv4, if_true] using g6

/-- Witness for C25: loading the valid file of the test returns `true` and the getters give the
port 8080, the WebSocket port 8081 and the two SSL paths; loading the invalid file returns
`false`. -/
theorem config_load_contract_witness :
    (Config.load test_load_env "../config/proxyConfig.json" Config.make).1 = true ∧
    (Config.load test_load_env "../config/proxyConfig.json" Config.make).2.http_port = 8080 ∧
    (Config.load test_load_env "../config/proxyConfig.json" Config.make).2.websocket_enabled =
      true ∧
    (Config.load test_load_env "../config/proxyConfig.json" Config.make).2.websocket_port =
      8081 ∧
    (Config.load test_load_env "../config/proxyConfig.json" Config.make).2.ssl_enabled = true ∧
    (Config.load test_load_env "../config/proxyConfig.json" Config.make).2.ssl_cert_path =
      "/etc/ssl/certs/fullchain.pem" ∧
    (Config.load test_load_env "../config/proxyConfig.json" Config.make).2.ssl_key_path =
      "/etc/ssl/private/privkey.pem" ∧
    Config.load test_load_env "../config/invalidConfig.json" Config.make =
      (false, Config.make) :=
  have h := (config_load_contract test_load_env "../config/proxyConfig.json" Config.make).2.2
    "proxyConfig" proxyConfig_json rfl rfl (by decide)
  ⟨h.1, h.2.1 8080 rfl, h.2.2.1 true rfl, h.2.2.2.1 8081 rfl rfl, h.2.2.2.2.1 true rfl,
    h.2.2.2.2.2.1 _ rfl rfl, h.2.2.2.2.2.2 _ rfl rfl,
    (config_load_contract test_load_env "../config/invalidConfig.json" Config.make).2.1
      "\x7b invalid" rfl rfl⟩

end ReverseProxy
